import Mathlib

/-!
# Bookstore application: auth/profile service

The file covers the auth/profile service of the backend (namespace
`AuthService`), the statistics cache of the admin dashboard (`AdminDashboard`)
and three storefront pages (`BooksPage`, `BookDetailPage`, `ProfilePage`, with
the JavaScript helpers they share in `JavaScript`). The definitions of all parts
come first, the theorems after them.

The first part is a shallow embedding of `backend/src/auth/auth.service.ts`
(class `AuthService`).

The service talks to three external collaborators, which are kept abstract:

* the Supabase client (`this.supabase`): every call of the service is a query
  on the `users` table ending in `.single()`; a client is a transition function
  on an arbitrary store state, and every issued query is recorded in a call log;
* `bcrypt` (`hash`, `compare`);
* the `JwtService` (`sign`, `verify`).

`memStore` is a reference in-memory store (a list of rows) giving the queries
their table semantics; it instantiates the abstract client in the statements
that speak about rows.
-/

namespace AuthService

/-! ## JavaScript values used by the service -/

/-- Truthiness of an optional string: `undefined`/`null` and `''` are falsy. -/
def truthy (v : Option String) : Bool :=
  match v with
  | some s => s != ""
  | none => false

/-- The expression `v || d` for an optional string `v` and a string default `d`. -/
def orDefault (v : Option String) (d : String) : String :=
  match v with
  | some s => if s != "" then s else d
  | none => d

/-- A `Date` built by `new Date(s)`, identified with the timestamp it was built from. -/
structure Date where
  value : String
  deriving DecidableEq, Repr

/-- Exceptions thrown by the service: Nest's `UnauthorizedException` and the plain `Error`. -/
inductive Exn where
  | UnauthorizedException (message : String)
  | Error (message : String)
  deriving DecidableEq, Repr

/-- The `message` property of a thrown exception. -/
def Exn.message : Exn → String
  | .UnauthorizedException m => m
  | .Error m => m

/-! ## Data model -/

/-- A row of the `users` table (snake_case columns). -/
structure UserRow where
  id : String
  full_name : String
  email : String
  password : String
  role : Option String
  phone : Option String
  created_at : String
  updated_at : Option String
  deriving DecidableEq, Repr

/-- The user view handed to callers (`UserResponseDto`); it has no password field. -/
structure UserResponseDto where
  id : String
  fullName : String
  email : String
  isAdmin : Bool
  role : String
  createdAt : Date
  updatedAt : Option Date
  phone : Option String
  deriving DecidableEq, Repr

/-- Modelled from the spec: the declaration of `CreateUserDto` (in
`models/user.model.ts`) is not among the sources. The fields `fullName`, `email`
and `password` are the ones `register` reads; `role` and `isAdmin` stand for a
role or admin flag supplied with the registration input. -/
structure CreateUserDto where
  fullName : String
  email : String
  password : String
  role : Option String := none
  isAdmin : Option Bool := none
  deriving DecidableEq, Repr

/-- The login input (`LoginDto`). -/
structure LoginDto where
  email : String
  password : String
  deriving DecidableEq, Repr

/-- The payload of `updateProfile` (`updateData: any`): every field may be
`undefined`; `extra` holds any other keys of the object. -/
structure UpdateData where
  fullName : Option String := none
  email : Option String := none
  phone : Option String := none
  currentPassword : Option String := none
  newPassword : Option String := none
  extra : List (String × String) := []
  deriving DecidableEq, Repr

/-- The object passed to `.insert([...])` by `register`. -/
structure InsertRow where
  full_name : String
  email : String
  password : String
  role : String
  deriving DecidableEq, Repr

/-- The object `updateFields` built by `updateProfile`. An absent key is `none`;
`phone := some none` is the key `phone` with value `null`. -/
structure UpdateFields where
  updated_at : String
  full_name : Option String := none
  email : Option String := none
  phone : Option (Option String) := none
  password : Option String := none
  deriving DecidableEq, Repr

/-- The claims object signed into and read from a token. -/
structure JwtPayload where
  sub : String
  email : String
  isAdmin : Bool
  role : String
  deriving DecidableEq, Repr

/-- The success envelope of `updateProfile`. -/
structure UpdateProfileResult where
  success : Bool
  message : String
  user : UserResponseDto
  deriving DecidableEq, Repr

/-! ## The Supabase client -/

/-- A filter of the query builder: `.eq(column, value)` or `.neq(column, value)`. -/
inductive Filter where
  | eq (column : String) (value : String)
  | neq (column : String) (value : String)
  deriving DecidableEq, Repr

/-- The queries the service issues on `from('users')`, each ended by `.single()`:
`select(columns)` with filters, `insert([row]).select()`, and
`update(fields)` with filters followed by `.select()`. -/
inductive Query where
  | select (columns : String) (filters : List Filter)
  | insert (row : InsertRow)
  | update (fields : UpdateFields) (filters : List Filter)
  deriving DecidableEq, Repr

/-- Whether a query writes to the table. -/
def Query.isMutation : Query → Bool
  | .select _ _ => false
  | .insert _ => true
  | .update _ _ => true

/-- The error object of a failed query. -/
structure PostgrestError where
  message : String
  code : String := ""
  deriving DecidableEq, Repr

/-- The result of a `.single()` query: either a row and no error, or an error and no row. -/
inductive PostgrestSingleResponse where
  | success (data : UserRow)
  | failure (error : PostgrestError)
  deriving DecidableEq, Repr

/-- The `data` property of a response (`null` on failure). -/
def PostgrestSingleResponse.data : PostgrestSingleResponse → Option UserRow
  | .success d => some d
  | .failure _ => none

/-- The `error` property of a response (`null` on success). -/
def PostgrestSingleResponse.error : PostgrestSingleResponse → Option PostgrestError
  | .success _ => none
  | .failure e => some e

/-- A Supabase client over a store state `σ`: how one `.single()` query is answered
and what it does to the store. -/
structure SupabaseClient (σ : Type) where
  single : Query → σ → PostgrestSingleResponse × σ

/-- The password hashing library. -/
structure Bcrypt where
  hash : String → Nat → String
  compare : String → String → Bool

/-- The token library: `verify` is `.error e` when the library throws `e`
(bad signature, expired or malformed token). -/
structure JwtService where
  sign : JwtPayload → String
  verify : String → Except Exn JwtPayload

/-- The state a call of the service runs in: the store and the log of the
queries issued so far (oldest first). -/
structure World (σ : Type) where
  db : σ
  calls : List Query

/-- Issue one query: `await this.supabase.from('users')....single()`. -/
def issue {σ : Type} (supabase : SupabaseClient σ) (q : Query) (w : World σ) :
    PostgrestSingleResponse × World σ :=
  ((supabase.single q w.db).1, { db := (supabase.single q w.db).2, calls := w.calls ++ [q] })

/-- Issue a list of queries one after the other. -/
def issueAll {σ : Type} (supabase : SupabaseClient σ) : List Query → World σ → World σ
  | [], w => w
  | q :: qs, w => issueAll supabase qs (issue supabase q w).2

/-! ## The service -/

/-- The method `register` (source lines 26-70). -/
def register {σ : Type} (supabase : SupabaseClient σ) (bcrypt : Bcrypt)
    (createUserDto : CreateUserDto) (w : World σ) :
    Except Exn UserResponseDto × World σ :=
  let r1 := issue supabase (.select "*" [.eq "email" createUserDto.email]) w
  match r1.1.data with
  | some _ => (.error (.UnauthorizedException "Email đã được sử dụng"), r1.2)
  | none =>
    let hashedPassword := bcrypt.hash createUserDto.password 10
    let r2 := issue supabase
      (.insert
        { full_name := createUserDto.fullName
          email := createUserDto.email
          password := hashedPassword
          role := "customer" }) r1.2
    match r2.1 with
    | .failure error => (.error (.Error ("Đăng ký thất bại: " ++ error.message)), r2.2)
    | .success data =>
      (.ok
        { id := data.id
          fullName := data.full_name
          email := data.email
          isAdmin := data.role == some "admin"
          role := orDefault data.role "customer"
          createdAt := ⟨data.created_at⟩
          updatedAt := if truthy data.updated_at then data.updated_at.map Date.mk else none
          phone := data.phone }, r2.2)

/-- The method `login` (source lines 73-120). -/
def login {σ : Type} (supabase : SupabaseClient σ) (bcrypt : Bcrypt) (jwtService : JwtService)
    (loginDto : LoginDto) (w : World σ) :
    Except Exn (String × UserResponseDto) × World σ :=
  let r := issue supabase (.select "*" [.eq "email" loginDto.email]) w
  match r.1 with
  | .failure _ => (.error (.UnauthorizedException "Email hoặc mật khẩu không đúng"), r.2)
  | .success user =>
    let isPasswordValid := bcrypt.compare loginDto.password user.password
    if !isPasswordValid then
      (.error (.UnauthorizedException "Email hoặc mật khẩu không đúng"), r.2)
    else
      let payload : JwtPayload :=
        { sub := user.id
          email := user.email
          isAdmin := user.role == some "admin"
          role := orDefault user.role "customer" }
      let token := jwtService.sign payload
      (.ok (token,
        { id := user.id
          fullName := user.full_name
          email := user.email
          isAdmin := user.role == some "admin"
          role := orDefault user.role "customer"
          createdAt := ⟨user.created_at⟩
          updatedAt := if truthy user.updated_at then user.updated_at.map Date.mk else none
          phone := user.phone }), r.2)

/-- The `try` block of `getUserFromToken` (source lines 125-147). -/
def getUserFromTokenTry {σ : Type} (supabase : SupabaseClient σ) (jwtService : JwtService)
    (token : String) (w : World σ) : Except Exn UserResponseDto × World σ :=
  match jwtService.verify token with
  | .error e => (.error e, w)
  | .ok payload =>
    let r := issue supabase (.select "*" [.eq "id" payload.sub]) w
    match r.1 with
    | .failure _ => (.error (.UnauthorizedException "User không tồn tại"), r.2)
    | .success user =>
      (.ok
        { id := user.id
          fullName := user.full_name
          email := user.email
          isAdmin := user.role == some "admin"
          role := orDefault user.role "customer"
          createdAt := ⟨user.created_at⟩
          updatedAt := if truthy user.updated_at then user.updated_at.map Date.mk else none
          phone := user.phone }, r.2)

/-- The method `getUserFromToken` (source lines 123-151): the `try` block, with
every exception replaced in the `catch` block. -/
def getUserFromToken {σ : Type} (supabase : SupabaseClient σ) (jwtService : JwtService)
    (token : String) (w : World σ) : Except Exn UserResponseDto × World σ :=
  match getUserFromTokenTry supabase jwtService token w with
  | (.ok user, w1) => (.ok user, w1)
  | (.error _, w1) => (.error (.UnauthorizedException "Token không hợp lệ"), w1)

/-- Source lines 164-167 of `updateProfile`: stage the full name if present. -/
def stageFullName (updateData : UpdateData) (updateFields : UpdateFields) : UpdateFields :=
  match updateData.fullName with
  | some fullName => { updateFields with full_name := some fullName }
  | none => updateFields

/-- Source lines 169-183 of `updateProfile`: if an email is present, look for
another user with it; throw when one is found, stage the email otherwise. -/
def stageEmail {σ : Type} (supabase : SupabaseClient σ) (userId : String)
    (updateData : UpdateData) (updateFields : UpdateFields) (w : World σ) :
    Except Exn UpdateFields × World σ :=
  match updateData.email with
  | none => (.ok updateFields, w)
  | some email =>
    let r := issue supabase (.select "id" [.eq "email" email, .neq "id" userId]) w
    match r.1.data with
    | some _ => (.error (.Error "Email này đã được sử dụng bởi tài khoản khác"), r.2)
    | none => (.ok { updateFields with email := some email }, r.2)

/-- Source lines 185-188 of `updateProfile`: stage `updateData.phone || null` if a
phone is present. -/
def stagePhone (updateData : UpdateData) (updateFields : UpdateFields) : UpdateFields :=
  match updateData.phone with
  | some phone =>
    { updateFields with phone := some (if truthy (some phone) then some phone else none) }
  | none => updateFields

/-- Source lines 190-215 of `updateProfile`: when `newPassword` and
`currentPassword` are both truthy, fetch the stored hash, check the current
password against it and stage the hash of the new password. -/
def stagePassword {σ : Type} (supabase : SupabaseClient σ) (bcrypt : Bcrypt) (userId : String)
    (updateData : UpdateData) (updateFields : UpdateFields) (w : World σ) :
    Except Exn UpdateFields × World σ :=
  if truthy updateData.newPassword && truthy updateData.currentPassword then
    let r := issue supabase (.select "password" [.eq "id" userId]) w
    match r.1.data with
    | none => (.error (.Error "User không tồn tại"), r.2)
    | some currentUser =>
      let isCurrentPasswordValid :=
        bcrypt.compare (updateData.currentPassword.getD "") currentUser.password
      if !isCurrentPasswordValid then
        (.error (.Error "Mật khẩu hiện tại không đúng"), r.2)
      else
        (.ok { updateFields with
                password := some (bcrypt.hash (updateData.newPassword.getD "") 10) }, r.2)
  else (.ok updateFields, w)

/-- Source lines 217-243 of `updateProfile`: the single store update and the
success envelope. -/
def applyUpdate {σ : Type} (supabase : SupabaseClient σ) (userId : String)
    (updateFields : UpdateFields) (w : World σ) :
    Except Exn UpdateProfileResult × World σ :=
  let r := issue supabase (.update updateFields [.eq "id" userId]) w
  match r.1 with
  | .failure error => (.error (.Error ("Cập nhật thất bại: " ++ error.message)), r.2)
  | .success updatedUser =>
    (.ok
      { success := true
        message := "Cập nhật thông tin thành công"
        user :=
          { id := updatedUser.id
            fullName := updatedUser.full_name
            email := updatedUser.email
            isAdmin := updatedUser.role == some "admin"
            role := orDefault updatedUser.role "customer"
            createdAt := ⟨updatedUser.created_at⟩
            updatedAt :=
              if truthy updatedUser.updated_at then updatedUser.updated_at.map Date.mk else none
            phone := updatedUser.phone } }, r.2)

/-- The `try` block of `updateProfile` (source lines 159-243), in source order;
`now` is the value of `new Date().toISOString()`. A step that throws ends the block. -/
def updateProfileTry {σ : Type} (supabase : SupabaseClient σ) (bcrypt : Bcrypt) (now : String)
    (userId : String) (updateData : UpdateData) (w : World σ) :
    Except Exn UpdateProfileResult × World σ :=
  let updateFields : UpdateFields := { updated_at := now }
  let updateFields := stageFullName updateData updateFields
  match stageEmail supabase userId updateData updateFields w with
  | (.error e, w1) => (.error e, w1)
  | (.ok updateFields, w1) =>
    let updateFields := stagePhone updateData updateFields
    match stagePassword supabase bcrypt userId updateData updateFields w1 with
    | (.error e, w2) => (.error e, w2)
    | (.ok updateFields, w2) => applyUpdate supabase userId updateFields w2

/-- The `catch` block of `updateProfile` (source lines 244-246):
`throw new Error(error.message || 'Có lỗi xảy ra khi cập nhật thông tin')`. -/
def updateProfileCatch (error : Exn) : Exn :=
  .Error (orDefault (some error.message) "Có lỗi xảy ra khi cập nhật thông tin")

/-- The method `updateProfile` (source lines 154-247). -/
def updateProfile {σ : Type} (supabase : SupabaseClient σ) (bcrypt : Bcrypt) (now : String)
    (userId : String) (updateData : UpdateData) (w : World σ) :
    Except Exn UpdateProfileResult × World σ :=
  match updateProfileTry supabase bcrypt now userId updateData w with
  | (.ok result, w1) => (.ok result, w1)
  | (.error error, w1) => (.error (updateProfileCatch error), w1)

/-! ## A reference in-memory store

The table is a list of rows. A `.single()` query succeeds when exactly one row
is selected (or written) and fails with PostgREST's `PGRST116` otherwise. The
table itself carries no constraint: ids of inserted rows and their `created_at`
come from the store (`idSupply`, `clock`). -/

/-- The state of the in-memory store. -/
structure Db where
  rows : List UserRow
  idSupply : List String
  clock : String
  deriving DecidableEq, Repr

/-- The value of a column of a row, as text (`none` for SQL `NULL` or an unknown column). -/
def UserRow.column (r : UserRow) (c : String) : Option String :=
  if c = "id" then some r.id
  else if c = "full_name" then some r.full_name
  else if c = "email" then some r.email
  else if c = "password" then some r.password
  else if c = "role" then r.role
  else if c = "phone" then r.phone
  else if c = "created_at" then some r.created_at
  else if c = "updated_at" then r.updated_at
  else none

/-- Whether a row passes a filter (a comparison with `NULL` never passes). -/
def Filter.holds (f : Filter) (r : UserRow) : Bool :=
  match f with
  | .eq c v => r.column c == some v
  | .neq c v =>
    match r.column c with
    | some x => x != v
    | none => false

/-- The rows selected by a list of filters. -/
def matching (filters : List Filter) (rows : List UserRow) : List UserRow :=
  rows.filter (fun r => filters.all (fun f => f.holds r))

/-- The error of `.single()` when the result is not exactly one row. -/
def PGRST116 : PostgrestError :=
  { message := "JSON object requested, multiple (or no) rows returned", code := "PGRST116" }

/-- The `.single()` modifier applied to a result set. -/
def singleOf (result : List UserRow) : PostgrestSingleResponse :=
  match result with
  | [r] => .success r
  | _ => .failure PGRST116

/-- The row obtained by writing the staged fields on a row. -/
def UpdateFields.applyTo (f : UpdateFields) (r : UserRow) : UserRow :=
  { r with
    updated_at := some f.updated_at
    full_name := f.full_name.getD r.full_name
    email := f.email.getD r.email
    phone := f.phone.getD r.phone
    password := f.password.getD r.password }

/-- The in-memory client. A `select` reads the table; an `insert` appends a row with
the next id of the supply (and fails when the store cannot assign one); an `update`
writes the selected rows, and is rolled back when `.single()` fails. -/
def memStore : SupabaseClient Db where
  single q db :=
    match q with
    | .select _ filters => (singleOf (matching filters db.rows), db)
    | .insert row =>
      match db.idSupply with
      | [] => (.failure { message := "could not assign an id" }, db)
      | id :: rest =>
        let r : UserRow :=
          { id := id
            full_name := row.full_name
            email := row.email
            password := row.password
            role := some row.role
            phone := none
            created_at := db.clock
            updated_at := none }
        (.success r, { db with rows := db.rows ++ [r], idSupply := rest })
    | .update fields filters =>
      match matching filters db.rows with
      | [r] =>
        (.success (fields.applyTo r),
          { db with
            rows := List.map
              (fun x => if filters.all (fun f => f.holds x) then fields.applyTo x else x) db.rows })
      | _ => (.failure PGRST116, db)

/-- A store whose `select` queries leave the store state as it is. -/
def ReadOnlySelects {σ : Type} (supabase : SupabaseClient σ) : Prop :=
  ∀ columns filters db, (supabase.single (.select columns filters) db).2 = db

/-- No two rows of the table share an email. -/
def UniqueEmails (rows : List UserRow) : Prop :=
  (rows.map (fun r => r.email)).Nodup

/-- No two rows of the table share an id. -/
def UniqueIds (rows : List UserRow) : Prop :=
  (rows.map (fun r => r.id)).Nodup

/-! ## Derived descriptions of `updateProfile` -/

/-- The queries issued by the email step of `updateProfile`. -/
def emailReads (userId : String) (updateData : UpdateData) : List Query :=
  match updateData.email with
  | some email => [.select "id" [.eq "email" email, .neq "id" userId]]
  | none => []

/-- The queries issued by the password step of `updateProfile`. -/
def passwordReads (userId : String) (updateData : UpdateData) : List Query :=
  if truthy updateData.newPassword && truthy updateData.currentPassword then
    [.select "password" [.eq "id" userId]]
  else []

/-- The object `updateFields` at the store update of `updateProfile`, when every
step before it has passed. -/
def stagedFields (bcrypt : Bcrypt) (now : String) (updateData : UpdateData) : UpdateFields where
  updated_at := now
  full_name := updateData.fullName
  email := updateData.email
  phone := updateData.phone.map (fun phone => if phone = "" then none else some phone)
  password :=
    if truthy updateData.newPassword && truthy updateData.currentPassword then
      some (bcrypt.hash (updateData.newPassword.getD "") 10)
    else none

/-- The reshaping of a store row into the user view, as the spec words it
(snake_case to camelCase, without the password hash). -/
def reshape (row : UserRow) : UserResponseDto where
  id := row.id
  fullName := row.full_name
  email := row.email
  isAdmin := row.role == some "admin"
  role := orDefault row.role "customer"
  createdAt := ⟨row.created_at⟩
  updatedAt := if truthy row.updated_at then row.updated_at.map Date.mk else none
  phone := row.phone

/-- The result of `updateProfile` once the store has answered its update query. -/
def updateOutcome (response : PostgrestSingleResponse) : Except Exn UpdateProfileResult :=
  match response with
  | .failure error => .error (.Error ("Cập nhật thất bại: " ++ error.message))
  | .success updatedUser =>
    .ok { success := true, message := "Cập nhật thông tin thành công", user := reshape updatedUser }

/-- The object `payload` that `login` hands to `jwtService.sign` for a user row
(source lines 98-103). -/
def tokenPayload (user : UserRow) : JwtPayload where
  sub := user.id
  email := user.email
  isAdmin := user.role == some "admin"
  role := orDefault user.role "customer"

/-! ## Sequences of calls -/

/-- A call of one of the two methods that write to the `users` table. -/
inductive ServiceCall where
  | register (createUserDto : CreateUserDto)
  | updateProfile (now : String) (userId : String) (updateData : UpdateData)
  deriving DecidableEq, Repr

/-- The world after one call, whether the call returned or threw. -/
def ServiceCall.run {σ : Type} (supabase : SupabaseClient σ) (bcrypt : Bcrypt)
    (call : ServiceCall) (w : World σ) : World σ :=
  match call with
  | .register createUserDto => (AuthService.register supabase bcrypt createUserDto w).2
  | .updateProfile now userId updateData =>
    (AuthService.updateProfile supabase bcrypt now userId updateData w).2

/-- The world after a sequence of calls executed one at a time. -/
def runCalls {σ : Type} (supabase : SupabaseClient σ) (bcrypt : Bcrypt) :
    List ServiceCall → World σ → World σ
  | [], w => w
  | call :: calls, w => runCalls supabase bcrypt calls (call.run supabase bcrypt w)

/-! ## Sample collaborators and data -/

/-- A toy hashing library: the hash of `p` is `h:p`. -/
def sampleBcrypt : Bcrypt where
  hash p _ := "h:" ++ p
  compare p h := h == "h:" ++ p

/-- A toy token library accepting two tokens, for the subjects `u1` and `u9`. -/
def sampleJwt : JwtService where
  sign p := "tok:" ++ p.sub
  verify t :=
    if t = "tok:u1" then .ok { sub := "u1", email := "an@example.com", isAdmin := false, role := "customer" }
    else if t = "tok:u9" then .ok { sub := "u9", email := "gone@example.com", isAdmin := false, role := "customer" }
    else .error (.Error "jwt malformed")

/-- A stored user, with password `secret`. -/
def sampleUser : UserRow where
  id := "u1"
  full_name := "An"
  email := "an@example.com"
  password := "h:secret"
  role := some "customer"
  phone := none
  created_at := "2024-01-01T00:00:00.000Z"
  updated_at := none

/-- A second stored user. -/
def otherUser : UserRow where
  id := "u2"
  full_name := "Binh"
  email := "binh@example.com"
  password := "h:hunter2"
  role := some "admin"
  phone := some "0900000000"
  created_at := "2024-01-02T00:00:00.000Z"
  updated_at := none

/-- A store holding the two sample users. -/
def sampleDb : Db where
  rows := [sampleUser, otherUser]
  idSupply := ["u3", "u4"]
  clock := "2024-02-01T00:00:00.000Z"

/-- A world over the sample store in which no query has been issued yet. -/
def sampleWorld : World Db where
  db := sampleDb
  calls := []

/-- An empty store. -/
def emptyWorld : World Db where
  db := { rows := [], idSupply := ["u1", "u2"], clock := "2024-01-01T00:00:00.000Z" }
  calls := []

/-- A token library accepting two tokens for the subject `u2`, the older one
carrying claims that no longer match the stored row. -/
def claimsJwt : JwtService where
  sign p := "tok:" ++ p.sub
  verify t :=
    if t = "old" then
      .ok { sub := "u2", email := "old@example.com", isAdmin := false, role := "customer" }
    else if t = "new" then
      .ok { sub := "u2", email := "binh@example.com", isAdmin := true, role := "admin" }
    else .error (.Error "jwt malformed")

/-- A sequence of calls on the sample store: a registration, a second registration
of the same email, a profile update asking for a taken email and one asking for
a free email. -/
def sampleCalls : List ServiceCall :=
  [ .register { fullName := "Chi", email := "chi@example.com", password := "pw1" },
    .register { fullName := "Chi again", email := "chi@example.com", password := "pw2" },
    .updateProfile "2024-03-01T00:00:00.000Z" "u1" { email := some "binh@example.com" },
    .updateProfile "2024-03-01T00:00:00.000Z" "u2" { email := some "b2@example.com" } ]

end AuthService

/-!
# Admin dashboard: the statistics cache

A shallow embedding of `fetchData` and `handleRefresh` of
`frontend/src/pages/admin/DashboardPage.jsx`. The component state is the React
state (`stats`, `loading`, `refreshing`) and the cache slot `cacheRef.current`.
`dashboardService.getDashboardStats()` is external: its answer to a call is an
argument of `fetchData`, and the number of calls made is counted in the state.
A call of `fetchData` runs to completion before the next one starts. Times are
the milliseconds of `Date.now()`; numbers are integers.
-/

namespace AdminDashboard

/-- An element of `recentOrders` or `lowStockBooks`, kept as delivered by the service. -/
structure Item where
  json : String
  deriving DecidableEq, Repr

/-- The object answered by `dashboardService.getDashboardStats()`: any field may
be missing. -/
structure DashboardStats where
  totalBooks : Option Int := none
  totalOrders : Option Int := none
  totalUsers : Option Int := none
  totalRevenue : Option Int := none
  recentOrders : Option (List Item) := none
  lowStockBooks : Option (List Item) := none
  deriving DecidableEq, Repr

/-- The statistics object held in the `stats` state and in the cache. -/
structure Stats where
  totalBooks : Int
  totalOrders : Int
  totalUsers : Int
  totalRevenue : Int
  recentOrders : List Item
  lowStockBooks : List Item
  deriving DecidableEq, Repr

/-- The object `cacheRef.current`. -/
structure Cache where
  data : Option Stats
  timestamp : Int
  ttl : Int
  deriving DecidableEq, Repr

/-- The state of the component, with the count of the calls made to the
dashboard service. -/
structure State where
  stats : Stats
  loading : Bool
  refreshing : Bool
  cacheRef : Cache
  serviceCalls : Nat
  deriving DecidableEq, Repr

/-- The expression `n || 0` for a number that may be missing. -/
def orZero (n : Option Int) : Int :=
  match n with
  | some v => if v = 0 then 0 else v
  | none => 0

/-- The expression `xs || []` for an array that may be missing. -/
def orEmpty (xs : Option (List Item)) : List Item :=
  match xs with
  | some v => v
  | none => []

/-- The state of the component when it is mounted (source lines 8-25). -/
def initialState : State where
  stats :=
    { totalBooks := 0, totalOrders := 0, totalUsers := 0, totalRevenue := 0,
      recentOrders := [], lowStockBooks := [] }
  loading := true
  refreshing := false
  cacheRef := { data := none, timestamp := 0, ttl := 2 * 60 * 1000 }
  serviceCalls := 0

/-- The object `fallbackStats` (source lines 75-82). -/
def fallbackStats : Stats where
  totalBooks := 248
  totalOrders := 157
  totalUsers := 84
  totalRevenue := 15680000
  recentOrders := []
  lowStockBooks := []

/-- Source lines 41-89 of `fetchData`: the call to the dashboard service and what
follows it. On an answer the statistics are rebuilt, cached with the time `now`
and displayed; on a failure the fallback is displayed and stored as the cache
data when the cache holds none, and nothing is changed otherwise. The `finally`
block clears `loading` and `refreshing`. -/
def refetch (now : Int) (response : Except String DashboardStats) (s : State) : State :=
  match response with
  | .ok dashboardStats =>
    let newStats : Stats :=
      { totalBooks := orZero dashboardStats.totalBooks
        totalOrders := orZero dashboardStats.totalOrders
        totalUsers := orZero dashboardStats.totalUsers
        totalRevenue := orZero dashboardStats.totalRevenue
        recentOrders := orEmpty dashboardStats.recentOrders
        lowStockBooks := orEmpty dashboardStats.lowStockBooks }
    { stats := newStats
      loading := false
      refreshing := false
      cacheRef := { data := some newStats, timestamp := now, ttl := 2 * 60 * 1000 }
      serviceCalls := s.serviceCalls + 1 }
  | .error _ =>
    match s.cacheRef.data with
    | none =>
      { stats := fallbackStats
        loading := false
        refreshing := false
        cacheRef := { s.cacheRef with data := some fallbackStats }
        serviceCalls := s.serviceCalls + 1 }
    | some _ =>
      { s with loading := false, refreshing := false, serviceCalls := s.serviceCalls + 1 }

/-- The function `fetchData` (source lines 31-90); `now` is the value of
`Date.now()` and `response` is what the dashboard service answers if called. -/
def fetchData (forceRefresh : Bool) (now : Int) (response : Except String DashboardStats)
    (s : State) : State :=
  match forceRefresh, s.cacheRef.data with
  | false, some data =>
    if now - s.cacheRef.timestamp < s.cacheRef.ttl then
      { s with stats := data, loading := false }
    else refetch now response s
  | _, _ => refetch now response s

/-- The handler `handleRefresh` (source lines 93-95). -/
def handleRefresh (now : Int) (response : Except String DashboardStats) (s : State) : State :=
  fetchData true now response s

/-- The callback of the auto-refresh timer (source lines 111-113), run every
`5 * 60 * 1000` ms: it calls `fetchData()` with the default `forceRefresh = false`. -/
def autoRefreshTick (now : Int) (response : Except String DashboardStats) (s : State) : State :=
  fetchData false now response s

/-- An answer of the dashboard service, used in examples. -/
def sampleAnswer : DashboardStats where
  totalBooks := some 12
  totalOrders := some 3
  totalUsers := some 5
  totalRevenue := some 450000
  recentOrders := some [⟨"order-1"⟩]
  lowStockBooks := none

end AdminDashboard

/-!
# Storefront pages

Shallow embeddings of the parts of `frontend/src/pages/BooksPage.jsx`,
`ProfilePage.jsx` and `BookDetailPage.jsx` that compute with the page state.
Strings are Lean strings; where JavaScript counts UTF-16 code units (`length`)
the count is `utf16Length`. Numbers are integers.
-/

namespace JavaScript

/-- The characters matched by `\s` in a regular expression and removed by
`String.prototype.trim` (white space and line terminators). -/
def isWhiteSpace (c : Char) : Bool :=
  let n := c.toNat
  n == 0x09 || n == 0x0A || n == 0x0B || n == 0x0C || n == 0x0D || n == 0x20 || n == 0xA0
    || n == 0x1680 || (0x2000 ≤ n && n ≤ 0x200A) || n == 0x2028 || n == 0x2029 || n == 0x202F
    || n == 0x205F || n == 0x3000 || n == 0xFEFF

/-- The method `trim`, on the list of characters of a string. -/
def trim (s : List Char) : List Char :=
  ((s.dropWhile isWhiteSpace).reverse.dropWhile isWhiteSpace).reverse

/-- The property `length` of a string: its number of UTF-16 code units. -/
def utf16Length (s : String) : Nat :=
  (s.toList.map (fun c => if c.toNat < 0x10000 then 1 else 2)).sum

/-- The value of a character as a digit of the given radix, if it is one. -/
def digitValue (radix : Nat) (c : Char) : Option Nat :=
  let n := c.toNat
  let v : Option Nat :=
    if 48 ≤ n ∧ n ≤ 57 then some (n - 48)
    else if 97 ≤ n ∧ n ≤ 122 then some (n - 87)
    else if 65 ≤ n ∧ n ≤ 90 then some (n - 55)
    else none
  match v with
  | some d => if d < radix then some d else none
  | none => none

/-- A Number value as `parseInt` can return it: `NaN`, a finite double whose
value is an integer (the zeros are not told apart), or an infinity. -/
inductive Number where
  | nan
  | finite (value : Int)
  | infinity (negative : Bool)
  deriving DecidableEq, Repr

def bitLengthAux : Nat → Nat → Nat
  | 0, _ => 0
  | fuel + 1, n => if n = 0 then 0 else bitLengthAux fuel (n / 2) + 1

/-- The number of binary digits of `n`. -/
def bitLength (n : Nat) : Nat := bitLengthAux n n

/-- The double nearest to the natural number `n`, ties going to the even
significand of 53 bits; `none` when the nearest value has more than 1024
binary digits, that is, is `2^1024` or above, which the Number type renders as
`Infinity`. Below `2^53` every natural number is a double. -/
def roundToDouble (n : Nat) : Option Nat :=
  if n < 2 ^ 53 then some n
  else
    let e := bitLength n - 53
    let q := n / 2 ^ e
    let r := n % 2 ^ e
    let half := 2 ^ (e - 1)
    let q1 := if r > half ∨ (r = half ∧ q % 2 = 1) then q + 1 else q
    if bitLength (q1 * 2 ^ e) ≤ 1024 then some (q1 * 2 ^ e) else none

/-- The constant `Number.MAX_SAFE_INTEGER`, `2^53 - 1`: up to it the integers
are doubles, and so are the sum and the difference of an integer and 1. -/
def MAX_SAFE_INTEGER : Int := 9007199254740991

/-- The first steps of `parseInt(string)` without a radix: leading white space
is skipped, a sign is read, the prefix `0x`/`0X` selects radix 16 (radix 10
otherwise), and the longest run of digits is read as an integer. The result is
the sign, 1 or -1, and that integer, taken exactly; `none` for an empty run. -/
def signAndMathInt (string : String) : Option (Int × Nat) :=
  let s := string.toList.dropWhile isWhiteSpace
  let signed : Int × List Char :=
    match s with
    | '-' :: rest => (-1, rest)
    | '+' :: rest => (1, rest)
    | _ => (1, s)
  let prefixed : Nat × List Char :=
    match signed.2 with
    | '0' :: 'x' :: rest => (16, rest)
    | '0' :: 'X' :: rest => (16, rest)
    | _ => (10, signed.2)
  let z := prefixed.2.takeWhile (fun c => (digitValue prefixed.1 c).isSome)
  if z.isEmpty then none
  else
    some (signed.1,
      z.foldl (fun acc c => acc * prefixed.1 + (digitValue prefixed.1 c).getD 0) 0)

/-- The function `parseInt(string)` without a radix. Its result is a Number:
`NaN` for an empty digit run, and otherwise the double nearest to the signed
integer of the run, so that a run above `2^53` is rounded. -/
def parseInt (string : String) : Number :=
  match signAndMathInt string with
  | none => .nan
  | some (sign, mathInt) =>
    match roundToDouble mathInt with
    | some m => .finite (sign * (m : Int))
    | none => .infinity (decide (sign < 0))

/-- A piece of an anchored regular expression: a literal character, or a
character class followed by `+`. -/
inductive Atom where
  | lit (c : Char)
  | plus (p : Char → Bool)

/-- Whether the whole string matches `^` atoms `$` (with backtracking over `+`). -/
def matchAtoms : List Atom → List Char → Bool
  | [], s => s.isEmpty
  | .lit _ :: _, [] => false
  | .lit c :: rest, x :: xs => x == c && matchAtoms rest xs
  | .plus _ :: _, [] => false
  | .plus p :: rest, x :: xs => p x && (matchAtoms rest xs || matchAtoms (.plus p :: rest) xs)

end JavaScript

namespace BooksPage

/-- The `author` of a book: `id` may be missing. -/
structure Author where
  id : Option String
  name : String
  deriving DecidableEq, Repr

/-- A book as `fetchBooks` reads it: `createdAt` is the time in ms of
`new Date(book.createdAt)` (`none` when the field is missing or not a date),
`categories` holds the ids of the categories. -/
structure Book where
  id : String
  stock : Int
  createdAt : Option Int
  categories : List String
  author : Option Author
  deriving DecidableEq, Repr

/-- The state `filters` (source lines 12-22). -/
structure Filters where
  categoryId : String := ""
  authorId : String := ""
  publisherId : String := ""
  sortBy : String := "title"
  sortOrder : String := "asc"
  page : Nat := 1
  limit : Nat := 12
  isNew : Bool := false
  isPopular : Bool := false
  deriving DecidableEq, Repr

/-- The object answered by `bookService.getAllBooks`. -/
structure Response where
  books : Option (List Book) := none
  data : Option (List Book) := none
  total : Option Nat := none
  deriving DecidableEq, Repr

/-- The state of the page that `fetchBooks` writes. -/
structure State where
  books : List Book
  totalBooks : Nat
  loading : Bool
  error : Option String
  deriving DecidableEq, Repr

/-- The test of the `isNew` filter (source lines 46-47 and 83-84). -/
def isNewBook (now : Int) (book : Book) : Bool :=
  match book.createdAt with
  | some t => decide (t > now - 30 * 24 * 60 * 60 * 1000)
  | none => false

/-- The test of the `isPopular` filter (source lines 53-54 and 90-91):
`book.stock > 0 && book.stock < 10`. The comments on the filter (source lines 21
and 51) give the criterion as `tồn kho thấp < 10`, a low stock, below 10. -/
def isPopularBook (book : Book) : Bool :=
  decide (book.stock > 0) && decide (book.stock < 10)

/-- The `try` block of `fetchBooks` (source lines 41-60) once the service has answered. -/
def fetchBooksTry (now : Int) (response : Response) (currentFilters : Filters) (s : State) :
    State :=
  let filteredBooks : List Book :=
    match response.books with
    | some books => books
    | none => response.data.getD []
  let filteredBooks :=
    if currentFilters.isNew then filteredBooks.filter (isNewBook now) else filteredBooks
  let filteredBooks :=
    if currentFilters.isPopular then filteredBooks.filter isPopularBook else filteredBooks
  { s with
    books := filteredBooks
    totalBooks :=
      if currentFilters.isNew || currentFilters.isPopular then filteredBooks.length
      else
        match response.total with
        | some total => if total = 0 then filteredBooks.length else total
        | none => filteredBooks.length
    error := none }

/-- The `catch` block of `fetchBooks` (source lines 61-96): the dummy books,
filtered on the page. -/
def fetchBooksCatch (now : Int) (dummyBooks : List Book) (message : String)
    (currentFilters : Filters) (s : State) : State :=
  let filteredDummyBooks := dummyBooks
  let filteredDummyBooks :=
    if currentFilters.categoryId ≠ "" then
      filteredDummyBooks.filter
        (fun book => book.categories.any (fun cat => cat == currentFilters.categoryId))
    else filteredDummyBooks
  let filteredDummyBooks :=
    if currentFilters.authorId ≠ "" then
      filteredDummyBooks.filter
        (fun book =>
          match book.author with
          | some author =>
            author.id == some currentFilters.authorId || author.name == currentFilters.authorId
          | none => false)
    else filteredDummyBooks
  let filteredDummyBooks :=
    if currentFilters.isNew then filteredDummyBooks.filter (isNewBook now)
    else filteredDummyBooks
  let filteredDummyBooks :=
    if currentFilters.isPopular then filteredDummyBooks.filter isPopularBook
    else filteredDummyBooks
  { s with
    books := filteredDummyBooks
    totalBooks := filteredDummyBooks.length
    error := some (if message ≠ "" then message else "Không thể tải danh sách sách") }

/-- The function `fetchBooks` (source lines 31-100); `now` is `Date.now()`,
`response` is what `bookService.getAllBooks` answers (the message of the
error when it fails) and `dummyBooks` is the constant of the page. -/
def fetchBooks (now : Int) (dummyBooks : List Book) (response : Except String Response)
    (currentFilters : Filters) (s : State) : State :=
  let s := { s with loading := true }
  let s :=
    match response with
    | .ok response => fetchBooksTry now response currentFilters s
    | .error message => fetchBooksCatch now dummyBooks message currentFilters s
  { s with loading := false }

/-- A sample book with the given id and stock. -/
def sampleBook (id : String) (stock : Int) : Book where
  id := id
  stock := stock
  createdAt := none
  categories := []
  author := none

end BooksPage

namespace BookDetailPage

/-- The book of the page, as the quantity control reads it. The field `stock`
is taken to be an integer, the count of copies that the pages display: this is
an assumption of the model and not something the code enforces, since
`book.model.ts` validates `stock` with `@IsNumber()` and `@Min(0)` only. With a
fractional stock such as 2.5 the `+` button takes a quantity of 2 to 3. -/
structure Book where
  stock : Int
  deriving DecidableEq, Repr

/-- The state of the page that the quantity control reads and writes. -/
structure State where
  book : Option Book
  quantity : Int
  deriving DecidableEq, Repr

/-- The expression `book?.stock || 1`. -/
def stockOrOne (book : Option Book) : Int :=
  match book with
  | some b => if b.stock = 0 then 1 else b.stock
  | none => 1

/-- The handler `handleQuantityChange` (source lines 82-87), for the text
`e.target.value`. The test is `value > 0 && value <= (book?.stock || 1)`: both
comparisons are false of `NaN`, `-Infinity > 0` is false, and
`Infinity <= bound` is false of every finite bound. -/
def handleQuantityChange (value : String) (s : State) : State :=
  match JavaScript.parseInt value with
  | .finite v => if v > 0 ∧ v ≤ stockOrOne s.book then { s with quantity := v } else s
  | .nan => s
  | .infinity _ => s

/-- The `onClick` of the `-` button (source line 230). -/
def decrement (s : State) : State :=
  if s.quantity > 1 then { s with quantity := s.quantity - 1 } else s

/-- The `onClick` of the `+` button (source line 245); the button exists only
when the book does. -/
def increment (s : State) : State :=
  match s.book with
  | some book => if s.quantity < book.stock then { s with quantity := s.quantity + 1 } else s
  | none => s

/-- An operation of the quantity control. -/
inductive QuantityOp where
  | decrement
  | increment
  | typed (value : String)
  deriving DecidableEq, Repr

/-- The state after one operation. -/
def QuantityOp.run (op : QuantityOp) (s : State) : State :=
  match op with
  | .decrement => BookDetailPage.decrement s
  | .increment => BookDetailPage.increment s
  | .typed value => handleQuantityChange value s

/-- The state after a sequence of operations. -/
def runOps : List QuantityOp → State → State
  | [], s => s
  | op :: ops, s => runOps ops (op.run s)

end BookDetailPage

namespace ProfilePage

/-- The state `updateFormData` (source lines 20-27). -/
structure UpdateFormData where
  fullName : String := ""
  email : String := ""
  phone : String := ""
  currentPassword : String := ""
  newPassword : String := ""
  confirmPassword : String := ""
  deriving DecidableEq, Repr

/-- The object `newErrors` of `validateUpdateForm`: a key is `none` when absent. -/
structure UpdateErrors where
  fullName : Option String := none
  email : Option String := none
  phone : Option String := none
  currentPassword : Option String := none
  newPassword : Option String := none
  confirmPassword : Option String := none
  deriving DecidableEq, Repr

/-- The object `updateData` sent to `userService.updateProfile`: `phone = none`
is `null`; `currentPassword` and `newPassword` are `none` when the key is absent. -/
structure UpdateData where
  fullName : String
  email : String
  phone : Option String
  currentPassword : Option String := none
  newPassword : Option String := none
  deriving DecidableEq, Repr

/-- The character class `[^\s@]`. -/
def notSpaceOrAt (c : Char) : Bool :=
  !JavaScript.isWhiteSpace c && c != '@'

/-- The regular expression `/^[^\s@]+@[^\s@]+\.[^\s@]+$/` (source line 225). -/
def emailRegex : List JavaScript.Atom :=
  [.plus notSpaceOrAt, .lit '@', .plus notSpaceOrAt, .lit '.', .plus notSpaceOrAt]

/-- The character class `[0-9]`. -/
def isDigit (c : Char) : Bool :=
  decide (48 ≤ c.toNat) && decide (c.toNat ≤ 57)

/-- The test of the regular expression `/^[0-9]{10,11}$/` (source line 230). -/
def phoneRegexTest (s : String) : Bool :=
  s.toList.all isDigit && (s.toList.length == 10 || s.toList.length == 11)

/-- The object `newErrors` built by `validateUpdateForm` (source lines 217-245). -/
def newErrors (updateFormData : UpdateFormData) : UpdateErrors :=
  { fullName :=
      if (JavaScript.trim updateFormData.fullName.toList).isEmpty then
        some "Tên không được để trống"
      else none
    email :=
      if (JavaScript.trim updateFormData.email.toList).isEmpty then
        some "Email không được để trống"
      else if !JavaScript.matchAtoms emailRegex updateFormData.email.toList then
        some "Email không hợp lệ"
      else none
    phone :=
      if updateFormData.phone ≠ "" ∧ !phoneRegexTest updateFormData.phone then
        some "Số điện thoại phải có 10-11 chữ số"
      else none
    currentPassword :=
      if updateFormData.newPassword ≠ "" ∧ updateFormData.currentPassword = "" then
        some "Vui lòng nhập mật khẩu hiện tại"
      else none
    newPassword :=
      if updateFormData.newPassword ≠ ""
          ∧ JavaScript.utf16Length updateFormData.newPassword < 6 then
        some "Mật khẩu mới phải có ít nhất 6 ký tự"
      else none
    confirmPassword :=
      if updateFormData.newPassword ≠ ""
          ∧ updateFormData.newPassword ≠ updateFormData.confirmPassword then
        some "Mật khẩu xác nhận không khớp"
      else none }

/-- The function `validateUpdateForm` (source lines 216-249): the value returned,
`Object.keys(newErrors).length === 0`, and the errors handed to `setUpdateErrors`. -/
def validateUpdateForm (updateFormData : UpdateFormData) : Bool × UpdateErrors :=
  let errors := newErrors updateFormData
  (errors.fullName.isNone && errors.email.isNone && errors.phone.isNone
      && errors.currentPassword.isNone && errors.newPassword.isNone
      && errors.confirmPassword.isNone,
    errors)

/-- The object `updateData` built by `handleUpdateProfile` (source lines 258-268). -/
def buildUpdateData (updateFormData : UpdateFormData) : UpdateData :=
  let updateData : UpdateData :=
    { fullName := updateFormData.fullName
      email := updateFormData.email
      phone := if updateFormData.phone ≠ "" then some updateFormData.phone else none }
  if updateFormData.newPassword ≠ "" then
    { updateData with
      currentPassword := some updateFormData.currentPassword
      newPassword := some updateFormData.newPassword }
  else updateData

/-- The payload `handleUpdateProfile` sends (source lines 251-271): none when
the form is rejected, in which case the handler returns before any call. -/
def handleUpdateProfile (updateFormData : UpdateFormData) : Option UpdateData :=
  if (validateUpdateForm updateFormData).1 then some (buildUpdateData updateFormData)
  else none

/-- A full name with a character that is not white space. -/
def HasVisibleChar (s : String) : Prop :=
  ∃ c ∈ s.toList, JavaScript.isWhiteSpace c = false

/-- An email of the shape `local@domain.tld`: three non-empty parts without
white space or `@`, joined by one `@` and a `.`. -/
def EmailShape (s : String) : Prop :=
  ∃ l d t : List Char, s.toList = l ++ '@' :: (d ++ '.' :: t)
    ∧ l ≠ [] ∧ d ≠ [] ∧ t ≠ []
    ∧ ∀ c ∈ l ++ d ++ t, JavaScript.isWhiteSpace c = false ∧ c ≠ '@'

/-- A phone that is empty or made of 10 or 11 decimal digits. -/
def PhoneShape (s : String) : Prop :=
  s = "" ∨ ((s.toList.length = 10 ∨ s.toList.length = 11)
    ∧ ∀ c ∈ s.toList, 48 ≤ c.toNat ∧ c.toNat ≤ 57)

/-- The condition on the password fields: nothing when no new password is typed. -/
def PasswordFieldsOk (f : UpdateFormData) : Prop :=
  f.newPassword ≠ "" →
    f.currentPassword ≠ "" ∧ 6 ≤ JavaScript.utf16Length f.newPassword
      ∧ f.confirmPassword = f.newPassword

/-- A form that passes validation and changes the password. -/
def sampleForm : UpdateFormData where
  fullName := "An Nguyen"
  email := "an@example.com"
  phone := "0911222333"
  currentPassword := "secret"
  newPassword := "s3cret!"
  confirmPassword := "s3cret!"

end ProfilePage

namespace AuthService

/-! ## Lemmas on the in-memory store -/

theorem holds_eq_email (r : UserRow) (e : String) :
    (Filter.eq "email" e).holds r = decide (r.email = e) := by
  rw [Bool.eq_iff_iff]; simp [Filter.holds, UserRow.column]

theorem holds_eq_id (r : UserRow) (v : String) :
    (Filter.eq "id" v).holds r = decide (r.id = v) := by
  rw [Bool.eq_iff_iff]; simp [Filter.holds, UserRow.column]

theorem holds_neq_id (r : UserRow) (v : String) :
    (Filter.neq "id" v).holds r = decide (r.id ≠ v) := by
  rw [Bool.eq_iff_iff]; simp [Filter.holds, UserRow.column]

theorem filter_length_le_one_of_nodup_map {α β : Type} [DecidableEq β] (f : α → β) (b : β) :
    ∀ l : List α, (l.map f).Nodup → (l.filter (fun x => decide (f x = b))).length ≤ 1
  | [], _ => by simp
  | a :: l, h => by
    rw [List.map_cons, List.nodup_cons] at h
    have ih := filter_length_le_one_of_nodup_map f b l h.2
    by_cases hab : f a = b
    · have hnone : l.filter (fun x => decide (f x = b)) = [] := by
        rw [List.filter_eq_nil_iff]
        intro x hx hxb
        simp at hxb
        exact h.1 (by rw [hab, ← hxb]; exact List.mem_map_of_mem f hx)
      simp [List.filter_cons, hab, hnone]
    · simp [List.filter_cons, hab, ih]

theorem matching_email (e : String) (rows : List UserRow) :
    matching [.eq "email" e] rows = rows.filter (fun r => decide (r.email = e)) := by
  simp [matching, holds_eq_email]

theorem eq_nil_or_singleton_of_length_le_one (l : List UserRow) (h : l.length ≤ 1) :
    l = [] ∨ ∃ r, l = [r] := by
  match l, h with
  | [], _ => exact Or.inl rfl
  | [r], _ => exact Or.inr ⟨r, rfl⟩
  | _ :: _ :: _, h => simp at h

theorem matching_email_unique (e : String) (rows : List UserRow) (h : UniqueEmails rows) :
    matching [.eq "email" e] rows = [] ∨ ∃ r, matching [.eq "email" e] rows = [r] := by
  rw [matching_email]
  exact eq_nil_or_singleton_of_length_le_one _ (filter_length_le_one_of_nodup_map _ e rows h)

theorem sampleDb_uniqueEmails : UniqueEmails sampleDb.rows := by
  unfold UniqueEmails
  decide

theorem memStore_readOnlySelects : ReadOnlySelects memStore := by
  intro columns filters db
  rfl

theorem memStore_update_preserves {β : Type} (g : UserRow → β) (fields : UpdateFields)
    (filters : List Filter) (db : Db) (hg : ∀ r, g (fields.applyTo r) = g r) :
    (memStore.single (.update fields filters) db).2.rows.map g = db.rows.map g := by
  simp only [memStore]
  split
  · simp only [List.map_map]
    apply List.map_congr_left
    intro x _
    simp only [Function.comp]
    split
    · exact hg x
    · rfl
  · rfl

theorem memStore_update_other_fields (fields : UpdateFields) (filters : List Filter) (db : Db) :
    (memStore.single (.update fields filters) db).2.idSupply = db.idSupply
      ∧ (memStore.single (.update fields filters) db).2.clock = db.clock := by
  simp only [memStore]
  split <;> exact ⟨rfl, rfl⟩

/-! ## Registration -/

theorem register_twice_memStore (bcrypt : Bcrypt) (db : Db) (calls : List Query)
    (dto1 dto2 : CreateUserDto) (u : UserResponseDto)
    (hu : UniqueEmails db.rows) (he : dto2.email = dto1.email)
    (h1 : (register memStore bcrypt dto1 ⟨db, calls⟩).1 = .ok u) :
    (register memStore bcrypt dto2 (register memStore bcrypt dto1 ⟨db, calls⟩).2).1
        = .error (.UnauthorizedException "Email đã được sử dụng")
      ∧ (register memStore bcrypt dto2 (register memStore bcrypt dto1 ⟨db, calls⟩).2).2.db
        = (register memStore bcrypt dto1 ⟨db, calls⟩).2.db
      ∧ ((register memStore bcrypt dto2
            (register memStore bcrypt dto1 ⟨db, calls⟩).2).2.db.rows.filter
          (fun r => decide (r.email = dto1.email))).length = 1 := by
  rcases matching_email_unique dto1.email db.rows hu with h0 | ⟨r, hr⟩
  · cases hs : db.idSupply with
    | nil => simp [register, issue, memStore, h0, hs, singleOf, PostgrestSingleResponse.data] at h1
    | cons id rest =>
      have hm : matching [.eq "email" dto1.email] db.rows = [] := h0
      rw [matching_email] at h0
      simp [register, issue, memStore, hm, hs, singleOf, PostgrestSingleResponse.data, he,
        matching_email, List.filter_append, h0]
  · simp [register, issue, memStore, hr, singleOf, PostgrestSingleResponse.data] at h1

/-- C1: when the email lookup of `register` returns an existing user, the call fails
with `UnauthorizedException('Email đã được sử dụng')` and the lookup is the only
query issued (no insert); hence, on a table with unique emails, a registration
that follows a successful registration of the same email fails with that error,
leaves the store as it is, and the table holds exactly one row with the email. -/
theorem register_duplicate_email_rejected {σ : Type} (supabase : SupabaseClient σ)
    (bcrypt : Bcrypt) (createUserDto : CreateUserDto) (w : World σ) (existingUser : UserRow)
    (h : (supabase.single (.select "*" [.eq "email" createUserDto.email]) w.db).1
      = .success existingUser) :
    ((register supabase bcrypt createUserDto w).1
        = .error (.UnauthorizedException "Email đã được sử dụng")
      ∧ (register supabase bcrypt createUserDto w).2.calls
        = w.calls ++ [.select "*" [.eq "email" createUserDto.email]]
      ∧ (∀ q ∈ (register supabase bcrypt createUserDto w).2.calls, q ∈ w.calls ∨ q.isMutation = false))
    ∧ ∀ (db : Db) (calls : List Query) (dto1 dto2 : CreateUserDto) (u : UserResponseDto),
        UniqueEmails db.rows → dto2.email = dto1.email →
        (register memStore bcrypt dto1 ⟨db, calls⟩).1 = .ok u →
        (register memStore bcrypt dto2 (register memStore bcrypt dto1 ⟨db, calls⟩).2).1
            = .error (.UnauthorizedException "Email đã được sử dụng")
          ∧ (register memStore bcrypt dto2 (register memStore bcrypt dto1 ⟨db, calls⟩).2).2.db
            = (register memStore bcrypt dto1 ⟨db, calls⟩).2.db
          ∧ ((register memStore bcrypt dto2
                (register memStore bcrypt dto1 ⟨db, calls⟩).2).2.db.rows.filter
              (fun r => decide (r.email = dto1.email))).length = 1 := by
  refine ⟨?_, fun db calls dto1 dto2 u hu he h1 =>
    register_twice_memStore bcrypt db calls dto1 dto2 u hu he h1⟩
  have hc : (register supabase bcrypt createUserDto w).2.calls
      = w.calls ++ [.select "*" [.eq "email" createUserDto.email]] := by
    simp [register, issue, h, PostgrestSingleResponse.data]
  refine ⟨by simp [register, issue, h, PostgrestSingleResponse.data], hc, ?_⟩
  intro q hq
  rw [hc, List.mem_append, List.mem_singleton] at hq
  rcases hq with hq | hq
  · exact Or.inl hq
  · exact Or.inr (by rw [hq]; rfl)

/-- Witness for C1: registering the email of a stored user on the sample store, and
registering a fresh email twice on the empty store. -/
theorem register_duplicate_email_rejected_witness :
    (memStore.single (.select "*" [.eq "email" "an@example.com"]) sampleWorld.db).1
        = .success sampleUser
      ∧ (register memStore sampleBcrypt
          { fullName := "Another An", email := "an@example.com", password := "pw" } sampleWorld).1
        = .error (.UnauthorizedException "Email đã được sử dụng")
      ∧ (register memStore sampleBcrypt
          { fullName := "Another An", email := "an@example.com", password := "pw" } sampleWorld).2.calls
        = [.select "*" [.eq "email" "an@example.com"]]
      ∧ (register memStore sampleBcrypt
          { fullName := "Chi", email := "chi@example.com", password := "pw2" }
          (register memStore sampleBcrypt
            { fullName := "Chi", email := "chi@example.com", password := "pw1" } emptyWorld).2).1
        = .error (.UnauthorizedException "Email đã được sử dụng") :=
  have h := register_duplicate_email_rejected memStore sampleBcrypt
    { fullName := "Another An", email := "an@example.com", password := "pw" } sampleWorld
    sampleUser (by rfl)
  ⟨by rfl, h.1.1, h.1.2.1,
    (h.2 emptyWorld.db emptyWorld.calls
      { fullName := "Chi", email := "chi@example.com", password := "pw1" }
      { fullName := "Chi", email := "chi@example.com", password := "pw2" }
      { id := "u1", fullName := "Chi", email := "chi@example.com", isAdmin := false,
        role := "customer", createdAt := ⟨"2024-01-01T00:00:00.000Z"⟩, updatedAt := none,
        phone := none }
      (by simp [UniqueEmails, emptyWorld]) rfl (by rfl)).1⟩

/-! ## Login -/

/-- C2: a login whose email lookup fails (no row with the email, or a store error)
and a login whose lookup finds the user but whose password does not match the
stored hash raise the same exception: `UnauthorizedException` with the message
'Email hoặc mật khẩu không đúng'. -/
theorem login_failures_indistinguishable {σ τ : Type}
    (supabase1 : SupabaseClient σ) (supabase2 : SupabaseClient τ)
    (bcrypt1 bcrypt2 : Bcrypt) (jwt1 jwt2 : JwtService) (dto1 dto2 : LoginDto)
    (w1 : World σ) (w2 : World τ) (error : PostgrestError) (user : UserRow)
    (hmiss : (supabase1.single (.select "*" [.eq "email" dto1.email]) w1.db).1 = .failure error)
    (hfound : (supabase2.single (.select "*" [.eq "email" dto2.email]) w2.db).1 = .success user)
    (hbad : bcrypt2.compare dto2.password user.password = false) :
    (login supabase1 bcrypt1 jwt1 dto1 w1).1 = (login supabase2 bcrypt2 jwt2 dto2 w2).1
      ∧ (login supabase1 bcrypt1 jwt1 dto1 w1).1
        = .error (.UnauthorizedException "Email hoặc mật khẩu không đúng")
      ∧ (login supabase2 bcrypt2 jwt2 dto2 w2).1
        = .error (.UnauthorizedException "Email hoặc mật khẩu không đúng") := by
  have h1 : (login supabase1 bcrypt1 jwt1 dto1 w1).1
      = .error (.UnauthorizedException "Email hoặc mật khẩu không đúng") := by
    simp [login, issue, hmiss]
  have h2 : (login supabase2 bcrypt2 jwt2 dto2 w2).1
      = .error (.UnauthorizedException "Email hoặc mật khẩu không đúng") := by
    simp [login, issue, hfound, hbad]
  exact ⟨h1.trans h2.symm, h1, h2⟩

/-- Witness for C2: on the sample store, a login with an unknown email and a login
as the first sample user with a wrong password. -/
theorem login_failures_indistinguishable_witness :
    (memStore.single (.select "*" [.eq "email" "nobody@example.com"]) sampleWorld.db).1
        = .failure PGRST116
      ∧ (memStore.single (.select "*" [.eq "email" "an@example.com"]) sampleWorld.db).1
        = .success sampleUser
      ∧ sampleBcrypt.compare "wrong" sampleUser.password = false
      ∧ (login memStore sampleBcrypt sampleJwt
          { email := "nobody@example.com", password := "secret" } sampleWorld).1
        = (login memStore sampleBcrypt sampleJwt
          { email := "an@example.com", password := "wrong" } sampleWorld).1 :=
  ⟨by rfl, by rfl, by rfl,
    (login_failures_indistinguishable memStore memStore sampleBcrypt sampleBcrypt
      sampleJwt sampleJwt { email := "nobody@example.com", password := "secret" }
      { email := "an@example.com", password := "wrong" } sampleWorld sampleWorld
      PGRST116 sampleUser (by rfl) (by rfl) (by rfl)).1⟩

/-! ## Token-based identity lookup -/

/-- C3: for the valid token `tok:u9`, whose subject `u9` has no row in the sample
store, the `try` block throws `UnauthorizedException('User không tồn tại')`, but
the caller of `getUserFromToken` receives `UnauthorizedException('Token không hợp lệ')`. -/
theorem getUserFromToken_deleted_subject :
    sampleJwt.verify "tok:u9"
        = .ok { sub := "u9", email := "gone@example.com", isAdmin := false, role := "customer" }
      ∧ matching [.eq "id" "u9"] sampleWorld.db.rows = []
      ∧ (getUserFromTokenTry memStore sampleJwt "tok:u9" sampleWorld).1
        = .error (.UnauthorizedException "User không tồn tại")
      ∧ (getUserFromToken memStore sampleJwt "tok:u9" sampleWorld).1
        = .error (.UnauthorizedException "Token không hợp lệ")
      ∧ (getUserFromToken memStore sampleJwt "tok:u9" sampleWorld).1
        ≠ .error (.UnauthorizedException "User không tồn tại") := by
  refine ⟨by rfl, by rfl, by rfl, by rfl, ?_⟩
  have h : (getUserFromToken memStore sampleJwt "tok:u9" sampleWorld).1
      = .error (.UnauthorizedException "Token không hợp lệ") := by rfl
  rw [h]
  intro hc
  injection hc with hc
  injection hc with hc
  exact absurd hc (by decide)

/-- C4: every failure of `getUserFromToken` is
`UnauthorizedException('Token không hợp lệ')`: whatever exception the call ends
with is that one, and the call does end with it when the token fails
verification and when the user lookup fails (a store error or no row). -/
theorem getUserFromToken_failures_collapse {σ : Type} (supabase : SupabaseClient σ)
    (jwtService : JwtService) (token : String) (w : World σ) :
    (∀ e, (getUserFromToken supabase jwtService token w).1 = .error e →
        e = .UnauthorizedException "Token không hợp lệ")
      ∧ (∀ e, jwtService.verify token = .error e →
        (getUserFromToken supabase jwtService token w).1
          = .error (.UnauthorizedException "Token không hợp lệ"))
      ∧ (∀ payload error, jwtService.verify token = .ok payload →
        (supabase.single (.select "*" [.eq "id" payload.sub]) w.db).1 = .failure error →
        (getUserFromToken supabase jwtService token w).1
          = .error (.UnauthorizedException "Token không hợp lệ")) := by
  refine ⟨?_, ?_, ?_⟩
  · intro e he
    unfold getUserFromToken at he
    split at he
    · simp at he
    · simp at he
      exact he.symm
  · intro e he
    simp [getUserFromToken, getUserFromTokenTry, he]
  · intro payload error hp hl
    simp [getUserFromToken, getUserFromTokenTry, hp, issue, hl]

/-- Witness for C4: a malformed token, and a valid token whose subject has no row. -/
theorem getUserFromToken_failures_collapse_witness :
    (getUserFromToken memStore sampleJwt "garbage" sampleWorld).1
        = .error (.UnauthorizedException "Token không hợp lệ")
      ∧ (getUserFromToken memStore sampleJwt "tok:u9" sampleWorld).1
        = .error (.UnauthorizedException "Token không hợp lệ") :=
  have h := getUserFromToken_failures_collapse memStore sampleJwt
  ⟨(h "garbage" sampleWorld).2.1 (.Error "jwt malformed") (by rfl),
    (h "tok:u9" sampleWorld).2.2
      { sub := "u9", email := "gone@example.com", isAdmin := false, role := "customer" }
      PGRST116 (by rfl) (by rfl)⟩

/-! ## Messages of `updateProfile` -/

theorem message_ne_of_head_ne (p m s : String)
    (h : ∀ c ∈ p.data.head?, c ∉ s.data.head?) (hp : p.data ≠ []) : p ++ m ≠ s := by
  intro he
  have hd := congrArg String.data he
  rw [String.data_append] at hd
  cases hpd : p.data with
  | nil => exact hp hpd
  | cons c cs =>
    rw [hpd] at hd h
    cases hsd : s.data with
    | nil => rw [hsd] at hd; simp at hd
    | cons c2 cs2 =>
      rw [hsd] at hd h
      simp only [List.cons_append, List.cons.injEq] at hd
      exact h c (by simp) (by simp [hd.1])

theorem update_failed_ne_conflict (m : String) :
    "Cập nhật thất bại: " ++ m ≠ "Email này đã được sử dụng bởi tài khoản khác" :=
  message_ne_of_head_ne _ m _ (by decide) (by decide)

theorem update_failed_ne_missing (m : String) :
    "Cập nhật thất bại: " ++ m ≠ "User không tồn tại" :=
  message_ne_of_head_ne _ m _ (by decide) (by decide)

theorem update_failed_ne_wrong (m : String) :
    "Cập nhật thất bại: " ++ m ≠ "Mật khẩu hiện tại không đúng" :=
  message_ne_of_head_ne _ m _ (by decide) (by decide)

theorem update_failed_ne_empty (m : String) : "Cập nhật thất bại: " ++ m ≠ "" := by
  intro he
  have hd := congrArg String.data he
  rw [String.data_append] at hd
  have : ("Cập nhật thất bại: " : String).data = [] := (List.append_eq_nil.mp hd).1
  exact absurd this (by decide)

/-! ## Profile update: the steps of the `try` block -/

theorem issueAll_calls {σ : Type} (supabase : SupabaseClient σ) :
    ∀ (qs : List Query) (w : World σ), (issueAll supabase qs w).calls = w.calls ++ qs
  | [], w => by simp [issueAll]
  | q :: qs, w => by simp [issueAll, issueAll_calls supabase qs, issue]

theorem issueAll_db_of_reads {σ : Type} (supabase : SupabaseClient σ)
    (hro : ReadOnlySelects supabase) :
    ∀ (qs : List Query) (w : World σ), (∀ q ∈ qs, q.isMutation = false) →
      (issueAll supabase qs w).db = w.db
  | [], w, _ => by simp [issueAll]
  | q :: qs, w, h => by
    have hq : q.isMutation = false := h q (List.mem_cons_self _ _)
    have ih := issueAll_db_of_reads supabase hro qs (issue supabase q w).2
      (fun x hx => h x (List.mem_cons_of_mem _ hx))
    cases q with
    | select columns filters =>
      simp only [issueAll]
      rw [ih]
      simp [issue, hro columns filters w.db]
    | insert row => simp [Query.isMutation] at hq
    | update fields filters => simp [Query.isMutation] at hq

theorem issueAll_append {σ : Type} (supabase : SupabaseClient σ) :
    ∀ (qs rs : List Query) (w : World σ),
      issueAll supabase (qs ++ rs) w = issueAll supabase rs (issueAll supabase qs w)
  | [], rs, w => by simp [issueAll]
  | q :: qs, rs, w => by simp [issueAll, issueAll_append supabase qs rs]

theorem stageEmail_world {σ : Type} (supabase : SupabaseClient σ) (userId : String)
    (updateData : UpdateData) (updateFields : UpdateFields) (w : World σ) :
    (stageEmail supabase userId updateData updateFields w).2
      = issueAll supabase (emailReads userId updateData) w := by
  unfold stageEmail emailReads
  cases updateData.email with
  | none => rfl
  | some email =>
    simp only [issueAll]
    split <;> rfl

theorem stageEmail_result {σ : Type} (supabase : SupabaseClient σ) (userId : String)
    (updateData : UpdateData) (updateFields : UpdateFields) (w : World σ) :
    (stageEmail supabase userId updateData updateFields w).1
      = match updateData.email with
        | none => .ok updateFields
        | some email =>
          match (supabase.single (.select "id" [.eq "email" email, .neq "id" userId]) w.db).1 with
          | .success _ => .error (.Error "Email này đã được sử dụng bởi tài khoản khác")
          | .failure _ => .ok { updateFields with email := some email } := by
  unfold stageEmail
  cases updateData.email with
  | none => rfl
  | some email =>
    simp only [issue]
    cases (supabase.single (.select "id" [.eq "email" email, .neq "id" userId]) w.db).1 <;> rfl

theorem stagePassword_world {σ : Type} (supabase : SupabaseClient σ) (bcrypt : Bcrypt)
    (userId : String) (updateData : UpdateData) (updateFields : UpdateFields) (w : World σ) :
    (stagePassword supabase bcrypt userId updateData updateFields w).2
      = issueAll supabase (passwordReads userId updateData) w := by
  unfold stagePassword passwordReads
  split
  · simp only [issueAll]
    split
    · rfl
    · split <;> rfl
  · rfl

theorem stagePassword_result {σ : Type} (supabase : SupabaseClient σ) (bcrypt : Bcrypt)
    (userId : String) (updateData : UpdateData) (updateFields : UpdateFields) (w : World σ) :
    (stagePassword supabase bcrypt userId updateData updateFields w).1
      = if truthy updateData.newPassword && truthy updateData.currentPassword then
          match (supabase.single (.select "password" [.eq "id" userId]) w.db).1 with
          | .failure _ => .error (.Error "User không tồn tại")
          | .success currentUser =>
            if bcrypt.compare (updateData.currentPassword.getD "") currentUser.password then
              .ok { updateFields with
                      password := some (bcrypt.hash (updateData.newPassword.getD "") 10) }
            else .error (.Error "Mật khẩu hiện tại không đúng")
        else .ok updateFields := by
  unfold stagePassword
  split
  · simp only [issue]
    cases (supabase.single (.select "password" [.eq "id" userId]) w.db).1 with
    | failure e => rfl
    | success currentUser =>
      simp only [PostgrestSingleResponse.data]
      cases bcrypt.compare (updateData.currentPassword.getD "") currentUser.password <;> rfl
  · rfl

theorem applyUpdate_world {σ : Type} (supabase : SupabaseClient σ) (userId : String)
    (updateFields : UpdateFields) (w : World σ) :
    (applyUpdate supabase userId updateFields w).2
      = issueAll supabase [.update updateFields [.eq "id" userId]] w := by
  unfold applyUpdate
  simp only [issueAll]
  split <;> rfl

theorem stagedFields_eq (bcrypt : Bcrypt) (now : String) (updateData : UpdateData) :
    stagedFields bcrypt now updateData
      = { stagePhone updateData
            { stageFullName updateData { updated_at := now } with
              email := updateData.email } with
          password :=
            if truthy updateData.newPassword && truthy updateData.currentPassword then
              some (bcrypt.hash (updateData.newPassword.getD "") 10)
            else none } := by
  unfold stagedFields stagePhone stageFullName
  cases updateData.fullName <;> cases updateData.phone <;> simp [truthy]

theorem stageEmail_fields {σ : Type} (supabase : SupabaseClient σ) (userId : String)
    (updateData : UpdateData) (updateFields f : UpdateFields) (w : World σ)
    (h : (stageEmail supabase userId updateData updateFields w).1 = .ok f) :
    f = { updateFields with email := updateData.email <|> updateFields.email } := by
  rw [stageEmail_result] at h
  cases hem : updateData.email with
  | none =>
    rw [hem] at h
    simp only [Except.ok.injEq] at h
    rw [← h]
    rfl
  | some email =>
    rw [hem] at h
    simp only at h
    split at h
    · simp at h
    · simp only [Except.ok.injEq] at h
      rw [← h]
      rfl

theorem stageEmail_error {σ : Type} (supabase : SupabaseClient σ) (userId : String)
    (updateData : UpdateData) (updateFields : UpdateFields) (w : World σ) (e : Exn)
    (h : (stageEmail supabase userId updateData updateFields w).1 = .error e) :
    e = .Error "Email này đã được sử dụng bởi tài khoản khác"
      ∧ ∃ email u, updateData.email = some email
        ∧ (supabase.single (.select "id" [.eq "email" email, .neq "id" userId]) w.db).1
          = .success u := by
  rw [stageEmail_result] at h
  cases hem : updateData.email with
  | none => rw [hem] at h; simp at h
  | some email =>
    rw [hem] at h
    simp only at h
    cases hl : (supabase.single (.select "id" [.eq "email" email, .neq "id" userId]) w.db).1 with
    | success u =>
      rw [hl] at h
      simp only [Except.error.injEq] at h
      exact ⟨h.symm, email, u, rfl, hl⟩
    | failure err =>
      rw [hl] at h
      simp at h

theorem stagePassword_fields {σ : Type} (supabase : SupabaseClient σ) (bcrypt : Bcrypt)
    (userId : String) (updateData : UpdateData) (updateFields f : UpdateFields) (w : World σ)
    (h : (stagePassword supabase bcrypt userId updateData updateFields w).1 = .ok f) :
    f = { updateFields with
          password :=
            if truthy updateData.newPassword && truthy updateData.currentPassword then
              some (bcrypt.hash (updateData.newPassword.getD "") 10)
            else updateFields.password } := by
  rw [stagePassword_result] at h
  split at h
  · rename_i ht
    rw [if_pos ht]
    split at h
    · simp at h
    · split at h
      · simp only [Except.ok.injEq] at h
        exact h.symm
      · simp at h
  · rename_i ht
    rw [if_neg ht]
    simp only [Except.ok.injEq] at h
    exact h.symm

theorem stagePassword_error {σ : Type} (supabase : SupabaseClient σ) (bcrypt : Bcrypt)
    (userId : String) (updateData : UpdateData) (updateFields : UpdateFields) (w : World σ)
    (e : Exn)
    (h : (stagePassword supabase bcrypt userId updateData updateFields w).1 = .error e) :
    (truthy updateData.newPassword && truthy updateData.currentPassword) = true
      ∧ (e = .Error "User không tồn tại" ∨ e = .Error "Mật khẩu hiện tại không đúng") := by
  rw [stagePassword_result] at h
  split at h
  · rename_i ht
    refine ⟨ht, ?_⟩
    split at h
    · simp only [Except.error.injEq] at h
      exact Or.inl h.symm
    · split at h
      · simp at h
      · simp only [Except.error.injEq] at h
        exact Or.inr h.symm
  · simp at h

theorem updateProfileTry_unfold {σ : Type} (supabase : SupabaseClient σ) (bcrypt : Bcrypt)
    (now userId : String) (updateData : UpdateData) (w : World σ) :
    updateProfileTry supabase bcrypt now userId updateData w
      = match stageEmail supabase userId updateData
          (stageFullName updateData { updated_at := now }) w with
        | (.error e, w1) => (.error e, w1)
        | (.ok f, w1) =>
          match stagePassword supabase bcrypt userId updateData (stagePhone updateData f) w1 with
          | (.error e, w2) => (.error e, w2)
          | (.ok f, w2) => applyUpdate supabase userId f w2 := rfl

theorem updateProfileTry_outcome {σ : Type} (supabase : SupabaseClient σ) (bcrypt : Bcrypt)
    (now userId : String) (updateData : UpdateData) (w : World σ) :
    (updateProfileTry supabase bcrypt now userId updateData w
        = (.error (.Error "Email này đã được sử dụng bởi tài khoản khác"),
            issueAll supabase (emailReads userId updateData) w)
        ∧ ∃ email u, updateData.email = some email
          ∧ (supabase.single (.select "id" [.eq "email" email, .neq "id" userId]) w.db).1
            = .success u)
      ∨ (updateProfileTry supabase bcrypt now userId updateData w
        = (.error (.Error "User không tồn tại"),
            issueAll supabase (emailReads userId updateData ++ passwordReads userId updateData) w)
        ∧ (truthy updateData.newPassword && truthy updateData.currentPassword) = true
        ∧ ∀ email, updateData.email = some email →
          (supabase.single (.select "id" [.eq "email" email, .neq "id" userId]) w.db).1.data
            = none)
      ∨ (updateProfileTry supabase bcrypt now userId updateData w
        = (.error (.Error "Mật khẩu hiện tại không đúng"),
            issueAll supabase (emailReads userId updateData ++ passwordReads userId updateData) w)
        ∧ (truthy updateData.newPassword && truthy updateData.currentPassword) = true
        ∧ ∀ email, updateData.email = some email →
          (supabase.single (.select "id" [.eq "email" email, .neq "id" userId]) w.db).1.data
            = none)
      ∨ (updateProfileTry supabase bcrypt now userId updateData w
        = applyUpdate supabase userId (stagedFields bcrypt now updateData)
            (issueAll supabase (emailReads userId updateData ++ passwordReads userId updateData) w)
        ∧ ∀ email, updateData.email = some email →
          (supabase.single (.select "id" [.eq "email" email, .neq "id" userId]) w.db).1.data
            = none) := by
  rw [updateProfileTry_unfold]
  have hw1 := stageEmail_world supabase userId updateData
    (stageFullName updateData { updated_at := now }) w
  have hr1 := stageEmail_result supabase userId updateData
    (stageFullName updateData { updated_at := now }) w
  have hf1 := stageEmail_fields supabase userId updateData
    (stageFullName updateData { updated_at := now })
  have he1 := stageEmail_error supabase userId updateData
    (stageFullName updateData { updated_at := now }) w
  rcases hs1 : stageEmail supabase userId updateData
    (stageFullName updateData { updated_at := now }) w with ⟨r1, w1⟩
  rw [hs1] at hw1 he1 hr1
  simp only at hw1 he1 hr1
  cases r1 with
  | error e =>
    simp only
    rw [(he1 e rfl).1, hw1]
    exact Or.inl ⟨rfl, (he1 e rfl).2⟩
  | ok f2 =>
    have hf2 := hf1 f2 w (by rw [hs1])
    have hfree : ∀ email, updateData.email = some email →
        (supabase.single (.select "id" [.eq "email" email, .neq "id" userId]) w.db).1.data
          = none := by
      intro email hem
      rw [hem] at hr1
      simp only at hr1
      cases hl : (supabase.single (.select "id" [.eq "email" email, .neq "id" userId]) w.db).1 with
      | success u => rw [hl] at hr1; simp at hr1
      | failure err => rfl
    simp only
    have hw2 := stagePassword_world supabase bcrypt userId updateData
      (stagePhone updateData f2) w1
    have hf3 := stagePassword_fields supabase bcrypt userId updateData
      (stagePhone updateData f2)
    have he2 := stagePassword_error supabase bcrypt userId updateData
      (stagePhone updateData f2) w1
    rcases hs2 : stagePassword supabase bcrypt userId updateData
      (stagePhone updateData f2) w1 with ⟨r2, w2⟩
    rw [hs2] at hw2 he2
    simp only at hw2 he2
    rw [hw1, ← issueAll_append] at hw2
    cases r2 with
    | error e =>
      simp only
      rcases (he2 e rfl).2 with h | h
      · rw [h, hw2]; exact Or.inr (Or.inl ⟨rfl, (he2 e rfl).1, hfree⟩)
      · rw [h, hw2]; exact Or.inr (Or.inr (Or.inl ⟨rfl, (he2 e rfl).1, hfree⟩))
    | ok f4 =>
      have hf4 := hf3 f4 w1 (by rw [hs2])
      simp only
      refine Or.inr (Or.inr (Or.inr ⟨?_, hfree⟩))
      rw [hw2]
      congr 1
      rw [hf4, hf2, stagedFields_eq]
      unfold stagePhone stageFullName
      cases updateData.fullName <;> cases updateData.phone <;> cases updateData.email <;>
        simp [truthy]

theorem emailReads_reads (userId : String) (updateData : UpdateData) :
    ∀ q ∈ emailReads userId updateData, q.isMutation = false := by
  intro q hq
  unfold emailReads at hq
  cases h : updateData.email with
  | none => rw [h] at hq; simp at hq
  | some email =>
    rw [h] at hq
    simp only [List.mem_singleton] at hq
    rw [hq]; rfl

theorem passwordReads_reads (userId : String) (updateData : UpdateData) :
    ∀ q ∈ passwordReads userId updateData, q.isMutation = false := by
  intro q hq
  unfold passwordReads at hq
  split at hq
  · simp only [List.mem_singleton] at hq
    rw [hq]; rfl
  · simp at hq

theorem reads_append {a b : List Query} (ha : ∀ q ∈ a, q.isMutation = false)
    (hb : ∀ q ∈ b, q.isMutation = false) : ∀ q ∈ a ++ b, q.isMutation = false := by
  intro q hq
  rcases List.mem_append.mp hq with h | h
  · exact ha q h
  · exact hb q h

theorem stageEmail_ok_of_no_conflict {σ : Type} (supabase : SupabaseClient σ) (userId : String)
    (updateData : UpdateData) (updateFields : UpdateFields) (w : World σ)
    (hemail : ∀ email, updateData.email = some email →
      (supabase.single (.select "id" [.eq "email" email, .neq "id" userId]) w.db).1.data = none) :
    stageEmail supabase userId updateData updateFields w
      = (.ok { updateFields with email := updateData.email <|> updateFields.email },
          issueAll supabase (emailReads userId updateData) w) := by
  have hw := stageEmail_world supabase userId updateData updateFields w
  have hr := stageEmail_result supabase userId updateData updateFields w
  rcases hs : stageEmail supabase userId updateData updateFields w with ⟨r, w1⟩
  rw [hs] at hw hr
  simp only at hw hr
  rw [hw, hr]
  congr 1
  cases hem : updateData.email with
  | none => rfl
  | some email =>
    have h := hemail email hem
    simp only
    cases hl : (supabase.single (.select "id" [.eq "email" email, .neq "id" userId]) w.db).1 with
    | success u => rw [hl] at h; simp [PostgrestSingleResponse.data] at h
    | failure e => rfl

theorem stagePassword_wrong {σ : Type} (supabase : SupabaseClient σ) (bcrypt : Bcrypt)
    (userId : String) (updateData : UpdateData) (updateFields : UpdateFields) (w : World σ)
    (newPassword currentPassword : String) (currentUser : UserRow)
    (hnew : updateData.newPassword = some newPassword) (hnew0 : newPassword ≠ "")
    (hcur : updateData.currentPassword = some currentPassword) (hcur0 : currentPassword ≠ "")
    (huser : (supabase.single (.select "password" [.eq "id" userId]) w.db).1
      = .success currentUser)
    (hbad : bcrypt.compare currentPassword currentUser.password = false) :
    stagePassword supabase bcrypt userId updateData updateFields w
      = (.error (.Error "Mật khẩu hiện tại không đúng"),
          issueAll supabase [.select "password" [.eq "id" userId]] w) := by
  have ht : (truthy updateData.newPassword && truthy updateData.currentPassword) = true := by
    simp [hnew, hcur, truthy, hnew0, hcur0]
  have hw := stagePassword_world supabase bcrypt userId updateData updateFields w
  have hr := stagePassword_result supabase bcrypt userId updateData updateFields w
  rcases hs : stagePassword supabase bcrypt userId updateData updateFields w with ⟨r, w1⟩
  rw [hs] at hw hr
  simp only at hw hr
  have hpr : passwordReads userId updateData = [.select "password" [.eq "id" userId]] := by
    unfold passwordReads
    rw [if_pos ht]
  rw [hw, hr, if_pos ht, huser, hpr]
  simp [hcur, hbad]

theorem applyUpdate_eq {σ : Type} (supabase : SupabaseClient σ) (userId : String)
    (updateFields : UpdateFields) (w : World σ) :
    applyUpdate supabase userId updateFields w
      = (updateOutcome (supabase.single (.update updateFields [.eq "id" userId]) w.db).1,
          issueAll supabase [.update updateFields [.eq "id" userId]] w) := by
  unfold applyUpdate updateOutcome
  simp only [issueAll, issue]
  cases (supabase.single (.update updateFields [.eq "id" userId]) w.db).1 <;> rfl

theorem updateProfileCatch_update_failed (m : String) :
    updateProfileCatch (.Error ("Cập nhật thất bại: " ++ m))
      = .Error ("Cập nhật thất bại: " ++ m) := by
  simp [updateProfileCatch, orDefault, Exn.message, update_failed_ne_empty]

theorem updateProfile_outcome {σ : Type} (supabase : SupabaseClient σ) (bcrypt : Bcrypt)
    (now userId : String) (updateData : UpdateData) (w : World σ) :
    (updateProfile supabase bcrypt now userId updateData w
        = (.error (.Error "Email này đã được sử dụng bởi tài khoản khác"),
            issueAll supabase (emailReads userId updateData) w)
        ∧ ∃ email u, updateData.email = some email
          ∧ (supabase.single (.select "id" [.eq "email" email, .neq "id" userId]) w.db).1
            = .success u)
      ∨ (updateProfile supabase bcrypt now userId updateData w
        = (.error (.Error "User không tồn tại"),
            issueAll supabase (emailReads userId updateData ++ passwordReads userId updateData) w)
        ∧ (truthy updateData.newPassword && truthy updateData.currentPassword) = true
        ∧ ∀ email, updateData.email = some email →
          (supabase.single (.select "id" [.eq "email" email, .neq "id" userId]) w.db).1.data
            = none)
      ∨ (updateProfile supabase bcrypt now userId updateData w
        = (.error (.Error "Mật khẩu hiện tại không đúng"),
            issueAll supabase (emailReads userId updateData ++ passwordReads userId updateData) w)
        ∧ (truthy updateData.newPassword && truthy updateData.currentPassword) = true
        ∧ ∀ email, updateData.email = some email →
          (supabase.single (.select "id" [.eq "email" email, .neq "id" userId]) w.db).1.data
            = none)
      ∨ (updateProfile supabase bcrypt now userId updateData w
        = (updateOutcome
              (supabase.single (.update (stagedFields bcrypt now updateData) [.eq "id" userId])
                (issueAll supabase
                  (emailReads userId updateData ++ passwordReads userId updateData) w).db).1,
            issueAll supabase
              (emailReads userId updateData ++ passwordReads userId updateData
                ++ [.update (stagedFields bcrypt now updateData) [.eq "id" userId]]) w)
        ∧ ∀ email, updateData.email = some email →
          (supabase.single (.select "id" [.eq "email" email, .neq "id" userId]) w.db).1.data
            = none) := by
  unfold updateProfile
  rcases updateProfileTry_outcome supabase bcrypt now userId updateData w with
    ⟨h, hc⟩ | ⟨h, hc⟩ | ⟨h, hc⟩ | ⟨h, hc⟩
  · rw [h]; exact Or.inl ⟨rfl, hc⟩
  · rw [h]; exact Or.inr (Or.inl ⟨rfl, hc⟩)
  · rw [h]; exact Or.inr (Or.inr (Or.inl ⟨rfl, hc⟩))
  · rw [h, applyUpdate_eq, ← issueAll_append]
    refine Or.inr (Or.inr (Or.inr ⟨?_, hc⟩))
    cases (supabase.single (.update (stagedFields bcrypt now updateData) [.eq "id" userId])
      (issueAll supabase
        (emailReads userId updateData ++ passwordReads userId updateData) w).db).1 with
    | success u => rfl
    | failure e =>
      simp only [updateOutcome]
      rw [updateProfileCatch_update_failed]

theorem mem_emailReads (userId : String) (updateData : UpdateData) (q : Query)
    (hq : q ∈ emailReads userId updateData) :
    ∃ email, q = .select "id" [.eq "email" email, .neq "id" userId] := by
  unfold emailReads at hq
  cases h : updateData.email with
  | none => rw [h] at hq; simp at hq
  | some email =>
    rw [h] at hq
    exact ⟨email, List.mem_singleton.mp hq⟩

theorem not_both_truthy (updateData : UpdateData)
    (h : updateData.currentPassword = none ∨ updateData.newPassword = none) :
    (truthy updateData.newPassword && truthy updateData.currentPassword) = false := by
  rcases h with h | h <;> simp [h, truthy]

theorem memStore_issueAll_reads (reads : List Query) (w : World Db)
    (h : ∀ q ∈ reads, q.isMutation = false) : (issueAll memStore reads w).db = w.db :=
  issueAll_db_of_reads memStore memStore_readOnlySelects reads w h

theorem issueAll_snoc_db {σ : Type} (supabase : SupabaseClient σ) (qs : List Query) (q : Query)
    (w : World σ) :
    (issueAll supabase (qs ++ [q]) w).db = (supabase.single q (issueAll supabase qs w).db).2 := by
  rw [issueAll_append]
  rfl

/-! ## Profile update: the password step -/

/-- C5: in `updateProfile`, over a store whose selects do not write, with a
non-empty `newPassword`, a non-empty `currentPassword` that `bcrypt.compare`
rejects against the stored hash of the user, and no email conflict, the call
fails with the message 'Mật khẩu hiện tại không đúng'; the store is left as it
was (so the stored hash is unchanged) and only select queries were issued. -/
theorem updateProfile_wrong_current_password {σ : Type} (supabase : SupabaseClient σ)
    (bcrypt : Bcrypt) (now userId : String) (updateData : UpdateData) (w : World σ)
    (newPassword currentPassword : String) (currentUser : UserRow)
    (hro : ReadOnlySelects supabase)
    (hnew : updateData.newPassword = some newPassword) (hnew0 : newPassword ≠ "")
    (hcur : updateData.currentPassword = some currentPassword) (hcur0 : currentPassword ≠ "")
    (hemail : ∀ email, updateData.email = some email →
      (supabase.single (.select "id" [.eq "email" email, .neq "id" userId]) w.db).1.data = none)
    (huser : (supabase.single (.select "password" [.eq "id" userId]) w.db).1
      = .success currentUser)
    (hbad : bcrypt.compare currentPassword currentUser.password = false) :
    (updateProfile supabase bcrypt now userId updateData w).1
        = .error (.Error "Mật khẩu hiện tại không đúng")
      ∧ (updateProfile supabase bcrypt now userId updateData w).2.db = w.db
      ∧ (updateProfile supabase bcrypt now userId updateData w).2.calls
        = w.calls ++ emailReads userId updateData ++ [.select "password" [.eq "id" userId]]
      ∧ ∀ q ∈ emailReads userId updateData ++ [Query.select "password" [.eq "id" userId]],
          q.isMutation = false := by
  have hreads : ∀ q ∈ emailReads userId updateData ++ [Query.select "password" [.eq "id" userId]],
      q.isMutation = false :=
    reads_append (emailReads_reads userId updateData)
      (fun q hq => by rw [List.mem_singleton.mp hq]; rfl)
  have hdb : (issueAll supabase (emailReads userId updateData) w).db = w.db :=
    issueAll_db_of_reads supabase hro _ w (emailReads_reads userId updateData)
  have htry : updateProfileTry supabase bcrypt now userId updateData w
      = (.error (.Error "Mật khẩu hiện tại không đúng"),
          issueAll supabase
            (emailReads userId updateData ++ [.select "password" [.eq "id" userId]]) w) := by
    rw [updateProfileTry_unfold, stageEmail_ok_of_no_conflict supabase userId updateData _ w hemail]
    simp only
    rw [stagePassword_wrong supabase bcrypt userId updateData _ _ newPassword currentPassword
      currentUser hnew hnew0 hcur hcur0 (by rw [hdb]; exact huser) hbad, issueAll_append]
  unfold updateProfile
  rw [htry]
  refine ⟨rfl, ?_, ?_, hreads⟩
  · exact issueAll_db_of_reads supabase hro _ w hreads
  · simp only [issueAll_calls, List.append_assoc]

/-- Witness for C5: the first sample user changes the email to a free one and
gives a wrong current password. -/
theorem updateProfile_wrong_current_password_witness :
    (updateProfile memStore sampleBcrypt "2024-03-01T00:00:00.000Z" "u1"
        { email := some "an2@example.com", newPassword := some "newpw",
          currentPassword := some "wrong" } sampleWorld).1
        = .error (.Error "Mật khẩu hiện tại không đúng")
      ∧ (updateProfile memStore sampleBcrypt "2024-03-01T00:00:00.000Z" "u1"
        { email := some "an2@example.com", newPassword := some "newpw",
          currentPassword := some "wrong" } sampleWorld).2.db = sampleDb :=
  have h := updateProfile_wrong_current_password memStore sampleBcrypt
    "2024-03-01T00:00:00.000Z" "u1"
    { email := some "an2@example.com", newPassword := some "newpw",
      currentPassword := some "wrong" } sampleWorld "newpw" "wrong" sampleUser
    memStore_readOnlySelects rfl (by decide) rfl (by decide)
    (by intro email h; cases h; rfl) (by rfl) (by rfl)
  ⟨h.1, h.2.1⟩

/-- C6: when `currentPassword` or `newPassword` is absent from the payload of
`updateProfile`, the password step is skipped: no `select('password')` query is
issued, any update issued stages no password, the call never fails with the
errors of the password step, it succeeds whenever the email is free and the store
answers the update with a row, and on the in-memory table no stored hash changes. -/
theorem updateProfile_lone_password_skipped {σ : Type} (supabase : SupabaseClient σ)
    (bcrypt : Bcrypt) (now userId : String) (updateData : UpdateData) (w : World σ)
    (h : updateData.currentPassword = none ∨ updateData.newPassword = none) :
    (∃ issued, (updateProfile supabase bcrypt now userId updateData w).2.calls = w.calls ++ issued
        ∧ (∀ filters, Query.select "password" filters ∉ issued)
        ∧ (∀ fields filters, Query.update fields filters ∈ issued → fields.password = none))
      ∧ (∀ e, (updateProfile supabase bcrypt now userId updateData w).1 = .error e →
          e ≠ .Error "User không tồn tại" ∧ e ≠ .Error "Mật khẩu hiện tại không đúng")
      ∧ (∀ updatedUser,
          (∀ email, updateData.email = some email →
            (supabase.single (.select "id" [.eq "email" email, .neq "id" userId]) w.db).1.data
              = none) →
          (supabase.single (.update (stagedFields bcrypt now updateData) [.eq "id" userId])
            (issueAll supabase (emailReads userId updateData) w).db).1 = .success updatedUser →
          (updateProfile supabase bcrypt now userId updateData w).1
            = .ok { success := true, message := "Cập nhật thông tin thành công",
                    user := reshape updatedUser })
      ∧ (∀ (db : Db) (calls : List Query),
          (updateProfile memStore bcrypt now userId updateData ⟨db, calls⟩).2.db.rows.map
              (fun r => (r.id, r.password))
            = db.rows.map (fun r => (r.id, r.password))) := by
  have ht := not_both_truthy updateData h
  have hp : passwordReads userId updateData = [] := by
    unfold passwordReads
    rw [ht]
    rfl
  have hs : (stagedFields bcrypt now updateData).password = none := by
    simp only [stagedFields, ht]
    rfl
  refine ⟨?_, ?_, ?_, ?_⟩
  · rcases updateProfile_outcome supabase bcrypt now userId updateData w with
      ⟨ho, _⟩ | ⟨_, hc⟩ | ⟨_, hc⟩ | ⟨ho, _⟩
    · refine ⟨emailReads userId updateData, by rw [ho, issueAll_calls], ?_, ?_⟩
      · intro filters hq
        obtain ⟨email, he⟩ := mem_emailReads userId updateData _ hq
        simp at he
      · intro fields filters hq
        obtain ⟨email, he⟩ := mem_emailReads userId updateData _ hq
        simp at he
    · rw [ht] at hc; simp at hc
    · rw [ht] at hc; simp at hc
    · refine ⟨_, by rw [ho, issueAll_calls], ?_, ?_⟩
      · intro filters hq
        rw [hp, List.append_nil, List.mem_append, List.mem_singleton] at hq
        rcases hq with hq | hq
        · obtain ⟨email, he⟩ := mem_emailReads userId updateData _ hq
          simp at he
        · simp at hq
      · intro fields filters hq
        rw [hp, List.append_nil, List.mem_append, List.mem_singleton] at hq
        rcases hq with hq | hq
        · obtain ⟨email, he⟩ := mem_emailReads userId updateData _ hq
          simp at he
        · simp only [Query.update.injEq] at hq
          rw [hq.1]
          exact hs
  · intro e he
    rcases updateProfile_outcome supabase bcrypt now userId updateData w with
      ⟨ho, _⟩ | ⟨_, hc⟩ | ⟨_, hc⟩ | ⟨ho, _⟩
    · rw [ho] at he
      simp only [Except.error.injEq] at he
      rw [← he]
      exact ⟨by decide, by decide⟩
    · rw [ht] at hc; simp at hc
    · rw [ht] at hc; simp at hc
    · rw [ho] at he
      simp only at he
      cases hr : (supabase.single (.update (stagedFields bcrypt now updateData) [.eq "id" userId])
        (issueAll supabase
          (emailReads userId updateData ++ passwordReads userId updateData) w).db).1 with
      | success u => rw [hr] at he; simp [updateOutcome] at he
      | failure err =>
        rw [hr] at he
        simp only [updateOutcome, Except.error.injEq] at he
        rw [← he]
        refine ⟨?_, ?_⟩
        · intro hc
          exact update_failed_ne_missing err.message (Exn.Error.inj hc)
        · intro hc
          exact update_failed_ne_wrong err.message (Exn.Error.inj hc)
  · intro updatedUser hfree hupd
    rcases updateProfile_outcome supabase bcrypt now userId updateData w with
      ⟨_, email, u, hem, hl⟩ | ⟨_, hc⟩ | ⟨_, hc⟩ | ⟨ho, _⟩
    · have := hfree email hem
      rw [hl] at this
      simp [PostgrestSingleResponse.data] at this
    · rw [ht] at hc; simp at hc
    · rw [ht] at hc; simp at hc
    · rw [ho]
      simp only [hp, List.append_nil]
      rw [hupd]
      rfl
  · intro db calls
    rcases updateProfile_outcome memStore bcrypt now userId updateData ⟨db, calls⟩ with
      ⟨ho, _⟩ | ⟨_, hc⟩ | ⟨_, hc⟩ | ⟨ho, _⟩
    · rw [ho, memStore_issueAll_reads _ _ (emailReads_reads userId updateData)]
    · rw [ht] at hc; simp at hc
    · rw [ht] at hc; simp at hc
    · have hdb := memStore_issueAll_reads _ ⟨db, calls⟩
        (reads_append (emailReads_reads userId updateData) (passwordReads_reads userId updateData))
      rw [ho]
      simp only
      rw [issueAll_snoc_db, hdb]
      exact memStore_update_preserves (fun r => (r.id, r.password)) _ _ db
        (fun r => by simp [UpdateFields.applyTo, hs])

/-- Witness for C6: the first sample user sends a new password without the current one. -/
theorem updateProfile_lone_password_skipped_witness :
    (updateProfile memStore sampleBcrypt "2024-03-01T00:00:00.000Z" "u1"
        { newPassword := some "newpw" } sampleWorld).1
        = .ok { success := true, message := "Cập nhật thông tin thành công",
                user := reshape { sampleUser with updated_at := some "2024-03-01T00:00:00.000Z" } }
      ∧ (updateProfile memStore sampleBcrypt "2024-03-01T00:00:00.000Z" "u1"
          { newPassword := some "newpw" } sampleWorld).2.db.rows.map (fun r => (r.id, r.password))
        = [("u1", "h:secret"), ("u2", "h:hunter2")] :=
  have h := updateProfile_lone_password_skipped memStore sampleBcrypt
    "2024-03-01T00:00:00.000Z" "u1" { newPassword := some "newpw" } sampleWorld (Or.inl rfl)
  ⟨h.2.2.1 _ (by intro email he; cases he) (by rfl), h.2.2.2 sampleDb []⟩

/-! ## Profile update: frame -/

/-- C7: for a payload of `updateProfile` holding a phone and no full name, email or
password, the only query issued is one update, keyed by the user id, whose fields
are exactly `updated_at` (the current time) and `phone`; on the in-memory table no
row changes its id, email, full name, password hash, role or creation time, and
when the user exists the call succeeds and the table differs only in the phone
and `updated_at` of that user. -/
theorem updateProfile_phone_only {σ : Type} (supabase : SupabaseClient σ) (bcrypt : Bcrypt)
    (now userId : String) (updateData : UpdateData) (w : World σ) (phone : String)
    (hphone : updateData.phone = some phone) (hname : updateData.fullName = none)
    (hemail : updateData.email = none) (hcur : updateData.currentPassword = none)
    (_hnew : updateData.newPassword = none) :
    (updateProfile supabase bcrypt now userId updateData w).2.calls
        = w.calls ++ [.update
            { updated_at := now, full_name := none, email := none,
              phone := some (if phone = "" then none else some phone), password := none }
            [.eq "id" userId]]
      ∧ (∀ (db : Db) (calls : List Query),
          (updateProfile memStore bcrypt now userId updateData ⟨db, calls⟩).2.db.rows.map
              (fun r => (r.id, r.email, r.full_name, r.password, r.role, r.created_at))
            = db.rows.map
              (fun r => (r.id, r.email, r.full_name, r.password, r.role, r.created_at)))
      ∧ (∀ (db : Db) (calls : List Query) (user : UserRow),
          matching [.eq "id" userId] db.rows = [user] →
          (updateProfile memStore bcrypt now userId updateData ⟨db, calls⟩).1
              = .ok { success := true, message := "Cập nhật thông tin thành công",
                      user := reshape { user with
                        phone := if phone = "" then none else some phone
                        updated_at := some now } }
            ∧ (updateProfile memStore bcrypt now userId updateData ⟨db, calls⟩).2.db.rows
              = db.rows.map (fun r =>
                  if r.id = userId then
                    { r with phone := if phone = "" then none else some phone
                             updated_at := some now }
                  else r)) := by
  have ht : (truthy updateData.newPassword && truthy updateData.currentPassword) = false :=
    not_both_truthy updateData (Or.inl hcur)
  have hp : passwordReads userId updateData = [] := by
    unfold passwordReads
    rw [ht]
    rfl
  have he : emailReads userId updateData = [] := by
    unfold emailReads
    rw [hemail]
  have hs : stagedFields bcrypt now updateData
      = { updated_at := now, full_name := none, email := none,
          phone := some (if phone = "" then none else some phone), password := none } := by
    simp [stagedFields, ht, hphone, hname, hemail]
  have hout : ∀ {τ : Type} (client : SupabaseClient τ) (v : World τ),
      updateProfile client bcrypt now userId updateData v
        = (updateOutcome
            (client.single (.update (stagedFields bcrypt now updateData) [.eq "id" userId])
              v.db).1,
          issueAll client
            [.update (stagedFields bcrypt now updateData) [.eq "id" userId]] v) := by
    intro τ client v
    rcases updateProfile_outcome client bcrypt now userId updateData v with
      ⟨_, email, _, hem, _⟩ | ⟨_, hc⟩ | ⟨_, hc⟩ | ⟨ho, _⟩
    · rw [hemail] at hem; cases hem
    · rw [ht] at hc; simp at hc
    · rw [ht] at hc; simp at hc
    · rw [ho, he, hp]
      rfl
  refine ⟨?_, ?_, ?_⟩
  · rw [hout, issueAll_calls, hs]
  · intro db calls
    rw [hout]
    simp only [issueAll, issue]
    exact memStore_update_preserves _ _ _ db (fun r => by simp [UpdateFields.applyTo, hs])
  · intro db calls user hm
    rw [hout, hs]
    simp only [issueAll, issue, memStore, hm, updateOutcome]
    refine ⟨rfl, ?_⟩
    apply List.map_congr_left
    intro r _
    simp [holds_eq_id, UpdateFields.applyTo]

/-- Witness for C7: the first sample user sets a phone number. -/
theorem updateProfile_phone_only_witness :
    (updateProfile memStore sampleBcrypt "2024-03-01T00:00:00.000Z" "u1"
        { phone := some "0911222333" } sampleWorld).2.calls
        = [.update { updated_at := "2024-03-01T00:00:00.000Z", phone := some (some "0911222333") }
            [.eq "id" "u1"]]
      ∧ (updateProfile memStore sampleBcrypt "2024-03-01T00:00:00.000Z" "u1"
          { phone := some "0911222333" } sampleWorld).2.db.rows
        = [{ sampleUser with phone := some "0911222333",
                             updated_at := some "2024-03-01T00:00:00.000Z" }, otherUser] :=
  have h := updateProfile_phone_only memStore sampleBcrypt "2024-03-01T00:00:00.000Z" "u1"
    { phone := some "0911222333" } sampleWorld "0911222333" rfl rfl rfl rfl rfl
  ⟨h.1, (h.2.2 sampleDb [] sampleUser (by rfl)).2⟩

theorem matching_email_neq_id (e userId : String) (rows : List UserRow) :
    matching [.eq "email" e, .neq "id" userId] rows
      = (rows.filter (fun r => decide (r.id ≠ userId))).filter (fun r => decide (r.email = e)) := by
  simp only [matching, List.all_cons, List.all_nil, Bool.and_true, holds_eq_email, holds_neq_id,
    List.filter_filter]

theorem mem_matching_email_neq_id (e userId : String) (rows : List UserRow) (r : UserRow) :
    r ∈ matching [.eq "email" e, .neq "id" userId] rows
      ↔ r ∈ rows ∧ r.email = e ∧ r.id ≠ userId := by
  rw [matching_email_neq_id]
  simp only [List.mem_filter, decide_eq_true_eq]
  tauto

theorem matching_email_neq_id_unique (e userId : String) (rows : List UserRow)
    (h : UniqueEmails rows) :
    matching [.eq "email" e, .neq "id" userId] rows = []
      ∨ ∃ r, matching [.eq "email" e, .neq "id" userId] rows = [r] := by
  rw [matching_email_neq_id]
  apply eq_nil_or_singleton_of_length_le_one
  apply filter_length_le_one_of_nodup_map
  exact List.Nodup.sublist (List.Sublist.map _ (List.filter_sublist _)) h

theorem memStore_conflict_lookup_iff (e userId : String) (db : Db) (h : UniqueEmails db.rows) :
    (∃ u, (memStore.single (.select "id" [.eq "email" e, .neq "id" userId]) db).1 = .success u)
      ↔ ∃ r ∈ db.rows, r.email = e ∧ r.id ≠ userId := by
  simp only [memStore]
  constructor
  · rintro ⟨u, hu⟩
    rcases matching_email_neq_id_unique e userId db.rows h with h0 | ⟨r, hr⟩
    · rw [h0] at hu; simp [singleOf] at hu
    · have hm : r ∈ matching [.eq "email" e, .neq "id" userId] db.rows := by rw [hr]; simp
      rw [mem_matching_email_neq_id] at hm
      exact ⟨r, hm.1, hm.2⟩
  · rintro ⟨r, hr, he, hi⟩
    have hm : r ∈ matching [.eq "email" e, .neq "id" userId] db.rows :=
      (mem_matching_email_neq_id e userId db.rows r).mpr ⟨hr, he, hi⟩
    rcases matching_email_neq_id_unique e userId db.rows h with h0 | ⟨u, hu⟩
    · rw [h0] at hm; simp at hm
    · exact ⟨u, by rw [hu]; rfl⟩

theorem updateProfile_of_conflict {σ : Type} (supabase : SupabaseClient σ) (bcrypt : Bcrypt)
    (now userId : String) (updateData : UpdateData) (w : World σ) (email : String) (u : UserRow)
    (hem : updateData.email = some email)
    (hl : (supabase.single (.select "id" [.eq "email" email, .neq "id" userId]) w.db).1
      = .success u) :
    (updateProfile supabase bcrypt now userId updateData w).1
      = .error (.Error "Email này đã được sử dụng bởi tài khoản khác") := by
  rcases updateProfile_outcome supabase bcrypt now userId updateData w with
    ⟨ho, _⟩ | ⟨_, _, hfree⟩ | ⟨_, _, hfree⟩ | ⟨_, hfree⟩
  · rw [ho]
  · have := hfree email hem
    rw [hl] at this
    simp [PostgrestSingleResponse.data] at this
  · have := hfree email hem
    rw [hl] at this
    simp [PostgrestSingleResponse.data] at this
  · have := hfree email hem
    rw [hl] at this
    simp [PostgrestSingleResponse.data] at this

theorem updateProfile_conflict_iff_lookup {σ : Type} (supabase : SupabaseClient σ)
    (bcrypt : Bcrypt) (now userId : String) (updateData : UpdateData) (w : World σ)
    (email : String) (hem : updateData.email = some email) :
    (updateProfile supabase bcrypt now userId updateData w).1
        = .error (.Error "Email này đã được sử dụng bởi tài khoản khác")
      ↔ ∃ u, (supabase.single (.select "id" [.eq "email" email, .neq "id" userId]) w.db).1
          = .success u := by
  constructor
  · intro h
    rcases updateProfile_outcome supabase bcrypt now userId updateData w with
      ⟨_, email2, u, hem2, hl⟩ | ⟨ho, _⟩ | ⟨ho, _⟩ | ⟨ho, _⟩
    · rw [hem] at hem2
      cases hem2
      exact ⟨u, hl⟩
    · rw [ho] at h
      exact absurd (Exn.Error.inj (Except.error.inj h)) (by decide)
    · rw [ho] at h
      exact absurd (Exn.Error.inj (Except.error.inj h)) (by decide)
    · rw [ho] at h
      simp only at h
      cases hr : (supabase.single (.update (stagedFields bcrypt now updateData) [.eq "id" userId])
        (issueAll supabase
          (emailReads userId updateData ++ passwordReads userId updateData) w).db).1 with
      | success u => rw [hr] at h; simp [updateOutcome] at h
      | failure err =>
        rw [hr] at h
        simp only [updateOutcome] at h
        exact absurd (Exn.Error.inj (Except.error.inj h)) (update_failed_ne_conflict err.message)
  · rintro ⟨u, hl⟩
    exact updateProfile_of_conflict supabase bcrypt now userId updateData w email u hem hl

theorem updateProfile_updates_carry_email {σ : Type} (supabase : SupabaseClient σ)
    (bcrypt : Bcrypt) (now userId : String) (updateData : UpdateData) (w : World σ) :
    ∃ issued, (updateProfile supabase bcrypt now userId updateData w).2.calls = w.calls ++ issued
      ∧ ∀ fields filters, Query.update fields filters ∈ issued →
          fields = stagedFields bcrypt now updateData ∧ filters = [.eq "id" userId] := by
  have hreads : ∀ reads : List Query, (∀ q ∈ reads, q.isMutation = false) →
      ∀ fields filters, Query.update fields filters ∈ reads →
        fields = stagedFields bcrypt now updateData ∧ filters = [.eq "id" userId] := by
    intro reads hr fields filters hq
    have := hr _ hq
    simp [Query.isMutation] at this
  have hall := reads_append (emailReads_reads userId updateData)
    (passwordReads_reads userId updateData)
  rcases updateProfile_outcome supabase bcrypt now userId updateData w with
    ⟨ho, _⟩ | ⟨ho, _⟩ | ⟨ho, _⟩ | ⟨ho, _⟩
  · exact ⟨_, by rw [ho, issueAll_calls], hreads _ (emailReads_reads userId updateData)⟩
  · exact ⟨_, by rw [ho, issueAll_calls], hreads _ hall⟩
  · exact ⟨_, by rw [ho, issueAll_calls], hreads _ hall⟩
  · refine ⟨_, by rw [ho, issueAll_calls], ?_⟩
    intro fields filters hq
    rcases List.mem_append.mp hq with hq | hq
    · exact hreads _ hall fields filters hq
    · simp only [List.mem_singleton, Query.update.injEq] at hq
      exact hq

/-! ## Profile update: the email check -/

/-- C8: in `updateProfile` with an email present, on the in-memory table with
unique emails, the call fails with 'Email này đã được sử dụng bởi tài khoản khác'
exactly when some row with another id has that email; when the caller's own row
has the email there is no conflict and the email step stages the email; and
every update the call issues carries the email. -/
theorem updateProfile_email_conflict_iff (bcrypt : Bcrypt) (now userId : String)
    (updateData : UpdateData) (db : Db) (calls : List Query) (email : String)
    (hem : updateData.email = some email) (hu : UniqueEmails db.rows) :
    ((updateProfile memStore bcrypt now userId updateData ⟨db, calls⟩).1
          = .error (.Error "Email này đã được sử dụng bởi tài khoản khác")
        ↔ ∃ r ∈ db.rows, r.email = email ∧ r.id ≠ userId)
      ∧ (∀ self ∈ db.rows, self.id = userId → self.email = email →
          (updateProfile memStore bcrypt now userId updateData ⟨db, calls⟩).1
            ≠ .error (.Error "Email này đã được sử dụng bởi tài khoản khác")
          ∧ ∀ updateFields, (stageEmail memStore userId updateData updateFields ⟨db, calls⟩).1
              = .ok { updateFields with email := some email })
      ∧ ∃ issued,
          (updateProfile memStore bcrypt now userId updateData ⟨db, calls⟩).2.calls
              = calls ++ issued
            ∧ ∀ fields filters, Query.update fields filters ∈ issued →
                fields.email = some email := by
  have hiff : (updateProfile memStore bcrypt now userId updateData ⟨db, calls⟩).1
        = .error (.Error "Email này đã được sử dụng bởi tài khoản khác")
      ↔ ∃ r ∈ db.rows, r.email = email ∧ r.id ≠ userId :=
    (updateProfile_conflict_iff_lookup memStore bcrypt now userId updateData ⟨db, calls⟩
      email hem).trans (memStore_conflict_lookup_iff email userId db hu)
  refine ⟨hiff, ?_, ?_⟩
  · intro self hself hid hemail
    have hno : ¬ ∃ r ∈ db.rows, r.email = email ∧ r.id ≠ userId := by
      rintro ⟨r, hr, he, hi⟩
      have : r = self := List.inj_on_of_nodup_map hu hr hself (he.trans hemail.symm)
      exact hi (this ▸ hid)
    refine ⟨fun h => hno (hiff.mp h), ?_⟩
    intro updateFields
    rw [stageEmail_result, hem]
    simp only
    cases hl : (memStore.single (.select "id" [.eq "email" email, .neq "id" userId])
      (⟨db, calls⟩ : World Db).db).1 with
    | success u => exact absurd ((memStore_conflict_lookup_iff email userId db hu).mp ⟨u, hl⟩) hno
    | failure err => rfl
  · obtain ⟨issued, hc, hf⟩ :=
      updateProfile_updates_carry_email memStore bcrypt now userId updateData ⟨db, calls⟩
    refine ⟨issued, hc, ?_⟩
    intro fields filters hq
    rw [(hf fields filters hq).1]
    simp [stagedFields, hem]

/-- Witness for C8: the first sample user asks for the email of the second one, and
for the email the first user already has. -/
theorem updateProfile_email_conflict_iff_witness :
    UniqueEmails sampleDb.rows
      ∧ (updateProfile memStore sampleBcrypt "2024-03-01T00:00:00.000Z" "u1"
          { email := some "binh@example.com" } sampleWorld).1
        = .error (.Error "Email này đã được sử dụng bởi tài khoản khác")
      ∧ (updateProfile memStore sampleBcrypt "2024-03-01T00:00:00.000Z" "u1"
          { email := some "an@example.com" } sampleWorld).1
        ≠ .error (.Error "Email này đã được sử dụng bởi tài khoản khác") :=
  ⟨sampleDb_uniqueEmails,
    (updateProfile_email_conflict_iff sampleBcrypt "2024-03-01T00:00:00.000Z" "u1"
      { email := some "binh@example.com" } sampleDb [] "binh@example.com" rfl
      sampleDb_uniqueEmails).1.mpr ⟨otherUser, by simp [sampleDb], rfl, by decide⟩,
    ((updateProfile_email_conflict_iff sampleBcrypt "2024-03-01T00:00:00.000Z" "u1"
      { email := some "an@example.com" } sampleDb [] "an@example.com" rfl
      sampleDb_uniqueEmails).2.1 sampleUser (by simp [sampleDb]) rfl rfl).1⟩

/-! ## Profile update: failures -/

/-- C9: when `updateProfile` fails with the error of the email-conflict check, of
the missing-user check or of the current-password check, every query it issued
is a select (no update was issued) and, over a store whose selects do not
write, the store is as it was before the call, whatever else the payload staged;
and in every run the queries issued are selects, followed by at most one update,
the one of the staged fields keyed by the user id. -/
theorem updateProfile_no_update_before_checks {σ : Type} (supabase : SupabaseClient σ)
    (bcrypt : Bcrypt) (now userId : String) (updateData : UpdateData) (w : World σ) (e : Exn)
    (he : e = .Error "Email này đã được sử dụng bởi tài khoản khác"
      ∨ e = .Error "User không tồn tại" ∨ e = .Error "Mật khẩu hiện tại không đúng")
    (hfail : (updateProfile supabase bcrypt now userId updateData w).1 = .error e) :
    (∃ reads, (∀ q ∈ reads, q.isMutation = false)
        ∧ (updateProfile supabase bcrypt now userId updateData w).2 = issueAll supabase reads w
        ∧ (updateProfile supabase bcrypt now userId updateData w).2.calls = w.calls ++ reads
        ∧ (ReadOnlySelects supabase →
            (updateProfile supabase bcrypt now userId updateData w).2.db = w.db))
      ∧ (∀ w0 : World σ, ∃ reads, (∀ q ∈ reads, q.isMutation = false)
          ∧ ((updateProfile supabase bcrypt now userId updateData w0).2.calls = w0.calls ++ reads
            ∨ (updateProfile supabase bcrypt now userId updateData w0).2.calls
              = w0.calls ++ reads
                ++ [.update (stagedFields bcrypt now updateData) [.eq "id" userId]])) := by
  have hall := reads_append (emailReads_reads userId updateData)
    (passwordReads_reads userId updateData)
  refine ⟨?_, ?_⟩
  · rcases updateProfile_outcome supabase bcrypt now userId updateData w with
      ⟨ho, _⟩ | ⟨ho, _⟩ | ⟨ho, _⟩ | ⟨ho, _⟩
    · refine ⟨_, emailReads_reads userId updateData, by rw [ho], by rw [ho, issueAll_calls], ?_⟩
      intro hro
      rw [ho]
      exact issueAll_db_of_reads supabase hro _ w (emailReads_reads userId updateData)
    · refine ⟨_, hall, by rw [ho], by rw [ho, issueAll_calls], ?_⟩
      intro hro
      rw [ho]
      exact issueAll_db_of_reads supabase hro _ w hall
    · refine ⟨_, hall, by rw [ho], by rw [ho, issueAll_calls], ?_⟩
      intro hro
      rw [ho]
      exact issueAll_db_of_reads supabase hro _ w hall
    · exfalso
      rw [ho] at hfail
      simp only at hfail
      cases hr : (supabase.single (.update (stagedFields bcrypt now updateData) [.eq "id" userId])
        (issueAll supabase
          (emailReads userId updateData ++ passwordReads userId updateData) w).db).1 with
      | success u => rw [hr] at hfail; simp [updateOutcome] at hfail
      | failure err =>
        rw [hr] at hfail
        simp only [updateOutcome, Except.error.injEq] at hfail
        rcases he with h | h | h
        · rw [h] at hfail
          exact update_failed_ne_conflict err.message (Exn.Error.inj hfail)
        · rw [h] at hfail
          exact update_failed_ne_missing err.message (Exn.Error.inj hfail)
        · rw [h] at hfail
          exact update_failed_ne_wrong err.message (Exn.Error.inj hfail)
  · intro w0
    rcases updateProfile_outcome supabase bcrypt now userId updateData w0 with
      ⟨ho, _⟩ | ⟨ho, _⟩ | ⟨ho, _⟩ | ⟨ho, _⟩
    · exact ⟨_, emailReads_reads userId updateData, Or.inl (by rw [ho, issueAll_calls])⟩
    · exact ⟨_, hall, Or.inl (by rw [ho, issueAll_calls])⟩
    · exact ⟨_, hall, Or.inl (by rw [ho, issueAll_calls])⟩
    · exact ⟨_, hall, Or.inr (by rw [ho, issueAll_calls]; simp only [List.append_assoc])⟩


/-- Witness for C9: the first sample user sends a new name, a free email, a phone
and a wrong current password. -/
theorem updateProfile_no_update_before_checks_witness :
    (updateProfile memStore sampleBcrypt "2024-03-01T00:00:00.000Z" "u1"
        { fullName := some "An Nguyen", email := some "an2@example.com",
          phone := some "0911222333", newPassword := some "newpw",
          currentPassword := some "wrong" } sampleWorld).1
        = .error (.Error "Mật khẩu hiện tại không đúng")
      ∧ (updateProfile memStore sampleBcrypt "2024-03-01T00:00:00.000Z" "u1"
        { fullName := some "An Nguyen", email := some "an2@example.com",
          phone := some "0911222333", newPassword := some "newpw",
          currentPassword := some "wrong" } sampleWorld).2.db = sampleDb :=
  ⟨by rfl,
    (updateProfile_no_update_before_checks memStore sampleBcrypt "2024-03-01T00:00:00.000Z" "u1"
      { fullName := some "An Nguyen", email := some "an2@example.com",
        phone := some "0911222333", newPassword := some "newpw",
        currentPassword := some "wrong" } sampleWorld
      (.Error "Mật khẩu hiện tại không đúng") (Or.inr (Or.inr rfl)) (by rfl)).1.elim
      (fun _ h => h.2.2.2 memStore_readOnlySelects)⟩

/-- C10: every exception leaving `updateProfile` is a plain `Error`, never an
`UnauthorizedException`; it carries the message of the exception thrown in the
`try` block (which is never empty): the email-conflict, missing-user or
wrong-password message, or 'Cập nhật thất bại: ' followed by the store's
message; and the `catch` block maps any exception with an empty message to
`Error('Có lỗi xảy ra khi cập nhật thông tin')`. -/
theorem updateProfile_failures_rewrapped {σ : Type} (supabase : SupabaseClient σ)
    (bcrypt : Bcrypt) (now userId : String) (updateData : UpdateData) (w : World σ) :
    (∀ e, (updateProfile supabase bcrypt now userId updateData w).1 = .error e →
        (∃ m, e = .Error m) ∧ ∀ m, e ≠ .UnauthorizedException m)
      ∧ (∀ inner, (updateProfileTry supabase bcrypt now userId updateData w).1 = .error inner →
          inner.message ≠ ""
          ∧ (updateProfile supabase bcrypt now userId updateData w).1
            = .error (.Error inner.message))
      ∧ (∀ e, (updateProfile supabase bcrypt now userId updateData w).1 = .error e →
          e = .Error "Email này đã được sử dụng bởi tài khoản khác"
          ∨ e = .Error "User không tồn tại"
          ∨ e = .Error "Mật khẩu hiện tại không đúng"
          ∨ ∃ error : PostgrestError, e = .Error ("Cập nhật thất bại: " ++ error.message))
      ∧ (∀ inner : Exn,
          updateProfileCatch inner
            = .Error (if inner.message = "" then "Có lỗi xảy ra khi cập nhật thông tin"
                else inner.message)) := by
  have hcatch : ∀ inner : Exn,
      updateProfileCatch inner
        = .Error (if inner.message = "" then "Có lỗi xảy ra khi cập nhật thông tin"
            else inner.message) := by
    intro inner
    simp only [updateProfileCatch, orDefault, bne_iff_ne, ne_eq, ite_not]
  have hlink : (updateProfile supabase bcrypt now userId updateData w).1
      = match (updateProfileTry supabase bcrypt now userId updateData w).1 with
        | .ok result => .ok result
        | .error inner => .error (updateProfileCatch inner) := by
    unfold updateProfile
    rcases updateProfileTry supabase bcrypt now userId updateData w with ⟨r, w1⟩
    cases r <;> rfl
  have hinner : ∀ inner, (updateProfileTry supabase bcrypt now userId updateData w).1
      = .error inner →
      inner = .Error "Email này đã được sử dụng bởi tài khoản khác"
        ∨ inner = .Error "User không tồn tại"
        ∨ inner = .Error "Mật khẩu hiện tại không đúng"
        ∨ ∃ error : PostgrestError, inner = .Error ("Cập nhật thất bại: " ++ error.message) := by
    intro inner hi
    rcases updateProfileTry_outcome supabase bcrypt now userId updateData w with
      ⟨ho, _⟩ | ⟨ho, _⟩ | ⟨ho, _⟩ | ⟨ho, _⟩
    · rw [ho] at hi; exact Or.inl (Except.error.inj hi).symm
    · rw [ho] at hi; exact Or.inr (Or.inl (Except.error.inj hi).symm)
    · rw [ho] at hi; exact Or.inr (Or.inr (Or.inl (Except.error.inj hi).symm))
    · rw [ho, applyUpdate_eq] at hi
      simp only at hi
      cases hr : (supabase.single (.update (stagedFields bcrypt now updateData) [.eq "id" userId])
        (issueAll supabase
          (emailReads userId updateData ++ passwordReads userId updateData) w).db).1 with
      | success u => rw [hr] at hi; simp [updateOutcome] at hi
      | failure err =>
        rw [hr] at hi
        simp only [updateOutcome] at hi
        exact Or.inr (Or.inr (Or.inr ⟨err, (Except.error.inj hi).symm⟩))
  have hmsg : ∀ inner, (updateProfileTry supabase bcrypt now userId updateData w).1
      = .error inner → inner.message ≠ "" ∧ updateProfileCatch inner = inner := by
    intro inner hi
    rcases hinner inner hi with h | h | h | ⟨err, h⟩
    · rw [h]; exact ⟨by decide, rfl⟩
    · rw [h]; exact ⟨by decide, rfl⟩
    · rw [h]; exact ⟨by decide, rfl⟩
    · rw [h]
      exact ⟨update_failed_ne_empty err.message, updateProfileCatch_update_failed err.message⟩
  have hsecond : ∀ inner, (updateProfileTry supabase bcrypt now userId updateData w).1
      = .error inner →
      inner.message ≠ ""
        ∧ (updateProfile supabase bcrypt now userId updateData w).1
          = .error (.Error inner.message) := by
    intro inner hi
    refine ⟨(hmsg inner hi).1, ?_⟩
    rw [hlink, hi]
    simp only
    rw [hcatch, if_neg (hmsg inner hi).1]
  have hthird : ∀ e, (updateProfile supabase bcrypt now userId updateData w).1 = .error e →
      e = .Error "Email này đã được sử dụng bởi tài khoản khác"
        ∨ e = .Error "User không tồn tại"
        ∨ e = .Error "Mật khẩu hiện tại không đúng"
        ∨ ∃ error : PostgrestError, e = .Error ("Cập nhật thất bại: " ++ error.message) := by
    intro e he
    rw [hlink] at he
    cases hi : (updateProfileTry supabase bcrypt now userId updateData w).1 with
    | ok r => rw [hi] at he; simp at he
    | error inner =>
      rw [hi] at he
      simp only [Except.error.injEq] at he
      rw [(hmsg inner hi).2] at he
      rw [← he]
      exact hinner inner hi
  refine ⟨?_, hsecond, hthird, hcatch⟩
  intro e he
  rcases hthird e he with h | h | h | ⟨err, h⟩ <;> rw [h] <;>
    exact ⟨⟨_, rfl⟩, fun m hm => by cases hm⟩

/-- Witness for C10: an email conflict and an update for an unknown user id. -/
theorem updateProfile_failures_rewrapped_witness :
    (updateProfile memStore sampleBcrypt "2024-03-01T00:00:00.000Z" "u1"
        { email := some "binh@example.com" } sampleWorld).1
        = .error (.Error "Email này đã được sử dụng bởi tài khoản khác")
      ∧ (updateProfile memStore sampleBcrypt "2024-03-01T00:00:00.000Z" "u7"
        { fullName := some "Nobody" } sampleWorld).1
        = .error (.Error
            "Cập nhật thất bại: JSON object requested, multiple (or no) rows returned") :=
  ⟨((updateProfile_failures_rewrapped memStore sampleBcrypt "2024-03-01T00:00:00.000Z" "u1"
      { email := some "binh@example.com" } sampleWorld).2.1
      (.Error "Email này đã được sử dụng bởi tài khoản khác") (by rfl)).2,
    ((updateProfile_failures_rewrapped memStore sampleBcrypt "2024-03-01T00:00:00.000Z" "u7"
      { fullName := some "Nobody" } sampleWorld).2.1
      (.Error "Cập nhật thất bại: JSON object requested, multiple (or no) rows returned")
      (by rfl)).2⟩

/-! ## Email uniqueness under sequences of calls -/

theorem nodup_map_replace (p : UserRow → Bool) (e : String) :
    ∀ rows : List UserRow, (rows.filter p).length ≤ 1 → UniqueEmails rows →
      (∀ x ∈ rows, x.email = e → p x = true) →
      (rows.map (fun x => if p x then e else x.email)).Nodup
  | [], _, _, _ => by simp
  | a :: l, hlen, hu, he => by
    unfold UniqueEmails at hu
    rw [List.map_cons, List.nodup_cons] at hu
    have hel : ∀ x ∈ l, x.email = e → p x = true :=
      fun x hx => he x (List.mem_cons_of_mem _ hx)
    rw [List.map_cons, List.nodup_cons]
    by_cases hpa : p a = true
    · have hnil : l.filter p = [] := by
        simp only [List.filter_cons, hpa, if_true, List.length_cons] at hlen
        exact List.length_eq_zero.mp (by omega)
      have hno : ∀ x ∈ l, ¬ p x = true := by
        intro x hx
        exact (List.filter_eq_nil_iff.mp hnil) x hx
      have hmap : l.map (fun x => if p x then e else x.email) = l.map (fun x => x.email) := by
        apply List.map_congr_left
        intro x hx
        simp [hno x hx]
      rw [hmap]
      refine ⟨?_, hu.2⟩
      simp only [hpa, if_true]
      intro hmem
      obtain ⟨x, hx, hxe⟩ := List.mem_map.mp hmem
      exact hno x hx (hel x hx hxe)
    · have hlen2 : (l.filter p).length ≤ 1 := by
        simp only [List.filter_cons, hpa] at hlen
        exact hlen
      refine ⟨?_, nodup_map_replace p e l hlen2 hu.2 hel⟩
      simp only [hpa]
      intro hmem
      obtain ⟨x, hx, hxe⟩ := List.mem_map.mp hmem
      by_cases hpx : p x = true
      · simp only [hpx, if_true] at hxe
        exact hpa (he a (List.mem_cons_self _ _) hxe.symm)
      · simp only [hpx] at hxe
        exact hu.1 (List.mem_map.mpr ⟨x, hx, hxe⟩)

theorem register_keeps_uniqueEmails (bcrypt : Bcrypt) (createUserDto : CreateUserDto)
    (w : World Db) (h : UniqueEmails w.db.rows) :
    UniqueEmails (register memStore bcrypt createUserDto w).2.db.rows := by
  rcases matching_email_unique createUserDto.email w.db.rows h with h0 | ⟨r, hr⟩
  · cases hs : w.db.idSupply with
    | nil =>
      simp only [register, issue, memStore, h0, hs, singleOf, PostgrestSingleResponse.data]
      exact h
    | cons id rest =>
      simp only [register, issue, memStore, h0, hs, singleOf, PostgrestSingleResponse.data]
      unfold UniqueEmails at h ⊢
      rw [List.map_append, List.nodup_append]
      refine ⟨h, by simp, ?_⟩
      rw [matching_email, List.filter_eq_nil_iff] at h0
      intro a ha hb
      simp only [List.map_cons, List.map_nil, List.mem_singleton] at hb
      obtain ⟨x, hx, hxe⟩ := List.mem_map.mp ha
      exact h0 x hx (by simp [hxe, hb])
  · simp only [register, issue, memStore, hr, singleOf, PostgrestSingleResponse.data]
    exact h

theorem matching_id (userId : String) (rows : List UserRow) :
    matching [.eq "id" userId] rows = rows.filter (fun r => decide (r.id = userId)) := by
  simp [matching, holds_eq_id]

theorem memStore_update_keeps_uniqueEmails (fields : UpdateFields) (userId : String) (db : Db)
    (h : UniqueEmails db.rows)
    (hfree : ∀ email, fields.email = some email →
      (memStore.single (.select "id" [.eq "email" email, .neq "id" userId]) db).1.data = none) :
    UniqueEmails (memStore.single (.update fields [.eq "id" userId]) db).2.rows := by
  cases hem : fields.email with
  | none =>
    unfold UniqueEmails
    rw [memStore_update_preserves (fun r => r.email) fields _ db
      (fun r => by simp [UpdateFields.applyTo, hem])]
    exact h
  | some email =>
    have hnone := hfree email hem
    have hno : ∀ x ∈ db.rows, x.email = email → decide (x.id = userId) = true := by
      intro x hx hxe
      by_contra hid
      have hm : x ∈ matching [.eq "email" email, .neq "id" userId] db.rows :=
        (mem_matching_email_neq_id email userId db.rows x).mpr
          ⟨hx, hxe, by simpa using hid⟩
      rcases matching_email_neq_id_unique email userId db.rows h with h0 | ⟨u, hu⟩
      · rw [h0] at hm; simp at hm
      · simp [memStore, hu, singleOf, PostgrestSingleResponse.data] at hnone
    simp only [memStore]
    split
    · rename_i r hr
      rw [matching_id] at hr
      have hlen : (db.rows.filter (fun r => decide (r.id = userId))).length ≤ 1 := by
        rw [hr]; simp
      have hnd := nodup_map_replace (fun r => decide (r.id = userId)) email db.rows hlen h hno
      unfold UniqueEmails
      simp only [List.map_map]
      have hfun : ((fun r : UserRow => r.email) ∘ fun x =>
            if ([Filter.eq "id" userId].all fun f => f.holds x) = true then fields.applyTo x
            else x)
          = fun x => if decide (x.id = userId) = true then email else x.email := by
        funext x
        simp only [Function.comp, List.all_cons, List.all_nil, Bool.and_true, holds_eq_id]
        split
        · simp [UpdateFields.applyTo, hem]
        · rfl
      rw [hfun]
      exact hnd
    · exact h

theorem updateProfile_keeps_uniqueEmails (bcrypt : Bcrypt) (now userId : String)
    (updateData : UpdateData) (w : World Db) (h : UniqueEmails w.db.rows) :
    UniqueEmails (updateProfile memStore bcrypt now userId updateData w).2.db.rows := by
  have hall := reads_append (emailReads_reads userId updateData)
    (passwordReads_reads userId updateData)
  rcases updateProfile_outcome memStore bcrypt now userId updateData w with
    ⟨ho, _⟩ | ⟨ho, _⟩ | ⟨ho, _⟩ | ⟨ho, hfree⟩
  · rw [ho, memStore_issueAll_reads _ _ (emailReads_reads userId updateData)]
    exact h
  · rw [ho, memStore_issueAll_reads _ _ hall]
    exact h
  · rw [ho, memStore_issueAll_reads _ _ hall]
    exact h
  · rw [ho]
    simp only
    rw [issueAll_snoc_db, memStore_issueAll_reads _ _ hall]
    exact memStore_update_keeps_uniqueEmails _ userId w.db h
      (fun email hem => hfree email (by simpa [stagedFields] using hem))

/-- C11: on the in-memory table, email uniqueness is kept by every sequence of
`register` and `updateProfile` calls executed one at a time: if no two rows
share an email before the sequence, no two rows share an email after it,
whether the calls return or throw. -/
theorem uniqueEmails_invariant (bcrypt : Bcrypt) :
    ∀ (calls : List ServiceCall) (w : World Db), UniqueEmails w.db.rows →
      UniqueEmails (runCalls memStore bcrypt calls w).db.rows
  | [], _, h => h
  | call :: calls, w, h => by
    have hstep : UniqueEmails (call.run memStore bcrypt w).db.rows := by
      cases call with
      | register createUserDto => exact register_keeps_uniqueEmails bcrypt createUserDto w h
      | updateProfile now userId updateData =>
        exact updateProfile_keeps_uniqueEmails bcrypt now userId updateData w h
    exact uniqueEmails_invariant bcrypt calls (call.run memStore bcrypt w) hstep

/-- Witness for C11: the sample sequence of calls on the sample store. -/
theorem uniqueEmails_invariant_witness :
    UniqueEmails sampleDb.rows
      ∧ UniqueEmails (runCalls memStore sampleBcrypt sampleCalls sampleWorld).db.rows
      ∧ (runCalls memStore sampleBcrypt sampleCalls sampleWorld).db.rows.map (fun r => r.email)
        = ["an@example.com", "b2@example.com", "chi@example.com"] :=
  ⟨sampleDb_uniqueEmails,
    uniqueEmails_invariant sampleBcrypt sampleCalls sampleWorld sampleDb_uniqueEmails, by rfl⟩

/-! ## The token payload -/

theorem beq_admin_eq_decide (role : Option String) :
    (role == some "admin") = decide (role = some "admin") := by
  rw [Bool.eq_iff_iff]
  simp

theorem orDefault_customer (role : Option String) :
    orDefault role "customer"
      = match role with
        | some role => if role = "" then "customer" else role
        | none => "customer" := by
  cases role with
  | none => rfl
  | some role => by_cases hrole : role = "" <;> simp [orDefault, hrole]

/-- C12: when `login` returns a token, the lookup found a user whose password
`bcrypt.compare` accepted, and the token is the signer's output for the payload
with `sub` the user's id, `email` the user's email, `isAdmin` true exactly when
the stored role is 'admin', and `role` the stored role, or 'customer' when the
stored role is missing or empty. -/
theorem login_token_payload {σ : Type} (supabase : SupabaseClient σ) (bcrypt : Bcrypt)
    (jwtService : JwtService) (loginDto : LoginDto) (w : World σ) (token : String)
    (view : UserResponseDto)
    (h : (login supabase bcrypt jwtService loginDto w).1 = .ok (token, view)) :
    ∃ user, (supabase.single (.select "*" [.eq "email" loginDto.email]) w.db).1 = .success user
      ∧ bcrypt.compare loginDto.password user.password = true
      ∧ token = jwtService.sign
          { sub := user.id
            email := user.email
            isAdmin := decide (user.role = some "admin")
            role :=
              match user.role with
              | some role => if role = "" then "customer" else role
              | none => "customer" } := by
  unfold login at h
  simp only [issue] at h
  cases hl : (supabase.single (.select "*" [.eq "email" loginDto.email]) w.db).1 with
  | failure e => rw [hl] at h; simp at h
  | success user =>
    rw [hl] at h
    simp only at h
    cases hc : bcrypt.compare loginDto.password user.password with
    | false => rw [hc] at h; simp at h
    | true =>
      rw [hc] at h
      simp only [Bool.not_true, Bool.false_eq_true, if_false, Except.ok.injEq,
        Prod.mk.injEq] at h
      refine ⟨user, rfl, hc, ?_⟩
      rw [← h.1, beq_admin_eq_decide, orDefault_customer]

/-- Witness for C12: the first sample user logs in. -/
theorem login_token_payload_witness :
    (login memStore sampleBcrypt sampleJwt
        { email := "an@example.com", password := "secret" } sampleWorld).1
        = .ok ("tok:u1", reshape sampleUser)
      ∧ ∃ user,
          (memStore.single (.select "*" [.eq "email" "an@example.com"]) sampleDb).1
            = .success user
          ∧ sampleBcrypt.compare "secret" user.password = true
          ∧ "tok:u1" = sampleJwt.sign
              { sub := user.id
                email := user.email
                isAdmin := decide (user.role = some "admin")
                role :=
                  match user.role with
                  | some role => if role = "" then "customer" else role
                  | none => "customer" } :=
  ⟨by rfl,
    login_token_payload memStore sampleBcrypt sampleJwt
      { email := "an@example.com", password := "secret" } sampleWorld "tok:u1"
      (reshape sampleUser) (by rfl)⟩

/-! ## The user view -/

/-- C13: the view returned by `register`, `login`, `getUserFromToken` and
`updateProfile` is in each case `reshape` of the row the store answered with
(the inserted row, the row found by email, the row found by id, the updated
row); `reshape` copies id, full name, email, creation time and phone, sets
`isAdmin` exactly when the role is 'admin', defaults the role to 'customer',
leaves `updatedAt` absent when `updated_at` is missing or empty, and does not
depend on the password hash of the row. -/
theorem user_view_is_reshape {σ : Type} (supabase : SupabaseClient σ) (bcrypt : Bcrypt)
    (jwtService : JwtService) (w : World σ) :
    (∀ createUserDto view, (register supabase bcrypt createUserDto w).1 = .ok view →
        ∃ data,
          (supabase.single
            (.insert
              { full_name := createUserDto.fullName, email := createUserDto.email,
                password := bcrypt.hash createUserDto.password 10, role := "customer" })
            (issue supabase (.select "*" [.eq "email" createUserDto.email]) w).2.db).1
            = .success data
          ∧ view = reshape data)
      ∧ (∀ loginDto token view,
          (login supabase bcrypt jwtService loginDto w).1 = .ok (token, view) →
          ∃ user, (supabase.single (.select "*" [.eq "email" loginDto.email]) w.db).1
              = .success user
            ∧ view = reshape user)
      ∧ (∀ token view, (getUserFromToken supabase jwtService token w).1 = .ok view →
          ∃ payload user, jwtService.verify token = .ok payload
            ∧ (supabase.single (.select "*" [.eq "id" payload.sub]) w.db).1 = .success user
            ∧ view = reshape user)
      ∧ (∀ now userId updateData result,
          (updateProfile supabase bcrypt now userId updateData w).1 = .ok result →
          ∃ updatedUser,
            (supabase.single (.update (stagedFields bcrypt now updateData) [.eq "id" userId])
              (issueAll supabase
                (emailReads userId updateData ++ passwordReads userId updateData) w).db).1
              = .success updatedUser
            ∧ result.user = reshape updatedUser)
      ∧ (∀ row : UserRow,
          (reshape row).id = row.id ∧ (reshape row).fullName = row.full_name
            ∧ (reshape row).email = row.email
            ∧ ((reshape row).isAdmin = true ↔ row.role = some "admin")
            ∧ (reshape row).role
              = (match row.role with
                | some role => if role = "" then "customer" else role
                | none => "customer")
            ∧ (reshape row).createdAt = ⟨row.created_at⟩
            ∧ (reshape row).updatedAt
              = (match row.updated_at with
                | some t => if t = "" then none else some ⟨t⟩
                | none => none)
            ∧ (reshape row).phone = row.phone)
      ∧ (∀ (row : UserRow) (hash : String), reshape { row with password := hash } = reshape row) := by
  refine ⟨?_, ?_, ?_, ?_, ?_, ?_⟩
  · intro createUserDto view h
    unfold register at h
    simp only at h
    split at h
    · simp at h
    · split at h
      · simp at h
      · rename_i data hd
        simp only [Except.ok.injEq] at h
        exact ⟨data, by simpa [issue] using hd, h.symm⟩
  · intro loginDto token view h
    unfold login at h
    simp only [issue] at h
    cases hl : (supabase.single (.select "*" [.eq "email" loginDto.email]) w.db).1 with
    | failure e => rw [hl] at h; simp at h
    | success user =>
      rw [hl] at h
      simp only at h
      cases hc : bcrypt.compare loginDto.password user.password with
      | false => rw [hc] at h; simp at h
      | true =>
        rw [hc] at h
        simp only [Bool.not_true, Bool.false_eq_true, if_false, Except.ok.injEq,
          Prod.mk.injEq] at h
        exact ⟨user, rfl, h.2.symm⟩
  · intro token view h
    unfold getUserFromToken getUserFromTokenTry at h
    cases hv : jwtService.verify token with
    | error e => rw [hv] at h; simp at h
    | ok payload =>
      rw [hv] at h
      simp only [issue] at h
      cases hl : (supabase.single (.select "*" [.eq "id" payload.sub]) w.db).1 with
      | failure e => rw [hl] at h; simp at h
      | success user =>
        rw [hl] at h
        simp only [Except.ok.injEq] at h
        exact ⟨payload, user, rfl, hl, h.symm⟩
  · intro now userId updateData result h
    rcases updateProfile_outcome supabase bcrypt now userId updateData w with
      ⟨ho, _⟩ | ⟨ho, _⟩ | ⟨ho, _⟩ | ⟨ho, _⟩
    · rw [ho] at h; simp at h
    · rw [ho] at h; simp at h
    · rw [ho] at h; simp at h
    · rw [ho] at h
      simp only at h
      cases hr : (supabase.single (.update (stagedFields bcrypt now updateData) [.eq "id" userId])
        (issueAll supabase
          (emailReads userId updateData ++ passwordReads userId updateData) w).db).1 with
      | failure e => rw [hr] at h; simp [updateOutcome] at h
      | success updatedUser =>
        rw [hr] at h
        simp only [updateOutcome, Except.ok.injEq] at h
        exact ⟨updatedUser, rfl, by rw [← h]⟩
  · intro row
    refine ⟨rfl, rfl, rfl, ?_, orDefault_customer row.role, rfl, ?_, rfl⟩
    · simp [reshape]
    · simp only [reshape]
      cases row.updated_at with
      | none => rfl
      | some t => by_cases ht : t = "" <;> simp [truthy, ht]
  · intro row hash
    rfl

/-- Witness for C13: the view of the first sample user at login. -/
theorem user_view_is_reshape_witness :
    ∃ user,
      (memStore.single (.select "*" [.eq "email" "an@example.com"]) sampleWorld.db).1
          = .success user
        ∧ ({ id := "u1", fullName := "An", email := "an@example.com", isAdmin := false,
             role := "customer", createdAt := ⟨"2024-01-01T00:00:00.000Z"⟩, updatedAt := none,
             phone := none } : UserResponseDto) = reshape user :=
  (user_view_is_reshape memStore sampleBcrypt sampleJwt sampleWorld).2.1
    { email := "an@example.com", password := "secret" } "tok:u1" _ (by rfl)

/-! ## Registration: the stored role -/

theorem register_calls {σ : Type} (supabase : SupabaseClient σ) (bcrypt : Bcrypt)
    (createUserDto : CreateUserDto) (w : World σ) :
    (register supabase bcrypt createUserDto w).2.calls
        = w.calls ++ [.select "*" [.eq "email" createUserDto.email]]
      ∨ (register supabase bcrypt createUserDto w).2.calls
        = w.calls ++ [.select "*" [.eq "email" createUserDto.email],
            .insert
              { full_name := createUserDto.fullName, email := createUserDto.email,
                password := bcrypt.hash createUserDto.password 10, role := "customer" }] := by
  unfold register
  simp only [issue]
  split
  · exact Or.inl rfl
  · split
    · exact Or.inr (by simp)
    · exact Or.inr (by simp)

/-- C14: every insert that `register` issues carries the role 'customer'; a
role or admin flag in the registration input changes neither the result nor the
queries of the call; and on the in-memory table every row present after the call
was there before or has the role 'customer'. -/
theorem register_inserts_customer {σ : Type} (supabase : SupabaseClient σ) (bcrypt : Bcrypt)
    (createUserDto : CreateUserDto) (w : World σ) :
    (∃ issued, (register supabase bcrypt createUserDto w).2.calls = w.calls ++ issued
        ∧ ∀ row, Query.insert row ∈ issued → row.role = "customer")
      ∧ (∀ (role : Option String) (isAdmin : Option Bool),
          register supabase bcrypt { createUserDto with role := role, isAdmin := isAdmin } w
            = register supabase bcrypt createUserDto w)
      ∧ (∀ (db : Db) (calls : List Query) (row : UserRow),
          row ∈ (register memStore bcrypt createUserDto ⟨db, calls⟩).2.db.rows →
          row ∈ db.rows ∨ row.role = some "customer") := by
  refine ⟨?_, ?_, ?_⟩
  · rcases register_calls supabase bcrypt createUserDto w with hc | hc
    · exact ⟨_, hc, by simp⟩
    · refine ⟨_, hc, ?_⟩
      intro row hrow
      simp only [List.mem_cons, Query.insert.injEq, List.mem_singleton, List.not_mem_nil,
        or_false, false_or, reduceCtorEq] at hrow
      rw [hrow]
  · intro role isAdmin
    rfl
  · intro db calls row hrow
    unfold register at hrow
    simp only [issue, memStore] at hrow
    split at hrow
    · exact Or.inl hrow
    · cases hs : db.idSupply with
      | nil =>
        simp only [hs] at hrow
        exact Or.inl hrow
      | cons id rest =>
        simp only [hs, List.mem_append, List.mem_singleton] at hrow
        rcases hrow with hrow | hrow
        · exact Or.inl hrow
        · exact Or.inr (by rw [hrow])


/-- Witness for C14: a registration that asks for the admin role. -/
theorem register_inserts_customer_witness :
    register memStore sampleBcrypt
        { fullName := "Chi", email := "chi@example.com", password := "pw1",
          role := some "admin", isAdmin := some true } emptyWorld
        = register memStore sampleBcrypt
          { fullName := "Chi", email := "chi@example.com", password := "pw1" } emptyWorld
      ∧ (register memStore sampleBcrypt
          { fullName := "Chi", email := "chi@example.com", password := "pw1",
            role := some "admin", isAdmin := some true } emptyWorld).2.db.rows.map
          (fun r => r.role) = [some "customer"] :=
  ⟨(register_inserts_customer memStore sampleBcrypt
      { fullName := "Chi", email := "chi@example.com", password := "pw1" } emptyWorld).2.1
      (some "admin") (some true), by rfl⟩

/-! ## Token lookup: dependence on the subject -/

/-- C15: two tokens that verify to payloads with the same subject give the same
result of `getUserFromToken` on the same store, whatever their other claims;
a returned view is `reshape` of the row the store holds for that subject, and
when the store answers the lookup with a row the call returns its view. -/
theorem getUserFromToken_depends_on_sub {σ : Type} (supabase : SupabaseClient σ)
    (jwtService : JwtService) (token1 token2 : String) (payload1 payload2 : JwtPayload)
    (w : World σ)
    (h1 : jwtService.verify token1 = .ok payload1)
    (h2 : jwtService.verify token2 = .ok payload2)
    (hsub : payload1.sub = payload2.sub) :
    getUserFromToken supabase jwtService token1 w
        = getUserFromToken supabase jwtService token2 w
      ∧ (∀ view, (getUserFromToken supabase jwtService token1 w).1 = .ok view →
          ∃ user, (supabase.single (.select "*" [.eq "id" payload1.sub]) w.db).1
              = .success user
            ∧ view = reshape user)
      ∧ (∀ user, (supabase.single (.select "*" [.eq "id" payload1.sub]) w.db).1
            = .success user →
          (getUserFromToken supabase jwtService token1 w).1 = .ok (reshape user)) := by
  refine ⟨?_, ?_, ?_⟩
  · simp only [getUserFromToken, getUserFromTokenTry, h1, h2, hsub]
  · intro view h
    simp only [getUserFromToken, getUserFromTokenTry, h1, issue] at h
    cases hl : (supabase.single (.select "*" [.eq "id" payload1.sub]) w.db).1 with
    | failure e => rw [hl] at h; simp at h
    | success user =>
      rw [hl] at h
      simp only [Except.ok.injEq] at h
      exact ⟨user, rfl, h.symm⟩
  · intro user hl
    simp only [getUserFromToken, getUserFromTokenTry, h1, issue, hl]
    rfl


/-- Witness for C15: two tokens for the second sample user, one with stale claims. -/
theorem getUserFromToken_depends_on_sub_witness :
    getUserFromToken memStore claimsJwt "old" sampleWorld
        = getUserFromToken memStore claimsJwt "new" sampleWorld
      ∧ (getUserFromToken memStore claimsJwt "old" sampleWorld).1 = .ok (reshape otherUser) :=
  have h := getUserFromToken_depends_on_sub memStore claimsJwt "old" "new"
    { sub := "u2", email := "old@example.com", isAdmin := false, role := "customer" }
    { sub := "u2", email := "binh@example.com", isAdmin := true, role := "admin" }
    sampleWorld (by rfl) (by rfl) rfl
  ⟨h.1, h.2.2 otherUser (by rfl)⟩

/-! ## Profile update: timestamp and phone -/

/-- C16: every update that `updateProfile` issues carries `updated_at` equal to
the current time, and for the empty payload the only query issued is the update,
keyed by the user id, whose single field is `updated_at`. -/
theorem updateProfile_stamps_updated_at {σ : Type} (supabase : SupabaseClient σ)
    (bcrypt : Bcrypt) (now userId : String) (updateData : UpdateData) (w : World σ) :
    (∃ issued, (updateProfile supabase bcrypt now userId updateData w).2.calls = w.calls ++ issued
        ∧ ∀ fields filters, Query.update fields filters ∈ issued → fields.updated_at = now)
      ∧ (updateData.fullName = none → updateData.email = none → updateData.phone = none →
          updateData.currentPassword = none → updateData.newPassword = none →
          (updateProfile supabase bcrypt now userId updateData w).2.calls
            = w.calls ++ [.update
                { updated_at := now, full_name := none, email := none, phone := none,
                  password := none }
                [.eq "id" userId]]) := by
  refine ⟨?_, ?_⟩
  · obtain ⟨issued, hc, hf⟩ :=
      updateProfile_updates_carry_email supabase bcrypt now userId updateData w
    refine ⟨issued, hc, ?_⟩
    intro fields filters hq
    rw [(hf fields filters hq).1]
    rfl
  · intro hname hemail hphone hcur hnew
    have ht : (truthy updateData.newPassword && truthy updateData.currentPassword) = false :=
      not_both_truthy updateData (Or.inl hcur)
    have hp : passwordReads userId updateData = [] := by
      unfold passwordReads
      rw [ht]
      rfl
    have he : emailReads userId updateData = [] := by
      unfold emailReads
      rw [hemail]
    have hs : stagedFields bcrypt now updateData
        = { updated_at := now, full_name := none, email := none, phone := none,
            password := none } := by
      simp [stagedFields, ht, hphone, hname, hemail]
    rcases updateProfile_outcome supabase bcrypt now userId updateData w with
      ⟨_, email, _, hem, _⟩ | ⟨_, hc, _⟩ | ⟨_, hc, _⟩ | ⟨ho, _⟩
    · rw [hemail] at hem; cases hem
    · rw [ht] at hc; simp at hc
    · rw [ht] at hc; simp at hc
    · rw [ho, issueAll_calls, he, hp, hs]
      rfl


/-- Witness for C16: the first sample user sends the empty payload. -/
theorem updateProfile_stamps_updated_at_witness :
    (updateProfile memStore sampleBcrypt "2024-03-01T00:00:00.000Z" "u1" {} sampleWorld).2.calls
      = [.update { updated_at := "2024-03-01T00:00:00.000Z" } [.eq "id" "u1"]] :=
  (updateProfile_stamps_updated_at memStore sampleBcrypt "2024-03-01T00:00:00.000Z" "u1" {} sampleWorld).2
    rfl rfl rfl rfl rfl

/-- C17: the phone step of `updateProfile` stages a non-empty phone as given and
the empty string as `null`, and stages nothing when the phone is absent; every
update issued carries exactly that; and with an absent phone no row of the
in-memory table changes its phone. -/
theorem updateProfile_phone_staging {σ : Type} (supabase : SupabaseClient σ)
    (bcrypt : Bcrypt) (now userId : String) (updateData : UpdateData) (w : World σ) :
    (∀ updateFields : UpdateFields,
        stagePhone updateData updateFields
          = match updateData.phone with
            | some phone =>
              if phone = "" then { updateFields with phone := some none }
              else { updateFields with phone := some (some phone) }
            | none => updateFields)
      ∧ (∃ issued, (updateProfile supabase bcrypt now userId updateData w).2.calls
            = w.calls ++ issued
          ∧ ∀ fields filters, Query.update fields filters ∈ issued →
              fields.phone
                = match updateData.phone with
                  | some phone => if phone = "" then some none else some (some phone)
                  | none => none)
      ∧ (updateData.phone = none → ∀ (db : Db) (calls : List Query),
          (updateProfile memStore bcrypt now userId updateData ⟨db, calls⟩).2.db.rows.map
              (fun r => (r.id, r.phone))
            = db.rows.map (fun r => (r.id, r.phone))) := by
  refine ⟨?_, ?_, ?_⟩
  · intro updateFields
    unfold stagePhone
    cases updateData.phone with
    | none => rfl
    | some phone => by_cases hp : phone = "" <;> simp [truthy, hp]
  · obtain ⟨issued, hc, hf⟩ :=
      updateProfile_updates_carry_email supabase bcrypt now userId updateData w
    refine ⟨issued, hc, ?_⟩
    intro fields filters hq
    rw [(hf fields filters hq).1]
    simp only [stagedFields]
    cases updateData.phone with
    | none => rfl
    | some phone => by_cases hp : phone = "" <;> simp [hp]
  · intro hphone db calls
    have hall := reads_append (emailReads_reads userId updateData)
      (passwordReads_reads userId updateData)
    rcases updateProfile_outcome memStore bcrypt now userId updateData ⟨db, calls⟩ with
      ⟨ho, _⟩ | ⟨ho, _⟩ | ⟨ho, _⟩ | ⟨ho, _⟩
    · rw [ho, memStore_issueAll_reads _ _ (emailReads_reads userId updateData)]
    · rw [ho, memStore_issueAll_reads _ _ hall]
    · rw [ho, memStore_issueAll_reads _ _ hall]
    · rw [ho]
      simp only
      rw [issueAll_snoc_db, memStore_issueAll_reads _ _ hall]
      exact memStore_update_preserves (fun r => (r.id, r.phone)) _ _ db
        (fun r => by simp [UpdateFields.applyTo, stagedFields, hphone])

/-- Witness for C17: an empty phone is staged as `null`, and an update without a
phone leaves the stored phones alone. -/
theorem updateProfile_phone_staging_witness :
    stagePhone { phone := some "" } { updated_at := "2024-03-01T00:00:00.000Z" }
        = { updated_at := "2024-03-01T00:00:00.000Z", phone := some none }
      ∧ (updateProfile memStore sampleBcrypt "2024-03-01T00:00:00.000Z" "u2"
          { fullName := some "Binh Tran" } sampleWorld).2.db.rows.map (fun r => (r.id, r.phone))
        = [("u1", none), ("u2", some "0900000000")] :=
  ⟨(updateProfile_phone_staging memStore sampleBcrypt "2024-03-01T00:00:00.000Z" "u1"
      { phone := some "" } sampleWorld).1 { updated_at := "2024-03-01T00:00:00.000Z" },
    (updateProfile_phone_staging memStore sampleBcrypt "2024-03-01T00:00:00.000Z" "u2"
      { fullName := some "Binh Tran" } sampleWorld).2.2 rfl sampleDb []⟩

end AuthService

namespace AdminDashboard

/-! ## The statistics cache -/

theorem fetchData_calls (forceRefresh : Bool) (now : Int)
    (response : Except String DashboardStats) (s : State) :
    ((fetchData forceRefresh now response s).serviceCalls = s.serviceCalls
        ∧ forceRefresh = false
        ∧ ∃ data, s.cacheRef.data = some data ∧ now - s.cacheRef.timestamp < s.cacheRef.ttl
          ∧ fetchData forceRefresh now response s = { s with stats := data, loading := false })
      ∨ ((fetchData forceRefresh now response s).serviceCalls = s.serviceCalls + 1
        ∧ fetchData forceRefresh now response s = refetch now response s) := by
  have hre : (refetch now response s).serviceCalls = s.serviceCalls + 1 := by
    unfold refetch
    split
    · rfl
    · split <;> rfl
  unfold fetchData
  split
  · rename_i data hd
    split
    · rename_i hfresh
      exact Or.inl ⟨rfl, rfl, data, hd, hfresh, rfl⟩
    · exact Or.inr ⟨hre, rfl⟩
  · exact Or.inr ⟨hre, rfl⟩

/-- C18: after a `fetchData` at time `t` that called the service and got an
answer, a non-forced `fetchData` at a time `now` with `now - t < 120000` displays
the statistics built from that answer, which are the cached object, leaves the
cache slot as it was and makes no call to the service. -/
theorem fetchData_serves_fresh_cache (forceRefresh : Bool) (t now : Int)
    (dashboardStats : DashboardStats) (response : Except String DashboardStats) (s : State)
    (hfetched : (fetchData forceRefresh t (.ok dashboardStats) s).serviceCalls
      = s.serviceCalls + 1)
    (hfresh : now - t < 120000) :
    (fetchData false now response (fetchData forceRefresh t (.ok dashboardStats) s)).stats
        = { totalBooks := orZero dashboardStats.totalBooks
            totalOrders := orZero dashboardStats.totalOrders
            totalUsers := orZero dashboardStats.totalUsers
            totalRevenue := orZero dashboardStats.totalRevenue
            recentOrders := orEmpty dashboardStats.recentOrders
            lowStockBooks := orEmpty dashboardStats.lowStockBooks }
      ∧ some (fetchData false now response
            (fetchData forceRefresh t (.ok dashboardStats) s)).stats
        = (fetchData forceRefresh t (.ok dashboardStats) s).cacheRef.data
      ∧ (fetchData false now response (fetchData forceRefresh t (.ok dashboardStats) s)).cacheRef
        = (fetchData forceRefresh t (.ok dashboardStats) s).cacheRef
      ∧ (fetchData false now response
            (fetchData forceRefresh t (.ok dashboardStats) s)).serviceCalls
        = (fetchData forceRefresh t (.ok dashboardStats) s).serviceCalls := by
  rcases fetchData_calls forceRefresh t (.ok dashboardStats) s with ⟨hc, _⟩ | ⟨_, hre⟩
  · omega
  · rw [hre]
    simp [fetchData, refetch, hfresh]


/-- Witness for C18: a first load at 1000 ms and a timer tick one minute later. -/
theorem fetchData_serves_fresh_cache_witness :
    (fetchData false 1000 (.ok sampleAnswer) initialState).serviceCalls = 1
      ∧ (fetchData false 61000 (.error "offline")
          (fetchData false 1000 (.ok sampleAnswer) initialState)).stats
        = { totalBooks := 12, totalOrders := 3, totalUsers := 5, totalRevenue := 450000,
            recentOrders := [⟨"order-1"⟩], lowStockBooks := [] }
      ∧ (fetchData false 61000 (.error "offline")
          (fetchData false 1000 (.ok sampleAnswer) initialState)).serviceCalls = 1 :=
  have h := fetchData_serves_fresh_cache false 1000 61000 sampleAnswer (.error "offline")
    initialState (by rfl) (by decide)
  ⟨by rfl, h.1, h.2.2.2⟩

/-- C19: a forced `fetchData`, and so `handleRefresh`, calls the dashboard service
once in every state and at every time, fresh cache or not. -/
theorem forced_refresh_calls_service (now : Int) (response : Except String DashboardStats)
    (s : State) :
    (fetchData true now response s).serviceCalls = s.serviceCalls + 1
      ∧ (handleRefresh now response s).serviceCalls = s.serviceCalls + 1
      ∧ handleRefresh now response s = refetch now response s := by
  have h : fetchData true now response s = refetch now response s := by
    unfold fetchData
    rfl
  have hre : (refetch now response s).serviceCalls = s.serviceCalls + 1 := by
    unfold refetch
    split
    · rfl
    · split <;> rfl
  unfold handleRefresh
  rw [h]
  exact ⟨hre, hre, rfl⟩


/-- Witness for C19: a manual refresh one second after a successful load. -/
theorem forced_refresh_calls_service_witness :
    (handleRefresh 2000 (.ok sampleAnswer)
        (fetchData false 1000 (.ok sampleAnswer) initialState)).serviceCalls = 2 :=
  (forced_refresh_calls_service 2000 (.ok sampleAnswer)
    (fetchData false 1000 (.ok sampleAnswer) initialState)).2.1

/-- C20: when the service fails while the cache holds no data, `fetchData` (which
has called the service) displays the fallback statistics 248 / 157 / 84 /
15680000 with empty lists and stores them as the data of the cache, whose
timestamp and ttl stay as they were. -/
theorem failed_fetch_without_cache_uses_fallback (forceRefresh : Bool) (now : Int)
    (error : String) (s : State) (hnone : s.cacheRef.data = none) :
    (fetchData forceRefresh now (.error error) s).stats
        = { totalBooks := 248, totalOrders := 157, totalUsers := 84, totalRevenue := 15680000,
            recentOrders := [], lowStockBooks := [] }
      ∧ (fetchData forceRefresh now (.error error) s).cacheRef.data
        = some { totalBooks := 248, totalOrders := 157, totalUsers := 84,
                 totalRevenue := 15680000, recentOrders := [], lowStockBooks := [] }
      ∧ (fetchData forceRefresh now (.error error) s).cacheRef.timestamp = s.cacheRef.timestamp
      ∧ (fetchData forceRefresh now (.error error) s).cacheRef.ttl = s.cacheRef.ttl
      ∧ (fetchData forceRefresh now (.error error) s).serviceCalls = s.serviceCalls + 1 := by
  have h : fetchData forceRefresh now (.error error) s = refetch now (.error error) s := by
    unfold fetchData
    rw [hnone]
    cases forceRefresh <;> rfl
  rw [h]
  simp [refetch, hnone, fallbackStats]

/-- Witness for C20: the first load fails. -/
theorem failed_fetch_without_cache_uses_fallback_witness :
    initialState.cacheRef.data = none
      ∧ (fetchData false 1000 (.error "offline") initialState).stats = fallbackStats
      ∧ (fetchData false 1000 (.error "offline") initialState).cacheRef
        = { data := some fallbackStats, timestamp := 0, ttl := 120000 } :=
  have h := failed_fetch_without_cache_uses_fallback false 1000 "offline" initialState rfl
  ⟨rfl, h.1, by rfl⟩

end AdminDashboard

namespace AuthService

/-! ## Profile update: truthiness of the password fields -/

theorem password_step_skipped {σ : Type} (supabase : SupabaseClient σ)
    (bcrypt : Bcrypt) (now userId : String) (updateData : UpdateData) (w : World σ)
    (ht : (truthy updateData.newPassword && truthy updateData.currentPassword) = false) :
    (∃ issued, (updateProfile supabase bcrypt now userId updateData w).2.calls = w.calls ++ issued
        ∧ (∀ filters, Query.select "password" filters ∉ issued)
        ∧ (∀ fields filters, Query.update fields filters ∈ issued → fields.password = none))
      ∧ (∀ e, (updateProfile supabase bcrypt now userId updateData w).1 = .error e →
          e ≠ .Error "User không tồn tại" ∧ e ≠ .Error "Mật khẩu hiện tại không đúng") := by
  have hp : passwordReads userId updateData = [] := by
    unfold passwordReads
    rw [ht]
    rfl
  have hs : (stagedFields bcrypt now updateData).password = none := by
    simp only [stagedFields, ht]
    rfl
  have hnoreads : ∀ reads : List Query, (∀ q ∈ reads, ∃ email,
      q = .select "id" [.eq "email" email, .neq "id" userId]) →
      (∀ filters, Query.select "password" filters ∉ reads)
        ∧ (∀ fields filters, Query.update fields filters ∈ reads → fields.password = none) := by
    intro reads hr
    refine ⟨?_, ?_⟩
    · intro filters hq
      obtain ⟨email, he⟩ := hr _ hq
      simp at he
    · intro fields filters hq
      obtain ⟨email, he⟩ := hr _ hq
      simp at he
  refine ⟨?_, ?_⟩
  · rcases updateProfile_outcome supabase bcrypt now userId updateData w with
      ⟨ho, _⟩ | ⟨_, hc, _⟩ | ⟨_, hc, _⟩ | ⟨ho, _⟩
    · have hn := hnoreads _ (mem_emailReads userId updateData)
      exact ⟨emailReads userId updateData, by rw [ho, issueAll_calls], hn.1, hn.2⟩
    · rw [ht] at hc; simp at hc
    · rw [ht] at hc; simp at hc
    · have hn := hnoreads _ (mem_emailReads userId updateData)
      refine ⟨_, by rw [ho, issueAll_calls], ?_, ?_⟩
      · intro filters hq
        rw [hp, List.append_nil, List.mem_append, List.mem_singleton] at hq
        rcases hq with hq | hq
        · exact hn.1 filters hq
        · simp at hq
      · intro fields filters hq
        rw [hp, List.append_nil, List.mem_append, List.mem_singleton] at hq
        rcases hq with hq | hq
        · exact hn.2 fields filters hq
        · simp only [Query.update.injEq] at hq
          rw [hq.1]
          exact hs
  · intro e he
    rcases updateProfile_outcome supabase bcrypt now userId updateData w with
      ⟨ho, _⟩ | ⟨_, hc, _⟩ | ⟨_, hc, _⟩ | ⟨ho, _⟩
    · rw [ho] at he
      simp only [Except.error.injEq] at he
      rw [← he]
      exact ⟨by decide, by decide⟩
    · rw [ht] at hc; simp at hc
    · rw [ht] at hc; simp at hc
    · rw [ho] at he
      simp only at he
      cases hr : (supabase.single (.update (stagedFields bcrypt now updateData) [.eq "id" userId])
        (issueAll supabase
          (emailReads userId updateData ++ passwordReads userId updateData) w).db).1 with
      | success u => rw [hr] at he; simp [updateOutcome] at he
      | failure err =>
        rw [hr] at he
        simp only [updateOutcome, Except.error.injEq] at he
        rw [← he]
        exact ⟨fun hc => update_failed_ne_missing err.message (Exn.Error.inj hc),
          fun hc => update_failed_ne_wrong err.message (Exn.Error.inj hc)⟩

theorem updateProfile_congr {σ : Type} (supabase : SupabaseClient σ) (bcrypt : Bcrypt)
    (now userId : String) (d1 d2 : UpdateData) (w : World σ)
    (hname : d1.fullName = d2.fullName) (hemail : d1.email = d2.email)
    (hphone : d1.phone = d2.phone)
    (ht : (truthy d1.newPassword && truthy d1.currentPassword)
      = (truthy d2.newPassword && truthy d2.currentPassword))
    (hpw : (truthy d1.newPassword && truthy d1.currentPassword) = true →
      d1.newPassword = d2.newPassword ∧ d1.currentPassword = d2.currentPassword) :
    updateProfile supabase bcrypt now userId d1 w
      = updateProfile supabase bcrypt now userId d2 w := by
  have h1 : ∀ f, stageFullName d1 f = stageFullName d2 f := by
    intro f; unfold stageFullName; rw [hname]
  have h2 : ∀ f v, stageEmail supabase userId d1 f v = stageEmail supabase userId d2 f v := by
    intro f v; unfold stageEmail; rw [hemail]
  have h3 : ∀ f, stagePhone d1 f = stagePhone d2 f := by
    intro f; unfold stagePhone; rw [hphone]
  have h4 : ∀ f v, stagePassword supabase bcrypt userId d1 f v
      = stagePassword supabase bcrypt userId d2 f v := by
    intro f v
    unfold stagePassword
    cases hb : (truthy d1.newPassword && truthy d1.currentPassword) with
    | false =>
      rw [← ht, hb]
      rfl
    | true =>
      rw [← ht, hb, (hpw hb).1, (hpw hb).2]
  unfold updateProfile
  rw [updateProfileTry_unfold, updateProfileTry_unfold, h1, h2]
  simp only [h3, h4]

/-- C24: `updateProfile` treats `newPassword` and `currentPassword` as both truthy
exactly when both are present and non-empty. When they are not, no
`select('password')` is issued, no update stages a password and the errors of the
password step do not occur; when they are and the email step passes, the hash
lookup is issued; and a payload whose `newPassword` (or `currentPassword`) is the
empty string gives the same result and the same queries as the payload without
that field. -/
theorem updateProfile_password_step_iff_truthy {σ : Type} (supabase : SupabaseClient σ)
    (bcrypt : Bcrypt) (now userId : String) (updateData : UpdateData) (w : World σ) :
    ((truthy updateData.newPassword && truthy updateData.currentPassword) = true
        ↔ ∃ newPassword currentPassword, updateData.newPassword = some newPassword
          ∧ updateData.currentPassword = some currentPassword
          ∧ newPassword ≠ "" ∧ currentPassword ≠ "")
      ∧ ((truthy updateData.newPassword && truthy updateData.currentPassword) = false →
          (∃ issued,
            (updateProfile supabase bcrypt now userId updateData w).2.calls = w.calls ++ issued
            ∧ (∀ filters, Query.select "password" filters ∉ issued)
            ∧ (∀ fields filters, Query.update fields filters ∈ issued →
                fields.password = none))
          ∧ (∀ e, (updateProfile supabase bcrypt now userId updateData w).1 = .error e →
              e ≠ .Error "User không tồn tại" ∧ e ≠ .Error "Mật khẩu hiện tại không đúng"))
      ∧ ((truthy updateData.newPassword && truthy updateData.currentPassword) = true →
          (∀ email, updateData.email = some email →
            (supabase.single (.select "id" [.eq "email" email, .neq "id" userId]) w.db).1.data
              = none) →
          ∃ issued,
            (updateProfile supabase bcrypt now userId updateData w).2.calls = w.calls ++ issued
            ∧ Query.select "password" [.eq "id" userId] ∈ issued)
      ∧ (updateData.newPassword = some "" →
          updateProfile supabase bcrypt now userId updateData w
            = updateProfile supabase bcrypt now userId
                { updateData with newPassword := none } w)
      ∧ (updateData.currentPassword = some "" →
          updateProfile supabase bcrypt now userId updateData w
            = updateProfile supabase bcrypt now userId
                { updateData with currentPassword := none } w) := by
  refine ⟨?_, password_step_skipped supabase bcrypt now userId updateData w, ?_, ?_, ?_⟩
  · constructor
    · intro h
      cases hn : updateData.newPassword with
      | none => simp [hn, truthy] at h
      | some newPassword =>
        cases hc : updateData.currentPassword with
        | none => simp [hc, truthy] at h
        | some currentPassword =>
          simp only [hn, hc, truthy, Bool.and_eq_true, bne_iff_ne, ne_eq] at h
          exact ⟨newPassword, currentPassword, rfl, rfl, h.1, h.2⟩
    · rintro ⟨newPassword, currentPassword, hn, hc, hn0, hc0⟩
      simp [hn, hc, truthy, hn0, hc0]
  · intro ht hfree
    have hp : passwordReads userId updateData = [.select "password" [.eq "id" userId]] := by
      unfold passwordReads
      rw [if_pos ht]
    rcases updateProfile_outcome supabase bcrypt now userId updateData w with
      ⟨_, email, u, hem, hl⟩ | ⟨ho, _⟩ | ⟨ho, _⟩ | ⟨ho, _⟩
    · have := hfree email hem
      rw [hl] at this
      simp [PostgrestSingleResponse.data] at this
    · exact ⟨_, by rw [ho, issueAll_calls], by rw [hp]; simp⟩
    · exact ⟨_, by rw [ho, issueAll_calls], by rw [hp]; simp⟩
    · exact ⟨_, by rw [ho, issueAll_calls], by rw [hp]; simp⟩
  · intro h
    apply updateProfile_congr <;> simp [h, truthy]
  · intro h
    apply updateProfile_congr <;> simp [h, truthy]

/-- Witness for C24: an empty new password next to a current password. -/
theorem updateProfile_password_step_iff_truthy_witness :
    updateProfile memStore sampleBcrypt "2024-03-01T00:00:00.000Z" "u1"
        { newPassword := some "", currentPassword := some "secret" } sampleWorld
      = updateProfile memStore sampleBcrypt "2024-03-01T00:00:00.000Z" "u1"
        { newPassword := none, currentPassword := some "secret" } sampleWorld :=
  (updateProfile_password_step_iff_truthy memStore sampleBcrypt "2024-03-01T00:00:00.000Z" "u1"
    { newPassword := some "", currentPassword := some "secret" } sampleWorld).2.2.2.1 rfl

/-! ## Profile update: what is never written -/

theorem filter_others_map_applyTo (fields : UpdateFields) (userId : String) :
    ∀ rows : List UserRow,
      (rows.map (fun x => if decide (x.id = userId) = true then fields.applyTo x else x)).filter
          (fun r => decide (r.id ≠ userId))
        = rows.filter (fun r => decide (r.id ≠ userId))
  | [] => rfl
  | a :: l => by
    have ih := filter_others_map_applyTo fields userId l
    rw [List.map_cons, List.filter_cons, List.filter_cons, ih]
    by_cases ha : a.id = userId
    · have hid : (fields.applyTo a).id = userId := by simpa [UpdateFields.applyTo] using ha
      simp [ha, hid]
    · simp [ha]

theorem memStore_update_others (fields : UpdateFields) (userId : String) (db : Db) :
    (memStore.single (.update fields [.eq "id" userId]) db).2.rows.filter
        (fun r => decide (r.id ≠ userId))
      = db.rows.filter (fun r => decide (r.id ≠ userId)) := by
  simp only [memStore]
  split
  · simp only [List.all_cons, List.all_nil, Bool.and_true, holds_eq_id]
    exact filter_others_map_applyTo fields userId db.rows
  · rfl

/-- C25: extra keys of the payload change neither the result nor the queries of
`updateProfile`; the call issues no insert, and any update it issues is keyed by
`eq('id', userId)` alone and carries `updated_at`, the full name, email and phone
of the payload and possibly a password, nothing else; on the in-memory table no
row changes its id, role or creation time, and the rows with another id are
left as they were. -/
theorem updateProfile_frame {σ : Type} (supabase : SupabaseClient σ) (bcrypt : Bcrypt)
    (now userId : String) (updateData : UpdateData) (w : World σ) :
    (∀ extra, updateProfile supabase bcrypt now userId { updateData with extra := extra } w
        = updateProfile supabase bcrypt now userId updateData w)
      ∧ (∃ issued,
          (updateProfile supabase bcrypt now userId updateData w).2.calls = w.calls ++ issued
          ∧ (∀ row, Query.insert row ∉ issued)
          ∧ (∀ fields filters, Query.update fields filters ∈ issued →
              filters = [.eq "id" userId]
              ∧ fields
                = { updated_at := now
                    full_name := updateData.fullName
                    email := updateData.email
                    phone := updateData.phone.map
                      (fun phone => if phone = "" then none else some phone)
                    password := fields.password }))
      ∧ (∀ (db : Db) (calls : List Query),
          (updateProfile memStore bcrypt now userId updateData ⟨db, calls⟩).2.db.rows.map
              (fun r => (r.id, r.role, r.created_at))
            = db.rows.map (fun r => (r.id, r.role, r.created_at))
          ∧ (updateProfile memStore bcrypt now userId updateData ⟨db, calls⟩).2.db.rows.filter
              (fun r => decide (r.id ≠ userId))
            = db.rows.filter (fun r => decide (r.id ≠ userId))) := by
  refine ⟨?_, ?_, ?_⟩
  · intro extra
    apply updateProfile_congr <;> simp
  · have hall := reads_append (emailReads_reads userId updateData)
      (passwordReads_reads userId updateData)
    have hreads : ∀ reads : List Query, (∀ q ∈ reads, q.isMutation = false) →
        (∀ row, Query.insert row ∉ reads)
          ∧ (∀ fields filters, Query.update fields filters ∉ reads) := by
      intro reads hr
      refine ⟨fun row hq => ?_, fun fields filters hq => ?_⟩
      · have := hr _ hq
        simp [Query.isMutation] at this
      · have := hr _ hq
        simp [Query.isMutation] at this
    rcases updateProfile_outcome supabase bcrypt now userId updateData w with
      ⟨ho, _⟩ | ⟨ho, _⟩ | ⟨ho, _⟩ | ⟨ho, _⟩
    · have hr := hreads _ (emailReads_reads userId updateData)
      exact ⟨_, by rw [ho, issueAll_calls], hr.1, fun f fs hq => absurd hq (hr.2 f fs)⟩
    · have hr := hreads _ hall
      exact ⟨_, by rw [ho, issueAll_calls], hr.1, fun f fs hq => absurd hq (hr.2 f fs)⟩
    · have hr := hreads _ hall
      exact ⟨_, by rw [ho, issueAll_calls], hr.1, fun f fs hq => absurd hq (hr.2 f fs)⟩
    · have hr := hreads _ hall
      refine ⟨_, by rw [ho, issueAll_calls], ?_, ?_⟩
      · intro row hq
        rcases List.mem_append.mp hq with hq | hq
        · exact hr.1 row hq
        · simp at hq
      · intro fields filters hq
        rcases List.mem_append.mp hq with hq | hq
        · exact absurd hq (hr.2 fields filters)
        · simp only [List.mem_singleton, Query.update.injEq] at hq
          refine ⟨hq.2, ?_⟩
          rw [hq.1]
          rfl
  · intro db calls
    have hall := reads_append (emailReads_reads userId updateData)
      (passwordReads_reads userId updateData)
    rcases updateProfile_outcome memStore bcrypt now userId updateData ⟨db, calls⟩ with
      ⟨ho, _⟩ | ⟨ho, _⟩ | ⟨ho, _⟩ | ⟨ho, _⟩
    · rw [ho, memStore_issueAll_reads _ _ (emailReads_reads userId updateData)]
      exact ⟨rfl, rfl⟩
    · rw [ho, memStore_issueAll_reads _ _ hall]
      exact ⟨rfl, rfl⟩
    · rw [ho, memStore_issueAll_reads _ _ hall]
      exact ⟨rfl, rfl⟩
    · rw [ho]
      simp only
      rw [issueAll_snoc_db, memStore_issueAll_reads _ _ hall]
      exact ⟨memStore_update_preserves (fun r => (r.id, r.role, r.created_at)) _ _ db
          (fun r => by simp [UpdateFields.applyTo]),
        memStore_update_others _ userId db⟩


/-- Witness for C25: a payload that also carries `role` and `id` keys. -/
theorem updateProfile_frame_witness :
    updateProfile memStore sampleBcrypt "2024-03-01T00:00:00.000Z" "u1"
        { fullName := some "An N.", extra := [("role", "admin"), ("id", "u2")] } sampleWorld
        = updateProfile memStore sampleBcrypt "2024-03-01T00:00:00.000Z" "u1" { fullName := some "An N." } sampleWorld
      ∧ (updateProfile memStore sampleBcrypt "2024-03-01T00:00:00.000Z" "u1"
          { fullName := some "An N.", extra := [("role", "admin"), ("id", "u2")] }
          sampleWorld).2.db.rows.map (fun r => (r.id, r.role, r.created_at))
        = [("u1", some "customer", "2024-01-01T00:00:00.000Z"),
           ("u2", some "admin", "2024-01-02T00:00:00.000Z")] :=
  ⟨(updateProfile_frame memStore sampleBcrypt "2024-03-01T00:00:00.000Z" "u1" { fullName := some "An N." }
      sampleWorld).1 [("role", "admin"), ("id", "u2")],
    ((updateProfile_frame memStore sampleBcrypt "2024-03-01T00:00:00.000Z" "u1"
      { fullName := some "An N.", extra := [("role", "admin"), ("id", "u2")] }
      sampleWorld).2.2 sampleDb []).1⟩

/-! ## The admin flag -/

theorem reshape_isAdmin_iff (row : UserRow) :
    (reshape row).isAdmin = true ↔ (reshape row).role = "admin" := by
  simp only [reshape]
  cases hr : row.role with
  | none => simp [orDefault]
  | some role =>
    by_cases h0 : role = ""
    · simp [orDefault, h0]
    · simp [orDefault, h0]

theorem register_view_eq {σ : Type} (supabase : SupabaseClient σ) (bcrypt : Bcrypt)
    (createUserDto : CreateUserDto) (w : World σ) (view : UserResponseDto)
    (h : (register supabase bcrypt createUserDto w).1 = .ok view) :
    ∃ row, view = reshape row := by
  unfold register at h
  simp only at h
  split at h
  · simp at h
  · split at h
    · simp at h
    · rename_i data _
      simp only [Except.ok.injEq] at h
      exact ⟨data, h.symm⟩

theorem login_view_eq {σ : Type} (supabase : SupabaseClient σ) (bcrypt : Bcrypt)
    (jwtService : JwtService) (loginDto : LoginDto) (w : World σ) (token : String)
    (view : UserResponseDto)
    (h : (login supabase bcrypt jwtService loginDto w).1 = .ok (token, view)) :
    ∃ row, view = reshape row ∧ token = jwtService.sign (tokenPayload row) := by
  unfold login at h
  simp only [issue] at h
  cases hl : (supabase.single (.select "*" [.eq "email" loginDto.email]) w.db).1 with
  | failure e => rw [hl] at h; simp at h
  | success user =>
    rw [hl] at h
    simp only at h
    cases hc : bcrypt.compare loginDto.password user.password with
    | false => rw [hc] at h; simp at h
    | true =>
      rw [hc] at h
      simp only [Bool.not_true, Bool.false_eq_true, if_false, Except.ok.injEq,
        Prod.mk.injEq] at h
      exact ⟨user, h.2.symm, h.1.symm⟩

theorem getUserFromToken_view_eq {σ : Type} (supabase : SupabaseClient σ)
    (jwtService : JwtService) (token : String) (w : World σ) (view : UserResponseDto)
    (h : (getUserFromToken supabase jwtService token w).1 = .ok view) :
    ∃ row, view = reshape row := by
  unfold getUserFromToken getUserFromTokenTry at h
  cases hv : jwtService.verify token with
  | error e => rw [hv] at h; simp at h
  | ok payload =>
    rw [hv] at h
    simp only [issue] at h
    cases hl : (supabase.single (.select "*" [.eq "id" payload.sub]) w.db).1 with
    | failure e => rw [hl] at h; simp at h
    | success user =>
      rw [hl] at h
      simp only [Except.ok.injEq] at h
      exact ⟨user, h.symm⟩

theorem updateProfile_view_eq {σ : Type} (supabase : SupabaseClient σ) (bcrypt : Bcrypt)
    (now userId : String) (updateData : UpdateData) (w : World σ)
    (result : UpdateProfileResult)
    (h : (updateProfile supabase bcrypt now userId updateData w).1 = .ok result) :
    ∃ row, result.user = reshape row := by
  rcases updateProfile_outcome supabase bcrypt now userId updateData w with
    ⟨ho, _⟩ | ⟨ho, _⟩ | ⟨ho, _⟩ | ⟨ho, _⟩
  · rw [ho] at h; simp at h
  · rw [ho] at h; simp at h
  · rw [ho] at h; simp at h
  · rw [ho] at h
    simp only at h
    cases hr : (supabase.single (.update (stagedFields bcrypt now updateData) [.eq "id" userId])
      (issueAll supabase
        (emailReads userId updateData ++ passwordReads userId updateData) w).db).1 with
    | failure e => rw [hr] at h; simp [updateOutcome] at h
    | success updatedUser =>
      rw [hr] at h
      simp only [updateOutcome, Except.ok.injEq] at h
      exact ⟨updatedUser, by rw [← h]⟩

/-- C26: in the view returned by `register`, `login`, `getUserFromToken` and
`updateProfile`, and in the payload signed by `login`, `isAdmin` is true exactly
when the reported role is 'admin'; a row whose role is missing or empty is
reported with role 'customer' and `isAdmin` false, and a row with role
'warehouse_manager' is reported with that role and `isAdmin` false. -/
theorem isAdmin_iff_role_admin {σ : Type} (supabase : SupabaseClient σ) (bcrypt : Bcrypt)
    (jwtService : JwtService) (w : World σ) :
    (∀ createUserDto view, (register supabase bcrypt createUserDto w).1 = .ok view →
        (view.isAdmin = true ↔ view.role = "admin"))
      ∧ (∀ loginDto token view,
          (login supabase bcrypt jwtService loginDto w).1 = .ok (token, view) →
          (view.isAdmin = true ↔ view.role = "admin")
            ∧ ∃ payload : JwtPayload, token = jwtService.sign payload
              ∧ (payload.isAdmin = true ↔ payload.role = "admin")
              ∧ payload.isAdmin = view.isAdmin ∧ payload.role = view.role)
      ∧ (∀ token view, (getUserFromToken supabase jwtService token w).1 = .ok view →
          (view.isAdmin = true ↔ view.role = "admin"))
      ∧ (∀ now userId updateData result,
          (updateProfile supabase bcrypt now userId updateData w).1 = .ok result →
          (result.user.isAdmin = true ↔ result.user.role = "admin"))
      ∧ (∀ row : UserRow, row.role = none ∨ row.role = some "" →
          (reshape row).role = "customer" ∧ (reshape row).isAdmin = false
            ∧ (tokenPayload row).role = "customer" ∧ (tokenPayload row).isAdmin = false)
      ∧ (∀ row : UserRow, row.role = some "warehouse_manager" →
          (reshape row).role = "warehouse_manager" ∧ (reshape row).isAdmin = false
            ∧ (tokenPayload row).role = "warehouse_manager"
            ∧ (tokenPayload row).isAdmin = false) := by
  refine ⟨?_, ?_, ?_, ?_, ?_, ?_⟩
  · intro createUserDto view h
    obtain ⟨row, hv⟩ := register_view_eq supabase bcrypt createUserDto w view h
    rw [hv]
    exact reshape_isAdmin_iff row
  · intro loginDto token view h
    obtain ⟨row, hv, ht⟩ := login_view_eq supabase bcrypt jwtService loginDto w token view h
    rw [hv]
    exact ⟨reshape_isAdmin_iff row, tokenPayload row, ht, reshape_isAdmin_iff row, rfl, rfl⟩
  · intro token view h
    obtain ⟨row, hv⟩ := getUserFromToken_view_eq supabase jwtService token w view h
    rw [hv]
    exact reshape_isAdmin_iff row
  · intro now userId updateData result h
    obtain ⟨row, hv⟩ := updateProfile_view_eq supabase bcrypt now userId updateData w result h
    rw [hv]
    exact reshape_isAdmin_iff row
  · intro row h
    rcases h with h | h <;> simp [reshape, tokenPayload, h, orDefault]
  · intro row h
    simp [reshape, tokenPayload, h, orDefault]

/-- Witness for C26: the second sample user, an admin, logs in; and the same row
with the role of a warehouse manager. -/
theorem isAdmin_iff_role_admin_witness :
    (((reshape otherUser).isAdmin = true ↔ (reshape otherUser).role = "admin")
        ∧ ∃ payload : JwtPayload, "tok:u2" = sampleJwt.sign payload
          ∧ (payload.isAdmin = true ↔ payload.role = "admin")
          ∧ payload.isAdmin = (reshape otherUser).isAdmin
          ∧ payload.role = (reshape otherUser).role)
      ∧ (reshape { otherUser with role := some "warehouse_manager" }).isAdmin = false :=
  have h := isAdmin_iff_role_admin memStore sampleBcrypt sampleJwt sampleWorld
  ⟨h.2.1 { email := "binh@example.com", password := "hunter2" } "tok:u2" (reshape otherUser)
      (by rfl),
    (h.2.2.2.2.2 { otherUser with role := some "warehouse_manager" } rfl).2.1⟩

end AuthService

namespace AdminDashboard

/-! ## Failed fetches and the timer -/

/-- C21: when `fetchData` calls the service, the service fails and the cache
already holds data, the cache slot (data, timestamp and ttl) and the displayed
statistics are what they were before the call. -/
theorem failed_fetch_with_cache_is_swallowed (forceRefresh : Bool) (now : Int) (error : String)
    (s : State) (data : Stats) (hdata : s.cacheRef.data = some data)
    (hfetched : (fetchData forceRefresh now (.error error) s).serviceCalls
      = s.serviceCalls + 1) :
    (fetchData forceRefresh now (.error error) s).cacheRef = s.cacheRef
      ∧ (fetchData forceRefresh now (.error error) s).cacheRef.data = some data
      ∧ (fetchData forceRefresh now (.error error) s).cacheRef.timestamp = s.cacheRef.timestamp
      ∧ (fetchData forceRefresh now (.error error) s).stats = s.stats := by
  rcases fetchData_calls forceRefresh now (.error error) s with ⟨hc, _⟩ | ⟨_, hre⟩
  · omega
  · rw [hre]
    simp [refetch, hdata]


/-- Witness for C21: a manual refresh fails after a successful first load. -/
theorem failed_fetch_with_cache_is_swallowed_witness :
    (fetchData true 2000 (.error "offline")
        (fetchData false 1000 (.ok sampleAnswer) initialState)).cacheRef
        = (fetchData false 1000 (.ok sampleAnswer) initialState).cacheRef
      ∧ (fetchData true 2000 (.error "offline")
          (fetchData false 1000 (.ok sampleAnswer) initialState)).stats
        = { totalBooks := 12, totalOrders := 3, totalUsers := 5, totalRevenue := 450000,
            recentOrders := [⟨"order-1"⟩], lowStockBooks := [] } :=
  have h := failed_fetch_with_cache_is_swallowed true 2000 "offline"
    (fetchData false 1000 (.ok sampleAnswer) initialState)
    (fetchData false 1000 (.ok sampleAnswer) initialState).stats (by rfl) (by rfl)
  ⟨h.1, h.2.2.2⟩

/-- C22, counterexample: the page loads at 1000 ms, a manual refresh at 250000 ms
fills the cache, and the timer tick at 301000 ms, 51 s later, makes no call to
the service (the count of calls stays 2); so it is not true that every tick
calls the service. -/
theorem autoRefreshTick_every_tick_calls_counterexample :
    (handleRefresh 250000 (.ok sampleAnswer)
        (fetchData false 1000 (.ok sampleAnswer) initialState)).serviceCalls = 2
      ∧ (autoRefreshTick 301000 (.ok sampleAnswer)
          (handleRefresh 250000 (.ok sampleAnswer)
            (fetchData false 1000 (.ok sampleAnswer) initialState))).serviceCalls = 2
      ∧ ¬ (∀ (now : Int) (response : Except String DashboardStats) (s : State),
          (autoRefreshTick now response s).serviceCalls = s.serviceCalls + 1) := by
  refine ⟨by rfl, by rfl, ?_⟩
  intro h
  have h1 := h 301000 (.ok sampleAnswer)
    (handleRefresh 250000 (.ok sampleAnswer)
      (fetchData false 1000 (.ok sampleAnswer) initialState))
  have h2 : (autoRefreshTick 301000 (.ok sampleAnswer)
      (handleRefresh 250000 (.ok sampleAnswer)
        (fetchData false 1000 (.ok sampleAnswer) initialState))).serviceCalls = 2 := by rfl
  have h3 : (handleRefresh 250000 (.ok sampleAnswer)
      (fetchData false 1000 (.ok sampleAnswer) initialState)).serviceCalls = 2 := by rfl
  rw [h2, h3] at h1
  exact absurd h1 (by decide)


/-- C22, amended: a tick of the auto-refresh timer calls the dashboard service
exactly when the cache holds no data or `now - timestamp < ttl` fails; when the
cache holds data younger than the ttl, as after a manual refresh less than 2
minutes earlier, the tick displays the cached statistics, leaves the cache slot
as it is and makes no call. -/
theorem autoRefreshTick_calls_unless_fresh (now : Int)
    (response : Except String DashboardStats) (s : State) :
    ((autoRefreshTick now response s).serviceCalls = s.serviceCalls + 1
        ↔ (s.cacheRef.data = none ∨ ¬ (now - s.cacheRef.timestamp < s.cacheRef.ttl)))
      ∧ (∀ data, s.cacheRef.data = some data → now - s.cacheRef.timestamp < s.cacheRef.ttl →
          (autoRefreshTick now response s).serviceCalls = s.serviceCalls
            ∧ (autoRefreshTick now response s).stats = data
            ∧ (autoRefreshTick now response s).cacheRef = s.cacheRef) := by
  unfold autoRefreshTick
  refine ⟨?_, ?_⟩
  · constructor
    · intro h
      rcases fetchData_calls false now response s with ⟨hc, _⟩ | ⟨_, hre⟩
      · omega
      · cases hd : s.cacheRef.data with
        | none => exact Or.inl rfl
        | some data =>
          refine Or.inr ?_
          intro hfresh
          have : (fetchData false now response s).serviceCalls = s.serviceCalls := by
            simp [fetchData, hd, hfresh]
          omega
    · intro h
      rcases fetchData_calls false now response s with ⟨_, _, data, hd, hfresh, _⟩ | ⟨hc, _⟩
      · rcases h with h | h
        · rw [h] at hd; cases hd
        · exact absurd hfresh h
      · exact hc
  · intro data hd hfresh
    simp [fetchData, hd, hfresh]


/-- C27: from a state whose cache slot is the one of the mounted component (no
data, timestamp 0, ttl 120000), a `fetchData` whose call to the service fails
leaves the cache holding the fallback with timestamp 0, and a non-forced
`fetchData` at any later time `now >= 120000` calls the service again. -/
theorem fallback_is_refetched (forceRefresh : Bool) (t now : Int) (error : String)
    (response : Except String DashboardStats) (s : State)
    (hcache : s.cacheRef = { data := none, timestamp := 0, ttl := 2 * 60 * 1000 })
    (hnow : 120000 ≤ now) :
    (fetchData forceRefresh t (.error error) s).cacheRef
        = { data := some fallbackStats, timestamp := 0, ttl := 120000 }
      ∧ (fetchData false now response (fetchData forceRefresh t (.error error) s)).serviceCalls
        = (fetchData forceRefresh t (.error error) s).serviceCalls + 1
      ∧ fetchData false now response (fetchData forceRefresh t (.error error) s)
        = refetch now response (fetchData forceRefresh t (.error error) s) := by
  have hnone : s.cacheRef.data = none := by rw [hcache]
  have h : fetchData forceRefresh t (.error error) s = refetch t (.error error) s := by
    unfold fetchData
    rw [hnone]
    cases forceRefresh <;> rfl
  have hc : (fetchData forceRefresh t (.error error) s).cacheRef
      = { data := some fallbackStats, timestamp := 0, ttl := 120000 } := by
    rw [h]
    simp [refetch, hnone, hcache]
  refine ⟨hc, ?_, ?_⟩
  · rcases fetchData_calls false now response (fetchData forceRefresh t (.error error) s) with
      ⟨_, _, data, _, hfresh, _⟩ | ⟨hcall, _⟩
    · rw [hc] at hfresh
      simp at hfresh
      omega
    · exact hcall
  · rcases fetchData_calls false now response (fetchData forceRefresh t (.error error) s) with
      ⟨_, _, data, _, hfresh, _⟩ | ⟨_, hre⟩
    · rw [hc] at hfresh
      simp at hfresh
      omega
    · exact hre

/-- Witness for C27: the first load fails and the first timer tick comes five
minutes later. -/
theorem fallback_is_refetched_witness :
    (fetchData false 1000 (.error "offline") initialState).cacheRef
        = { data := some fallbackStats, timestamp := 0, ttl := 120000 }
      ∧ (fetchData false 301000 (.ok sampleAnswer)
          (fetchData false 1000 (.error "offline") initialState)).serviceCalls = 2 :=
  have h := fallback_is_refetched false 1000 301000 "offline" (.ok sampleAnswer) initialState
    rfl (by decide)
  ⟨h.1, h.2.1⟩

end AdminDashboard

namespace BooksPage

/-! ## The popular filter -/

/-- C23: the code at the failing input. With `isPopular` on and fetched books
of stock 0, 5 and 12, the list shown holds the book of stock 5 only, while the
fetched books whose stock is below 10, the criterion that the comments of the
page state for this filter, are the books of stock 0 and 5: the book of stock
0 is dropped. -/
theorem popular_filter_drops_stock_zero :
    (fetchBooks 0 []
        (.ok { books := some [sampleBook "a" 0, sampleBook "b" 5, sampleBook "c" 12] })
        { isPopular := true } { books := [], totalBooks := 0, loading := true, error := none }).books
        = [sampleBook "b" 5]
      ∧ [sampleBook "a" 0, sampleBook "b" 5, sampleBook "c" 12].filter
          (fun book => decide (book.stock < 10))
        = [sampleBook "a" 0, sampleBook "b" 5]
      ∧ (fetchBooks 0 []
        (.ok { books := some [sampleBook "a" 0, sampleBook "b" 5, sampleBook "c" 12] })
        { isPopular := true } { books := [], totalBooks := 0, loading := true, error := none }).books
        ≠ [sampleBook "a" 0, sampleBook "b" 5, sampleBook "c" 12].filter
          (fun book => decide (book.stock < 10)) := by
  refine ⟨by decide, by decide, by decide⟩

/-- What the code computes: with `isPopular` on and an answer of the service,
the list shown is the fetched books (those passing the `isNew` test when that
filter is on as well) whose stock is above 0 and below 10, a sub-list of the
fetched books in their order, and `totalBooks` is the length of the list
shown. -/
theorem popular_filter_shows_low_positive_stock (now : Int) (dummyBooks : List Book)
    (response : Response) (currentFilters : Filters) (s : State)
    (hpopular : currentFilters.isPopular = true) :
    (fetchBooks now dummyBooks (.ok response) currentFilters s).books
        = ((if currentFilters.isNew then
              (match response.books with
                | some books => books
                | none => response.data.getD []).filter (isNewBook now)
            else
              (match response.books with
                | some books => books
                | none => response.data.getD [])).filter
            (fun book => decide (0 < book.stock ∧ book.stock < 10)))
      ∧ (fetchBooks now dummyBooks (.ok response) currentFilters s).books.Sublist
          (match response.books with
            | some books => books
            | none => response.data.getD [])
      ∧ (fetchBooks now dummyBooks (.ok response) currentFilters s).totalBooks
        = (fetchBooks now dummyBooks (.ok response) currentFilters s).books.length := by
  have hp : isPopularBook = fun book => decide (0 < book.stock ∧ book.stock < 10) := by
    funext book
    simp [isPopularBook]
  refine ⟨?_, ?_, ?_⟩
  · simp only [fetchBooks, fetchBooksTry, hpopular, if_true, hp]
  · simp only [fetchBooks, fetchBooksTry, hpopular, if_true]
    split
    · exact (List.filter_sublist _).trans (List.filter_sublist _)
    · exact List.filter_sublist _
  · simp only [fetchBooks, fetchBooksTry, hpopular, if_true, Bool.or_true]

/-- The popular filter on three fetched books, of stock 0, 5 and 12. -/
theorem popular_filter_shows_low_positive_stock_witness :
    (fetchBooks 0 []
        (.ok { books := some [sampleBook "a" 0, sampleBook "b" 5, sampleBook "c" 12] })
        { isPopular := true }
        { books := [], totalBooks := 0, loading := true, error := none }).books
        = [sampleBook "b" 5]
      ∧ (fetchBooks 0 []
        (.ok { books := some [sampleBook "a" 0, sampleBook "b" 5, sampleBook "c" 12] })
        { isPopular := true }
        { books := [], totalBooks := 0, loading := true, error := none }).totalBooks = 1 :=
  have h := popular_filter_shows_low_positive_stock 0 []
    { books := some [sampleBook "a" 0, sampleBook "b" 5, sampleBook "c" 12] }
    { isPopular := true } { books := [], totalBooks := 0, loading := true, error := none } rfl
  ⟨h.1, h.2.2⟩

end BooksPage

namespace JavaScript

/-! ## Lemmas on `parseInt` -/

theorem bitLengthAux_zero (fuel : Nat) : bitLengthAux fuel 0 = 0 := by
  cases fuel <;> simp [bitLengthAux]

theorem bitLengthAux_bounds :
    ∀ (fuel n : Nat), n ≤ fuel →
      n < 2 ^ bitLengthAux fuel n ∧ (n ≠ 0 → 2 ^ (bitLengthAux fuel n - 1) ≤ n) := by
  intro fuel
  induction fuel with
  | zero =>
    intro n hn
    have h0 : n = 0 := by omega
    subst h0
    simp [bitLengthAux]
  | succ fuel ih =>
    intro n hn
    by_cases h0 : n = 0
    · subst h0
      simp [bitLengthAux]
    · have hhalf : n / 2 ≤ fuel := by omega
      obtain ⟨hlt, hge⟩ := ih (n / 2) hhalf
      simp only [bitLengthAux, if_neg h0, Nat.add_sub_cancel]
      refine ⟨?_, fun _ => ?_⟩
      · rw [pow_succ]
        omega
      · by_cases h1 : n / 2 = 0
        · rw [h1, bitLengthAux_zero]
          simp only [pow_zero]
          omega
        · have hk : bitLengthAux fuel (n / 2) ≠ 0 := by
            intro hk
            rw [hk] at hlt
            simp only [pow_zero] at hlt
            omega
          have hge1 := hge h1
          obtain ⟨k, hk1⟩ := Nat.exists_eq_succ_of_ne_zero hk
          rw [hk1] at hge1 ⊢
          simp only [Nat.succ_eq_add_one, Nat.add_sub_cancel] at hge1
          rw [Nat.succ_eq_add_one, pow_succ]
          omega

/-- A natural number below `2^53` is its own double; from `2^53` on, the
nearest double is at least `2^53`. -/
theorem roundToDouble_cases (n m : Nat) (h : roundToDouble n = some m) :
    (n < 2 ^ 53 ∧ m = n) ∨ (2 ^ 53 ≤ n ∧ 2 ^ 53 ≤ m) := by
  unfold roundToDouble at h
  by_cases hn : n < 2 ^ 53
  · rw [if_pos hn] at h
    exact Or.inl ⟨hn, (Option.some.inj h).symm⟩
  · rw [if_neg hn] at h
    have hn1 : 2 ^ 53 ≤ n := Nat.le_of_not_lt hn
    refine Or.inr ⟨hn1, ?_⟩
    obtain ⟨hlt, hge⟩ := bitLengthAux_bounds n n le_rfl
    have hne : n ≠ 0 := by
      intro h0
      rw [h0] at hn1
      simp at hn1
    have hge1 := hge hne
    have hL : 53 < bitLengthAux n n := by
      by_contra hL
      have : 2 ^ bitLengthAux n n ≤ 2 ^ 53 := Nat.pow_le_pow_right (by decide) (by omega)
      omega
    obtain ⟨e, he⟩ : ∃ e, bitLengthAux n n = e + 54 := ⟨bitLengthAux n n - 54, by omega⟩
    simp only [bitLength, he] at h hge1
    have e1 : e + 54 - 53 = e + 1 := by omega
    have e2 : e + 54 - 1 = 52 + (e + 1) := by omega
    rw [e1] at h
    rw [e2, pow_add] at hge1
    have hq : 2 ^ 52 ≤ n / 2 ^ (e + 1) := (Nat.le_div_iff_mul_le (by positivity)).mpr hge1
    have hpow : 2 ≤ 2 ^ (e + 1) := by
      rw [pow_succ]
      have : 0 < 2 ^ e := by positivity
      omega
    have h53 : 2 ^ 53 = 2 ^ 52 * 2 := by norm_num
    split at h <;> split at h
    · rw [← Option.some.inj h, h53]
      exact Nat.mul_le_mul (by omega) hpow
    · exact absurd h (by simp)
    · rw [← Option.some.inj h, h53]
      exact Nat.mul_le_mul hq hpow
    · exact absurd h (by simp)

/-- The digit run `9007199254740993` is `2^53 + 1`, which is no double:
`parseInt` returns `2^53`, the nearest one. -/
theorem parseInt_rounds_to_double :
    parseInt "9007199254740993" = .finite 9007199254740992
      ∧ parseInt "9007199254740992" = .finite 9007199254740992
      ∧ parseInt "-9007199254740995" = .finite (-9007199254740996)
      ∧ parseInt " 42px" = .finite 42
      ∧ parseInt "0x1F" = .finite 31
      ∧ parseInt "abc" = .nan
      ∧ parseInt "" = .nan := by
  refine ⟨?_, ?_, ?_, ?_, ?_, ?_, ?_⟩ <;> rfl

end JavaScript

namespace BookDetailPage

/-! ## The quantity control -/

theorem run_keeps_range (stock : Int) (op : QuantityOp) (s : State)
    (hbook : s.book = some ⟨stock⟩) (hq : 1 ≤ s.quantity ∧ s.quantity ≤ stock) :
    (op.run s).book = some ⟨stock⟩
      ∧ 1 ≤ (op.run s).quantity ∧ (op.run s).quantity ≤ stock := by
  have hstock : 1 ≤ stock := le_trans hq.1 hq.2
  have hso : stockOrOne s.book = stock := by
    rw [hbook]
    simp only [stockOrOne]
    split
    · omega
    · rfl
  cases op with
  | decrement =>
    simp only [QuantityOp.run, decrement]
    split
    · exact ⟨hbook, by simp only; omega, by simp only; omega⟩
    · exact ⟨hbook, hq⟩
  | increment =>
    simp only [QuantityOp.run, increment]
    rw [hbook]
    simp only
    split
    · exact ⟨rfl, by simp only; omega, by simp only; omega⟩
    · exact ⟨hbook, hq⟩
  | typed value =>
    simp only [QuantityOp.run, handleQuantityChange, hso]
    split
    · split
      · rename_i v _ hv
        exact ⟨hbook, by simp only; omega, by simp only; omega⟩
      · exact ⟨hbook, hq⟩
    · exact ⟨hbook, hq⟩
    · exact ⟨hbook, hq⟩

theorem runOps_keeps_range (stock : Int) :
    ∀ (ops : List QuantityOp) (s : State), s.book = some ⟨stock⟩ →
      1 ≤ s.quantity ∧ s.quantity ≤ stock →
      (runOps ops s).book = some ⟨stock⟩
        ∧ 1 ≤ (runOps ops s).quantity ∧ (runOps ops s).quantity ≤ stock
  | [], _, hbook, hq => ⟨hbook, hq⟩
  | op :: ops, s, hbook, hq =>
    runOps_keeps_range stock ops (op.run s) (run_keeps_range stock op s hbook hq).1
      (run_keeps_range stock op s hbook hq).2

/-- C30: take the stock of the book to be an integer `stock` that is at most
`Number.MAX_SAFE_INTEGER`, so that the arithmetic of the page is exact, and a
quantity between 1 and `stock`. After every sequence of clicks on `-`, clicks
on `+` and typed values the quantity is still between 1 and `stock`. In every
state so reached a typed value is ignored, the state staying as it is, when
`parseInt` returns `NaN`, an infinity, a number below 1 or a number above
`stock` for it; and so it is when the typed text has no digit run or when the
integer of its digit run, taken exactly, is below 1 or above `stock`. -/
theorem quantity_stays_in_range (stock : Int) (ops : List QuantityOp) (s : State)
    (hsafe : stock ≤ JavaScript.MAX_SAFE_INTEGER)
    (hbook : s.book = some ⟨stock⟩) (hq : 1 ≤ s.quantity ∧ s.quantity ≤ stock) :
    (1 ≤ (runOps ops s).quantity ∧ (runOps ops s).quantity ≤ stock)
      ∧ (∀ value : String,
          (JavaScript.parseInt value = .nan
            ∨ (∃ negative, JavaScript.parseInt value = .infinity negative)
            ∨ (∃ v, JavaScript.parseInt value = .finite v ∧ (v < 1 ∨ stock < v))) →
          handleQuantityChange value (runOps ops s) = runOps ops s)
      ∧ (∀ value : String,
          (JavaScript.signAndMathInt value = none
            ∨ (∃ sign n, JavaScript.signAndMathInt value = some (sign, n)
                ∧ (sign * (n : Int) < 1 ∨ stock < sign * (n : Int)))) →
          handleQuantityChange value (runOps ops s) = runOps ops s) := by
  have h := runOps_keeps_range stock ops s hbook hq
  have hso : stockOrOne (runOps ops s).book = stock := by
    rw [h.1]
    simp only [stockOrOne]
    split
    · omega
    · rfl
  refine ⟨h.2, ?_, ?_⟩
  · intro value hv
    simp only [handleQuantityChange, hso]
    rcases hv with hv | ⟨negative, hv⟩ | ⟨v, hv, hr⟩
    · rw [hv]
    · rw [hv]
    · rw [hv]
      simp only
      rw [if_neg (by omega)]
  · intro value hv
    simp only [handleQuantityChange, JavaScript.parseInt, hso]
    rcases hv with hv | ⟨sign, n, hv, hr⟩
    · rw [hv]
    · rw [hv]
      simp only
      cases hrd : JavaScript.roundToDouble n with
      | none => rfl
      | some m =>
        simp only
        rw [if_neg]
        rcases JavaScript.roundToDouble_cases n m hrd with ⟨_, hm⟩ | ⟨_, hm⟩
        · rw [hm]
          omega
        · have hm1 : (2 : Int) ^ 53 ≤ (m : Int) := by exact_mod_cast hm
          have hs : stock < (2 : Int) ^ 53 := by
            unfold JavaScript.MAX_SAFE_INTEGER at hsafe
            norm_num
            omega
          intro hc
          rcases le_or_lt sign 0 with hneg | hpos
          · have : sign * (m : Int) ≤ 0 :=
              Int.mul_nonpos_of_nonpos_of_nonneg hneg (by omega)
            omega
          · have : (m : Int) ≤ sign * (m : Int) :=
              le_mul_of_one_le_left (by omega) hpos
            omega

/-- Witness for C30: a book whose stock is `Number.MAX_SAFE_INTEGER` and a run
of clicks and typed values, among them a digit run above the stock that
`parseInt` rounds to `2^53`, a text that is no number and a zero. -/
theorem quantity_stays_in_range_witness :
    (runOps [.increment, .increment, .typed "9007199254740993", .typed "abc", .typed "0",
        .decrement, .typed "4", .increment]
        { book := some ⟨9007199254740991⟩, quantity := 9007199254740990 }).quantity = 5
      ∧ (1 ≤ (runOps [.increment, .increment, .typed "9007199254740993", .typed "abc",
            .typed "0", .decrement, .typed "4", .increment]
            { book := some ⟨9007199254740991⟩, quantity := 9007199254740990 }).quantity
        ∧ (runOps [.increment, .increment, .typed "9007199254740993", .typed "abc",
            .typed "0", .decrement, .typed "4", .increment]
            { book := some ⟨9007199254740991⟩, quantity := 9007199254740990 }).quantity
          ≤ 9007199254740991) :=
  ⟨by rfl,
    (quantity_stays_in_range 9007199254740991
      [.increment, .increment, .typed "9007199254740993", .typed "abc", .typed "0",
        .decrement, .typed "4", .increment]
      { book := some ⟨9007199254740991⟩, quantity := 9007199254740990 }
      (by decide) rfl (by decide)).1⟩

end BookDetailPage

namespace JavaScript

/-! ## Lemmas on `trim`, the matcher and `length` -/

theorem trim_isEmpty_iff (s : List Char) :
    (trim s).isEmpty = true ↔ ∀ c ∈ s, isWhiteSpace c = true := by
  unfold trim
  rw [List.isEmpty_iff, List.reverse_eq_nil_iff, List.dropWhile_eq_nil_iff]
  constructor
  · intro h c hc
    rw [← List.takeWhile_append_dropWhile isWhiteSpace s] at hc
    rcases List.mem_append.mp hc with hc | hc
    · exact (List.mem_takeWhile_imp hc)
    · exact h c (List.mem_reverse.mpr hc)
  · intro h c hc
    exact h c ((List.dropWhile_sublist _).subset (List.mem_reverse.mp hc))

theorem matchAtoms_nil (s : List Char) : matchAtoms [] s = true ↔ s = [] := by
  simp [matchAtoms, List.isEmpty_iff]

theorem matchAtoms_lit (c : Char) (rest : List Atom) (s : List Char) :
    matchAtoms (.lit c :: rest) s = true ↔ ∃ b, s = c :: b ∧ matchAtoms rest b = true := by
  cases s with
  | nil => simp [matchAtoms]
  | cons x xs =>
    simp only [matchAtoms, Bool.and_eq_true, beq_iff_eq, List.cons.injEq]
    constructor
    · rintro ⟨hx, hm⟩
      exact ⟨xs, ⟨hx, rfl⟩, hm⟩
    · rintro ⟨b, ⟨hx, hb⟩, hm⟩
      exact ⟨hx, hb ▸ hm⟩

theorem matchAtoms_plus (p : Char → Bool) (rest : List Atom) :
    ∀ s : List Char, matchAtoms (.plus p :: rest) s = true
      ↔ ∃ a b, s = a ++ b ∧ a ≠ [] ∧ (∀ x ∈ a, p x = true) ∧ matchAtoms rest b = true
  | [] => by
    simp only [matchAtoms, Bool.false_eq_true, false_iff]
    rintro ⟨a, b, hs, ha, _⟩
    cases a with
    | nil => exact ha rfl
    | cons _ _ => simp at hs
  | x :: xs => by
    have ih := matchAtoms_plus p rest xs
    simp only [matchAtoms, Bool.and_eq_true, Bool.or_eq_true]
    constructor
    · rintro ⟨hx, hm | hm⟩
      · exact ⟨[x], xs, rfl, by simp, by simpa using hx, hm⟩
      · obtain ⟨a, b, hs, _, hall, hb⟩ := ih.mp hm
        refine ⟨x :: a, b, by rw [hs]; rfl, by simp, ?_, hb⟩
        intro y hy
        rcases List.mem_cons.mp hy with hy | hy
        · rw [hy]; exact hx
        · exact hall y hy
    · rintro ⟨a, b, hs, ha, hall, hb⟩
      cases a with
      | nil => exact absurd rfl ha
      | cons y ys =>
        simp only [List.cons_append, List.cons.injEq] at hs
        refine ⟨by rw [hs.1]; exact hall y (List.mem_cons_self _ _), ?_⟩
        cases ys with
        | nil =>
          left
          rw [hs.2]
          exact hb
        | cons z zs =>
          right
          exact ih.mpr ⟨z :: zs, b, hs.2, by simp,
            fun w hw => hall w (List.mem_cons_of_mem _ hw), hb⟩

theorem utf16Length_eq_length (s : String) (h : ∀ c ∈ s.toList, c.toNat < 0x10000) :
    utf16Length s = s.length := by
  unfold utf16Length
  rw [String.length]
  have : ∀ l : List Char, (∀ c ∈ l, c.toNat < 0x10000) →
      (l.map (fun c => if c.toNat < 0x10000 then 1 else 2)).sum = l.length := by
    intro l
    induction l with
    | nil => intro _; rfl
    | cons a l ih =>
      intro hl
      rw [List.map_cons, List.sum_cons, List.length_cons,
        ih (fun c hc => hl c (List.mem_cons_of_mem _ hc)),
        if_pos (hl a (List.mem_cons_self _ _))]
      omega
  exact this s.data h

end JavaScript

namespace ProfilePage

/-! ## Validation of the update form -/

theorem notSpaceOrAt_iff (c : Char) :
    notSpaceOrAt c = true ↔ JavaScript.isWhiteSpace c = false ∧ c ≠ '@' := by
  simp [notSpaceOrAt]

theorem emailRegex_iff (s : String) :
    JavaScript.matchAtoms emailRegex s.toList = true ↔ EmailShape s := by
  unfold emailRegex EmailShape
  rw [JavaScript.matchAtoms_plus]
  constructor
  · rintro ⟨l, b, hs, hl, hlall, hb⟩
    rw [JavaScript.matchAtoms_lit] at hb
    obtain ⟨b1, hb1, hm1⟩ := hb
    rw [JavaScript.matchAtoms_plus] at hm1
    obtain ⟨d, b2, hs2, hd, hdall, hm2⟩ := hm1
    rw [JavaScript.matchAtoms_lit] at hm2
    obtain ⟨b3, hb3, hm3⟩ := hm2
    rw [JavaScript.matchAtoms_plus] at hm3
    obtain ⟨t, b4, hs4, ht, htall, hm4⟩ := hm3
    rw [JavaScript.matchAtoms_nil] at hm4
    refine ⟨l, d, t, ?_, hl, hd, ht, ?_⟩
    · rw [hs, hb1, hs2, hb3, hs4, hm4, List.append_nil]
    · intro c hc
      rw [← notSpaceOrAt_iff]
      rcases List.mem_append.mp hc with hc | hc
      · rcases List.mem_append.mp hc with hc | hc
        · exact hlall c hc
        · exact hdall c hc
      · exact htall c hc
  · rintro ⟨l, d, t, hs, hl, hd, ht, hall⟩
    have hp : ∀ c ∈ l ++ d ++ t, notSpaceOrAt c = true :=
      fun c hc => (notSpaceOrAt_iff c).mpr (hall c hc)
    refine ⟨l, '@' :: (d ++ '.' :: t), hs, hl,
      fun c hc => hp c (List.mem_append_left _ (List.mem_append_left _ hc)), ?_⟩
    rw [JavaScript.matchAtoms_lit]
    refine ⟨_, rfl, ?_⟩
    rw [JavaScript.matchAtoms_plus]
    refine ⟨d, '.' :: t, rfl, hd,
      fun c hc => hp c (List.mem_append_left _ (List.mem_append_right _ hc)), ?_⟩
    rw [JavaScript.matchAtoms_lit]
    refine ⟨_, rfl, ?_⟩
    rw [JavaScript.matchAtoms_plus]
    exact ⟨t, [], by simp, ht, fun c hc => hp c (List.mem_append_right _ hc),
      (JavaScript.matchAtoms_nil []).mpr rfl⟩

theorem trim_nonempty_iff (s : String) :
    (JavaScript.trim s.toList).isEmpty = false ↔ HasVisibleChar s := by
  unfold HasVisibleChar
  rw [← Bool.not_eq_true, JavaScript.trim_isEmpty_iff]
  constructor
  · intro h
    by_contra hn
    apply h
    intro c hc
    by_contra hw
    exact hn ⟨c, hc, by simpa using hw⟩
  · rintro ⟨c, hc, hw⟩ h
    rw [h c hc] at hw
    cases hw

theorem emailShape_visible (s : String) (h : EmailShape s) : HasVisibleChar s := by
  obtain ⟨l, d, t, hs, hl, _, _, hall⟩ := h
  cases l with
  | nil => exact absurd rfl hl
  | cons c cs =>
    refine ⟨c, by rw [hs]; simp, (hall c (by simp)).1⟩

theorem phoneRegexTest_iff (s : String) :
    phoneRegexTest s = true
      ↔ (s.toList.length = 10 ∨ s.toList.length = 11)
        ∧ ∀ c ∈ s.toList, 48 ≤ c.toNat ∧ c.toNat ≤ 57 := by
  simp only [phoneRegexTest, isDigit, Bool.and_eq_true, List.all_eq_true, decide_eq_true_eq,
    Bool.or_eq_true, beq_iff_eq]
  tauto

theorem phone_error_iff (s : String) :
    ¬ (s ≠ "" ∧ (!phoneRegexTest s) = true) ↔ PhoneShape s := by
  unfold PhoneShape
  rw [← phoneRegexTest_iff]
  by_cases h0 : s = ""
  · simp [h0]
  · simp [h0]

theorem newErrors_fullName (f : UpdateFormData) :
    (newErrors f).fullName.isSome = true ↔ ¬ HasVisibleChar f.fullName := by
  rw [← trim_nonempty_iff]
  simp only [newErrors]
  cases (JavaScript.trim f.fullName.toList).isEmpty <;> simp

theorem newErrors_email (f : UpdateFormData) :
    (newErrors f).email.isSome = true ↔ ¬ EmailShape f.email := by
  simp only [newErrors]
  by_cases he : EmailShape f.email
  · have h1 := (trim_nonempty_iff f.email).mpr (emailShape_visible f.email he)
    have h2 := (emailRegex_iff f.email).mpr he
    rw [h1, h2]
    simp [he]
  · have h2 : JavaScript.matchAtoms emailRegex f.email.toList = false := by
      rw [← Bool.not_eq_true, emailRegex_iff]
      exact he
    rw [h2]
    cases (JavaScript.trim f.email.toList).isEmpty <;> simp [he]

theorem newErrors_phone (f : UpdateFormData) :
    (newErrors f).phone.isSome = true ↔ ¬ PhoneShape f.phone := by
  rw [← phone_error_iff, not_not]
  simp only [newErrors]
  split <;> simp_all

theorem newErrors_currentPassword (f : UpdateFormData) :
    (newErrors f).currentPassword.isSome = true
      ↔ f.newPassword ≠ "" ∧ f.currentPassword = "" := by
  simp only [newErrors]
  split <;> simp_all

theorem newErrors_newPassword (f : UpdateFormData) :
    (newErrors f).newPassword.isSome = true
      ↔ f.newPassword ≠ "" ∧ JavaScript.utf16Length f.newPassword < 6 := by
  simp only [newErrors]
  split <;> simp_all

theorem newErrors_confirmPassword (f : UpdateFormData) :
    (newErrors f).confirmPassword.isSome = true
      ↔ f.newPassword ≠ "" ∧ f.confirmPassword ≠ f.newPassword := by
  simp only [newErrors]
  split
  · rename_i h
    simp only [Option.isSome_some, true_iff]
    exact ⟨h.1, fun hc => h.2 hc.symm⟩
  · rename_i h
    simp only [Option.isSome_none, Bool.false_eq_true, false_iff]
    rintro ⟨h1, h2⟩
    exact h ⟨h1, fun hc => h2 hc.symm⟩

theorem validateUpdateForm_true_iff (f : UpdateFormData) :
    (validateUpdateForm f).1 = true
      ↔ ¬ (newErrors f).fullName.isSome = true ∧ ¬ (newErrors f).email.isSome = true
        ∧ ¬ (newErrors f).phone.isSome = true ∧ ¬ (newErrors f).currentPassword.isSome = true
        ∧ ¬ (newErrors f).newPassword.isSome = true
        ∧ ¬ (newErrors f).confirmPassword.isSome = true := by
  simp only [validateUpdateForm, Bool.and_eq_true, Option.isNone_iff_eq_none,
    Option.isSome_iff_ne_none, ne_eq, not_not]
  tauto

theorem passwordFieldsOk_iff (f : UpdateFormData) :
    PasswordFieldsOk f
      ↔ ¬ (f.newPassword ≠ "" ∧ f.currentPassword = "")
        ∧ ¬ (f.newPassword ≠ "" ∧ JavaScript.utf16Length f.newPassword < 6)
        ∧ ¬ (f.newPassword ≠ "" ∧ f.confirmPassword ≠ f.newPassword) := by
  unfold PasswordFieldsOk
  by_cases h : f.newPassword = ""
  · simp [h]
  · simp only [ne_eq, h, not_false_eq_true, true_and, forall_const, not_not, not_lt]

/-- C28: the payload that `handleUpdateProfile` sends for a form accepted by
`validateUpdateForm` either holds both `currentPassword` and `newPassword`, both
non-empty and the new one of length at least 6, or holds neither; it never holds
a new password without a current one, and the two fields are truthy together,
which is the test `updateProfile` of the backend makes before changing a
password. -/
theorem accepted_form_sends_both_or_neither (f : UpdateFormData) (payload : UpdateData)
    (h : handleUpdateProfile f = some payload) :
    ((∃ currentPassword newPassword, payload.currentPassword = some currentPassword
          ∧ payload.newPassword = some newPassword
          ∧ currentPassword ≠ "" ∧ newPassword ≠ ""
          ∧ 6 ≤ JavaScript.utf16Length newPassword)
        ∨ (payload.currentPassword = none ∧ payload.newPassword = none))
      ∧ ¬ (payload.newPassword ≠ none ∧ payload.currentPassword = none)
      ∧ AuthService.truthy payload.newPassword = AuthService.truthy payload.currentPassword := by
  unfold handleUpdateProfile at h
  split at h
  · rename_i hv
    simp only [Option.some.injEq] at h
    rw [validateUpdateForm_true_iff, newErrors_currentPassword, newErrors_newPassword] at hv
    have hcur := hv.2.2.2.1
    have hnew := hv.2.2.2.2.1
    rw [← h]
    unfold buildUpdateData
    by_cases hn : f.newPassword = ""
    · simp [hn, AuthService.truthy]
    · have hc : f.currentPassword ≠ "" := fun hc => hcur ⟨hn, hc⟩
      have hl : 6 ≤ JavaScript.utf16Length f.newPassword := by
        by_contra hl
        exact hnew ⟨hn, by omega⟩
      have hn1 : (f.newPassword != "") = true := by simpa using hn
      have hc1 : (f.currentPassword != "") = true := by simpa using hc
      simp [hn, hc, hl, AuthService.truthy, hn1, hc1]
  · simp at h

/-- Witness for C28: the payload built from the sample form. -/
theorem accepted_form_sends_both_or_neither_witness :
    handleUpdateProfile sampleForm
        = some { fullName := "An Nguyen", email := "an@example.com",
                 phone := some "0911222333", currentPassword := some "secret",
                 newPassword := some "s3cret!" }
      ∧ AuthService.truthy (some "s3cret!") = AuthService.truthy (some "secret") :=
  ⟨by rfl,
    (accepted_form_sends_both_or_neither sampleForm
      { fullName := "An Nguyen", email := "an@example.com", phone := some "0911222333",
        currentPassword := some "secret", newPassword := some "s3cret!" } (by rfl)).2.2⟩

/-- C29: `validateUpdateForm` returns true exactly when the full name has a
character that is not white space, the email has the shape `local@domain.tld`
(no white space, one `@`), the phone is empty or made of 10 or 11 decimal
digits, and, when a new password is typed, the current password is not empty,
the new password has length at least 6 and the confirmation equals it; each of
the six errors is recorded exactly when its condition is violated. The length
is the `length` of JavaScript, which is the number of characters for a password
without characters beyond U+FFFF. -/
theorem validateUpdateForm_accepts_iff (f : UpdateFormData) :
    ((validateUpdateForm f).1 = true
        ↔ HasVisibleChar f.fullName ∧ EmailShape f.email ∧ PhoneShape f.phone
          ∧ PasswordFieldsOk f)
      ∧ ((validateUpdateForm f).2.fullName.isSome = true ↔ ¬ HasVisibleChar f.fullName)
      ∧ ((validateUpdateForm f).2.email.isSome = true ↔ ¬ EmailShape f.email)
      ∧ ((validateUpdateForm f).2.phone.isSome = true ↔ ¬ PhoneShape f.phone)
      ∧ ((validateUpdateForm f).2.currentPassword.isSome = true
          ↔ f.newPassword ≠ "" ∧ f.currentPassword = "")
      ∧ ((validateUpdateForm f).2.newPassword.isSome = true
          ↔ f.newPassword ≠ "" ∧ JavaScript.utf16Length f.newPassword < 6)
      ∧ ((validateUpdateForm f).2.confirmPassword.isSome = true
          ↔ f.newPassword ≠ "" ∧ f.confirmPassword ≠ f.newPassword)
      ∧ ((∀ c ∈ f.newPassword.toList, c.toNat < 0x10000) →
          JavaScript.utf16Length f.newPassword = f.newPassword.length) := by
  refine ⟨?_, newErrors_fullName f, newErrors_email f, newErrors_phone f,
    newErrors_currentPassword f, newErrors_newPassword f, newErrors_confirmPassword f,
    JavaScript.utf16Length_eq_length f.newPassword⟩
  rw [validateUpdateForm_true_iff, newErrors_fullName, newErrors_email, newErrors_phone,
    newErrors_currentPassword, newErrors_newPassword, newErrors_confirmPassword,
    passwordFieldsOk_iff, not_not, not_not, not_not]


/-- Witness for C29: the sample form is accepted, so it meets the four conditions. -/
theorem validateUpdateForm_accepts_iff_witness :
    (validateUpdateForm sampleForm).1 = true
      ∧ HasVisibleChar sampleForm.fullName ∧ EmailShape sampleForm.email
      ∧ PhoneShape sampleForm.phone ∧ PasswordFieldsOk sampleForm :=
  ⟨by rfl, (validateUpdateForm_accepts_iff sampleForm).1.mp (by rfl)⟩

end ProfilePage
